import Mathlib

/-! oneDAL: homogeneous tables, row accessors and the test-engine matrix.

A shallow embedding of

* `cpp/oneapi/dal/table/homogen.hpp` (`homogen_table` construction),
* `cpp/oneapi/dal/test/engine/linalg/matrix.hpp` (`shape`, `matrix_base`,
  `matrix`),
* `cpp/oneapi/dal/backend/interop/table_conversion.hpp`
  (`convert_to_daal_homogen_table`),
* `cpp/oneapi/dal/backend/memory.hpp` and `transfer.hpp` (`malloc`,
  `is_device_usm`, `to_device`, `to_host`),
* `cpp/oneapi/dal/backend/common.hpp` (`down_multiple`, `up_multiple`,
  `down_pow2`, `up_pow2`, `make_multiple_nd_range_1d`),
* `cpp/oneapi/dal/algo/svm/backend/utils.hpp` (`convert_labels`),
* the accessor contract (`row_accessor::pull` / `push`), whose implementation
  is not among the sources and is modelled from the specification.

Conventions.

* `std::int64_t` values are `Int`.  Signed overflow is undefined in the source
  (it does not wrap); the products that matter are guarded by
  `check_mul_overflow` / `ONEDAL_ASSERT_MUL_OVERFLOW`.  The integer helpers of
  `common.hpp`, whose loops double without a guard, take the reduction to the
  machine range as a parameter `wrap`.
* A pointer is an address (`Nat`), `0` being `nullptr`.
* Element values live in one type `V`; the element type of a buffer is a
  `data_type` tag and the numeric conversion between two different element
  types is a parameter `cv` (floating point is not modelled).  The operator
  `==` with which `convert_labels` compares `float` or `double` labels is a
  parameter `eq`; it is not taken to be reflexive, a NaN being unequal to
  itself.
* `throw` is `Except.error`; a failed `ONEDAL_ASSERT` is `none`.
-/

namespace oneapi.dal

/-! ## Errors -/

/-- The messages of `detail::error_messages` that the embedded code uses. -/
inductive error_messages where
  | rc_leq_zero
  | cc_leq_zero
  | rc_and_cc_do_not_match_element_count_in_array
  | unknown_usm_pointer_type
  | input_labels_contain_only_one_unique_value_expect_two
  | input_labels_contain_wrong_unique_values_count_expect_two
  deriving DecidableEq, Repr

/-- The exception classes thrown by the embedded code.  `mul_overflow` stands
for whatever `detail::check_mul_overflow` throws (its class is not visible in
the sources); `capacity_error` and `immutable_buffer_error` are the
`CapacityError` and `ImmutableBufferError` of the specification;
`host_bad_alloc` and `device_bad_alloc` are thrown by `backend::malloc`. -/
inductive error where
  | domain_error (msg : error_messages)
  | invalid_argument (msg : error_messages)
  | range_error
  | mul_overflow
  | capacity_error
  | immutable_buffer_error
  | host_bad_alloc
  | device_bad_alloc
  deriving DecidableEq, Repr

/-! ## Element types and layouts -/

/-- The element types a homogen table is documented to hold (`float`,
`double`, `std::int32_t`), as dispatched on in `wrap_by_host_homogen_adapter`. -/
inductive data_type where
  | float32
  | float64
  | int32
  deriving DecidableEq, Repr

/-- The value `sizeof(Data)` of the element type behind a `data_type` tag. -/
def element_size : data_type → Int
  | .float32 => 4
  | .float64 => 8
  | .int32 => 4

/-- The enumeration `data_layout` of the table module. -/
inductive data_layout where
  | row_major
  | column_major
  deriving DecidableEq, Repr

/-- Element-wise conversion: values are converted only if source and
destination element types differ. -/
def convert {V : Type} (cv : data_type → data_type → V → V) (src dst : data_type) (v : V) : V :=
  if src = dst then v else cv src dst v

/-! ## The SYCL runtime, as far as the embedded code observes it -/

namespace sycl

/-- The enumeration `sycl::usm::alloc`. -/
inductive usm.alloc where
  | host
  | device
  | shared
  | unknown
  deriving DecidableEq, Repr

/-- A `sycl::queue`: the context and the device it was created for (as
identifiers); `operator==`, `get_context()` and `get_device()` are all the
embedded code uses. -/
structure queue where
  context : Nat
  device : Nat
  deriving DecidableEq, Repr

/-- The method `queue::get_context`. -/
def queue.get_context (q : queue) : Nat := q.context

/-- The method `queue::get_device`. -/
def queue.get_device (q : queue) : Nat := q.device

/-- A `sycl::event`: the default-constructed event `sycl::event{}`, which is
complete from the start, or the event returned by
`q.memcpy(dst, src, bytes)`. -/
inductive event where
  | completed
  | memcpy (q : queue) (dst src : Nat) (bytes : Int)
  deriving DecidableEq, Repr

/-- The USM bookkeeping of the SYCL runtime: `allocate size q alloc` is the
pointer the next `sycl::malloc(size, q, alloc)` returns (`0`, the null
pointer, when the allocation fails), and `pointer_type p ctx` is
`sycl::get_pointer_type(p, ctx)`. -/
structure runtime where
  allocate : Int → queue → usm.alloc → Nat
  pointer_type : Nat → Nat → usm.alloc

/-- The function `sycl::get_pointer_type(pointer, context)`. -/
def get_pointer_type (rt : runtime) (pointer : Nat) (context : Nat) : usm.alloc :=
  rt.pointer_type pointer context

/-- The function `sycl::malloc(size, queue, alloc)`: the pointer chosen by
the runtime; a successful allocation is recorded with its kind in the queue's
context. -/
def malloc (rt : runtime) (size : Int) (q : queue) (alloc : usm.alloc) : Nat × runtime :=
  if rt.allocate size q alloc = 0 then
    (0, rt)
  else
    (rt.allocate size q alloc,
     { rt with
       pointer_type := fun p ctx =>
         if p = rt.allocate size q alloc ∧ ctx = q.get_context then alloc
         else rt.pointer_type p ctx })

end sycl

/-! ## Buffers -/

/-- The buffer `array<T>`: the address of its first element, its elements
(`get_count` is their number), whether it holds writable storage
(`has_mutable_data`) and the queue it was allocated with, if any
(`get_queue`; host arrays carry none). -/
structure array (V : Type) where
  data_ptr : Nat
  data : List V
  is_mutable : Bool
  queue_ : Option sycl.queue := none
  deriving DecidableEq, Repr

/-- The method `array::get_count`. -/
def array.get_count {V : Type} (a : array V) : Int :=
  (a.data.length : Int)

/-- Modelled from the spec: the host allocator behind `array<T>::empty`, whose
code is not among the sources.  Every block handed out so far lies below
`next_ptr`; the allocator has unbounded memory, so `AllocationError` does not
arise in this model. -/
structure allocator where
  next_ptr : Nat
  deriving DecidableEq, Repr

/-- A block is live for an allocator when it was handed out before (or is
external memory the allocator will never hand out): it is non-null and lies
below the next free address. -/
def allocator.live (al : allocator) (p : Nat) : Prop :=
  0 < p ∧ p < al.next_ptr

instance (al : allocator) (p : Nat) : Decidable (al.live p) := by
  unfold allocator.live; infer_instance

/-- Modelled from the spec: `array<T>::empty(count)` (not among the sources).
It allocates `count` elements of fresh writable storage; a zero-count buffer
has a null data pointer.  The fresh elements are uninitialised: the caller
supplies what it writes into them as `contents`. -/
def array.empty {V : Type} (al : allocator) (contents : List V) : array V × allocator :=
  if contents.length = 0 then
    ({ data_ptr := 0, data := [], is_mutable := true }, al)
  else
    ({ data_ptr := al.next_ptr, data := contents, is_mutable := true },
     { next_ptr := al.next_ptr + contents.length })

/-- Modelled from the spec: `array<T>::wrap(pointer, count, deleter)` /
`detail::array_via_policy<Data>::wrap` (not among the sources): it borrows the
`count` elements found at `data_pointer`; `memory k` is the element at offset
`k` from that address.  Wrapped `const` memory is not writable. -/
def array.wrap {V : Type} (data_pointer : Nat) (memory : Nat → V) (count : Int) : array V :=
  { data_ptr := data_pointer, data := (List.range count.toNat).map memory, is_mutable := false }

/-- Modelled from the spec: `array::get_queue()` (`array.hpp` is not among the
sources): the optional device-context tag of the buffer. -/
def array.get_queue {V : Type} (a : array V) : Option sycl.queue := a.queue_

/-- Modelled from the spec: `array::has_mutable_data()` (§4.1; `array.hpp` is
not among the sources): whether the buffer holds exclusive, writable storage. -/
def array.has_mutable_data {V : Type} (a : array V) : Bool := a.is_mutable

/-- Modelled from the spec: `array::get_data()` (§4.1): the raw pointer. -/
def array.get_data {V : Type} (a : array V) : Nat := a.data_ptr

/-- Modelled from the spec: `array::get_mutable_data()` (§4.1; not among the
sources): the raw pointer, or `ImmutableBufferError` when the buffer is not
writable. -/
def array.get_mutable_data {V : Type} (a : array V) : Except error Nat :=
  if a.is_mutable then .ok a.data_ptr else .error .immutable_buffer_error

/-- Modelled from the spec: `array<T>::zeros(count)` (§4.1; not among the
sources): "allocates and initializes all elements to the zero value of the
element type". -/
def array.zeros {V : Type} [Zero V] (al : allocator) (count : Int) : array V × allocator :=
  array.empty al (List.replicate count.toNat 0)

/-! ## `homogen_table` (table/homogen.hpp) -/

/-- The state of a `homogen_table`: its dimensions, the element type recorded
in its metadata, its layout and the buffer it shares.  The byte buffer
`reinterpret_array_cast<byte_t>(data)` is kept as the typed buffer it was cast
from; its byte length is `byte_size`. -/
structure homogen_table (V : Type) where
  row_count : Int
  column_count : Int
  dtype : data_type
  layout : data_layout
  data : array V
  deriving DecidableEq, Repr

/-- The method `homogen_table::get_row_count`. -/
def homogen_table.get_row_count {V : Type} (t : homogen_table V) : Int := t.row_count

/-- The method `homogen_table::get_column_count`. -/
def homogen_table.get_column_count {V : Type} (t : homogen_table V) : Int := t.column_count

/-- The pointer returned by `homogen_table::get_data`. -/
def homogen_table.get_data {V : Type} (t : homogen_table V) : Nat := t.data.data_ptr

/-- Byte length of a buffer of element type `Data`. -/
def array.byte_size {V : Type} (Data : data_type) (a : array V) : Int :=
  a.get_count * element_size Data

/-- Byte length of the buffer a table holds. -/
def homogen_table.byte_size {V : Type} (t : homogen_table V) : Int :=
  t.data.byte_size t.dtype

/-- Smallest value of `std::int64_t`. -/
def int64_min : Int := -(2 ^ 63)

/-- Largest value of `std::int64_t`. -/
def int64_max : Int := 2 ^ 63 - 1

/-- Modelled from the spec: `detail::check_mul_overflow` (declared in
`oneapi/dal/detail/common.hpp`, not among the sources).  It returns the product
of its arguments when that product is representable in `std::int64_t` and
throws otherwise. -/
def check_mul_overflow (a b : Int) : Except error Int :=
  if int64_min ≤ a * b ∧ a * b ≤ int64_max then .ok (a * b) else .error .mul_overflow

/-- The function `homogen_table::validate_input_dimensions` (homogen.hpp:343-351). -/
def validate_input_dimensions (row_count column_count : Int) : Except error Unit :=
  if row_count ≤ 0 then
    .error (.domain_error .rc_leq_zero)
  else if column_count ≤ 0 then
    .error (.domain_error .cc_leq_zero)
  else
    .ok ()

/-- Modelled from the spec: the out-of-line overload
`init_impl(policy, row_count, column_count, array<byte_t>, dtype, layout)`
(declared at homogen.hpp:335-341, defined outside the sources).  On success the
builder produces a table that shares the buffer and records the dimensions,
element type and layout. -/
def init_impl_bytes {V : Type} (row_count column_count : Int) (data : array V)
    (dtype : data_type) (layout : data_layout) : homogen_table V :=
  { row_count := row_count, column_count := column_count, dtype := dtype,
    layout := layout, data := data }

/-- The overload `homogen_table::init_impl(policy, row_count, column_count,
data_pointer, data_deleter, layout)` (homogen.hpp:290-311), reached from the
pointer constructor and from `wrap(const Data*, ...)`.  `Data` is the template
argument; `memory` is what `data_pointer` points to. -/
def init_impl_pointer {V : Type} (Data : data_type) (row_count column_count : Int)
    (data_pointer : Nat) (memory : Nat → V) (layout : data_layout) :
    Except error (homogen_table V) := do
  validate_input_dimensions row_count column_count
  let count ← check_mul_overflow row_count column_count
  let data := array.wrap data_pointer memory count
  pure (init_impl_bytes row_count column_count data Data layout)

/-- The overload `homogen_table::init_impl(const array<Data>&, row_count,
column_count, layout)` (homogen.hpp:313-333), reached from the array
constructor and from `wrap(const array<Data>&, ...)`. -/
def init_impl_array {V : Type} (Data : data_type) (data : array V)
    (row_count column_count : Int) (layout : data_layout) :
    Except error (homogen_table V) := do
  validate_input_dimensions row_count column_count
  let count ← check_mul_overflow row_count column_count
  if data.get_count < count then
    throw (.invalid_argument .rc_and_cc_do_not_match_element_count_in_array)
  pure (init_impl_bytes row_count column_count data Data layout)

/-- The table invariant.  Tables are created by the constructors of
homogen.hpp (the builder of the specification), which reject non-positive
dimensions and buffers of fewer than `row_count * column_count` elements. -/
def homogen_table.well_formed {V : Type} (t : homogen_table V) : Prop :=
  0 < t.row_count ∧ 0 < t.column_count ∧ t.row_count * t.column_count ≤ t.data.get_count

instance {V : Type} (t : homogen_table V) : Decidable t.well_formed := by
  unfold homogen_table.well_formed; infer_instance

/-- The logical element `(row, col)` of a table, read from its storage: at
offset `row * column_count + col` of a row-major table and at offset
`col * row_count + row` of a column-major one (`none` outside the storage). -/
def homogen_table.logical_element {V : Type} (t : homogen_table V) (row col : Nat) : Option V :=
  match t.layout with
  | .row_major => t.data.data[row * t.column_count.toNat + col]?
  | .column_major => t.data.data[col * t.row_count.toNat + row]?

/-! ## Row accessor (modelled from the specification, §4.2 and §4.4) -/

/-- The pair `{start_idx, end_idx}` passed to `pull` / `push`, as in
`acc.pull({ 1, -1 })`. -/
structure range where
  start_idx : Int
  end_idx : Int
  deriving DecidableEq, Repr

/-- Modelled from the spec: sentinel resolution of a `range` (class `range` is
not among the sources).  "The sentinel `-1` is resolved to `row_count` (or
`column_count`) before validation." -/
def range.resolve_end (r : range) (extent : Int) : Int :=
  if r.end_idx = -1 then extent else r.end_idx

/-- Modelled from the spec: range validation of the accessors (not among the
sources).  "Fails with `RangeError` if `begin < 0`, `end > extent`, or
`begin > end` after sentinel resolution."  On success the resolved bounds are
returned. -/
def check_range (r : range) (extent : Int) : Except error (Nat × Nat) :=
  if r.start_idx < 0 ∨ r.resolve_end extent > extent ∨ r.start_idx > r.resolve_end extent then
    .error .range_error
  else
    .ok (r.start_idx.toNat, (r.resolve_end extent).toNat)

/-- Modelled from the spec: `linear_index(row, col)` of a layout descriptor
(§4.2): `row * stride + col` in row-major and `col * stride + row` in
column-major layout. -/
def linear_index (layout : data_layout) (stride row col : Nat) : Nat :=
  match layout with
  | .row_major => row * stride + col
  | .column_major => col * stride + row

/-- Modelled from the spec: the stride of a homogen table, which stores its
elements contiguously: `column_count` in row-major and `row_count` in
column-major layout. -/
def homogen_table.stride {V : Type} (t : homogen_table V) : Nat :=
  match t.layout with
  | .row_major => t.column_count.toNat
  | .column_major => t.row_count.toNat

/-- Modelled from the spec: the gather of `pull` (the accessor implementation
is not among the sources): "an element-by-element gather, applying the layout's
`linear_index` per source element and writing sequentially into the
destination", rows `b .. e-1`, every column, converting with `f`.  A read
outside the source storage (undefined in C++) yields `default`. -/
def gather {V : Type} [Inhabited V] (f : V → V) (t : homogen_table V) (b e : Nat) : List V :=
  (List.range (e - b)).flatMap fun k =>
    (List.range t.column_count.toNat).map fun c =>
      f (t.data.data.getD (linear_index t.layout t.stride (b + k) c) default)

/-- Modelled from the spec: the zero-copy condition of `pull`: "the source
element type equals the requested type and the requested range spans the whole
table and the physical layout already matches the desired output layout
(row-major, contiguous)". -/
def zero_copy_eligible {V : Type} (T : data_type) (t : homogen_table V) (b e : Nat) : Prop :=
  T = t.dtype ∧ b = 0 ∧ e = t.row_count.toNat ∧ t.layout = .row_major

instance {V : Type} (T : data_type) (t : homogen_table V) (b e : Nat) :
    Decidable (zero_copy_eligible T t b e) := by
  unfold zero_copy_eligible; infer_instance

/-- Modelled from the spec: the buffer that aliases the table's storage: same
data pointer, the `row_count * column_count` elements of the table. -/
def homogen_table.alias_data {V : Type} (t : homogen_table V) : array V :=
  { data_ptr := t.data.data_ptr,
    data := t.data.data.take (t.row_count.toNat * t.column_count.toNat),
    is_mutable := t.data.is_mutable,
    queue_ := t.data.queue_ }

/-- Modelled from the spec: `row_accessor<T>::pull(range)` (§4.4; the accessor
implementation is not among the sources).  `T` is the accessor's element type.
The range is resolved and validated; a zero-copy-eligible request returns a
buffer aliasing the table's storage; any other request allocates a fresh
buffer and gathers into it. -/
def row_accessor.pull {V : Type} [Inhabited V] (cv : data_type → data_type → V → V)
    (T : data_type) (al : allocator) (t : homogen_table V) (r : range) :
    Except error (array V × allocator) :=
  match check_range r t.row_count with
  | .error err => .error err
  | .ok (b, e) =>
    if zero_copy_eligible T t b e then
      .ok (t.alias_data, al)
    else
      .ok (array.empty al (gather (convert cv t.dtype T) t b e))

/-- Modelled from the spec: `array::need_mutable_data()` (§4.1; `array.hpp` is
not among the sources): "if the buffer does not currently have exclusive,
writable storage, allocates a private copy and repoints internal state to it". -/
def array.need_mutable_data {V : Type} (al : allocator) (a : array V) : array V × allocator :=
  if a.is_mutable then (a, al) else array.empty al a.data

/-- Modelled from the spec: the scatter of `push` (not among the sources): the
elements of the block are written, row by row, at the table's `linear_index`,
converting with `f`. -/
def scatter {V : Type} [Inhabited V] (f : V → V) (layout : data_layout) (stride columns : Nat)
    (dst block : List V) (b e : Nat) : List V :=
  (List.range (e - b)).foldl
    (fun acc k =>
      (List.range columns).foldl
        (fun acc1 c =>
          acc1.set (linear_index layout stride (b + k) c) (f (block.getD (k * columns + c) default)))
        acc)
    dst

/-- Modelled from the spec: `row_accessor<T>::push(block, range)` (§4.4; not
among the sources).  It validates the range as `pull` does; a block whose
element count is not that of the range is refused with `range_error`
(row_accessor.cpp:113-121); the table's buffer must be writable: a private copy
is made (`need_mutable_data`) unless the caller asked for in-place semantics
(`in_place`), in which case the call fails with `ImmutableBufferError`; then
the block is scattered into the table's layout, converted from `T` to the
table's element type. -/
def row_accessor.push {V : Type} [Inhabited V] (cv : data_type → data_type → V → V)
    (T : data_type) (in_place : Bool) (al : allocator) (t : homogen_table V)
    (block : array V) (r : range) : Except error (homogen_table V × allocator) :=
  match check_range r t.row_count with
  | .error err => .error err
  | .ok (b, e) =>
    if block.data.length ≠ (e - b) * t.column_count.toNat then
      .error .range_error
    else if t.data.is_mutable = false ∧ in_place = true then
      .error .immutable_buffer_error
    else
      let (buf, al1) := t.data.need_mutable_data al
      let written := scatter (convert cv T t.dtype) t.layout t.stride t.column_count.toNat
        buf.data block.data b e
      .ok ({ t with data := { buf with data := written } }, al1)

/-- The values of the conversion examples: a number together with the element
type it is held as. -/
structure typed_value where
  dtype : data_type
  number : Int
  deriving DecidableEq, Repr

instance : Inhabited typed_value := ⟨{ dtype := .float32, number := 0 }⟩

/-- The element conversion of the examples, whose numbers are whole: the
number is kept and is held as the destination type. -/
def typed_value.cast : data_type → data_type → typed_value → typed_value
  | _, dst, v => { v with dtype := dst }

/-- The 3x2 column-major table of row_accessor.cpp:78-103: it wraps the `float`
values `{ 1, 2, 3, -1, -2, -3 }` at address 8. -/
def float_table_3x2 : homogen_table typed_value :=
  init_impl_bytes 3 2
    { data_ptr := 8,
      data := [{ dtype := .float32, number := 1 }, { dtype := .float32, number := 2 },
               { dtype := .float32, number := 3 }, { dtype := .float32, number := -1 },
               { dtype := .float32, number := -2 }, { dtype := .float32, number := -3 }],
      is_mutable := false }
    data_type.float32 data_layout.column_major

/-! ## Test-engine matrix (test/engine/linalg/matrix.hpp) -/

namespace linalg

/-- The enumeration `layout` of the test engine. -/
inductive layout where
  | row_major
  | column_major
  deriving DecidableEq, Repr

/-- The function `transpose_layout` (matrix.hpp:30-32). -/
def transpose_layout (l : layout) : layout :=
  if l = layout.row_major then layout.column_major else layout.row_major

/-- The class `shape`: `shape_[0]` and `shape_[1]`. -/
structure shape where
  row_count : Int
  column_count : Int
  deriving DecidableEq, Repr

/-- The constructor `shape::shape` (matrix.hpp:36-50); `none` when one of its
assertions fails. -/
def shape.create (row_count column_count : Int) : Option shape :=
  if ¬ (row_count ≥ 0) then none
  else if ¬ (column_count ≥ 0) then none
  else if (row_count = 0 ∨ column_count = 0) ∧ ¬ (row_count = 0 ∧ column_count = 0) then none
  else if ¬ (int64_min ≤ row_count * column_count ∧ row_count * column_count ≤ int64_max) then none
  else some { row_count := row_count, column_count := column_count }

/-- The method `shape::get_row_count`. -/
def shape.get_row_count (s : shape) : Int := s.row_count

/-- The method `shape::get_column_count`. -/
def shape.get_column_count (s : shape) : Int := s.column_count

/-- The method `shape::get_count`. -/
def shape.get_count (s : shape) : Int := s.get_row_count * s.get_column_count

/-- The method `shape::t` (matrix.hpp:69-71). -/
def shape.t (s : shape) : shape :=
  { row_count := s.column_count, column_count := s.row_count }

/-- The class `matrix_base<lyt>`: the template argument `lyt`, `shape_` and
`stride_`. -/
structure matrix_base where
  lyt : layout
  shape_ : shape
  stride_ : Int
  deriving DecidableEq, Repr

/-- The method `matrix_base::get_layout`. -/
def matrix_base.get_layout (m : matrix_base) : layout := m.lyt

/-- The method `matrix_base::get_row_count`. -/
def matrix_base.get_row_count (m : matrix_base) : Int := m.shape_.get_row_count

/-- The method `matrix_base::get_column_count`. -/
def matrix_base.get_column_count (m : matrix_base) : Int := m.shape_.get_column_count

/-- The method `matrix_base::get_count`. -/
def matrix_base.get_count (m : matrix_base) : Int := m.shape_.get_count

/-- The method `matrix_base::get_stride`. -/
def matrix_base.get_stride (m : matrix_base) : Int := m.stride_

/-- The method `matrix_base::get_linear_index` (matrix.hpp:112-121); `none`
when one of its two range assertions fails. -/
def matrix_base.get_linear_index (m : matrix_base) (i j : Int) : Option Int :=
  if ¬ (i ≥ 0 ∧ i < m.get_row_count) then none
  else if ¬ (j ≥ 0 ∧ j < m.get_column_count) then none
  else if m.lyt = layout.row_major then some (i * m.get_stride + j)
  else some (j * m.get_stride + i)

/-- The constructor `matrix_base(const shape&, std::int64_t stride)`
(matrix.hpp:124-135); `none` when its stride assertion fails. -/
def matrix_base.create (lyt : layout) (s : shape) (stride : Int) : Option matrix_base :=
  if lyt = layout.row_major then
    if stride ≥ s.get_column_count then some { lyt := lyt, shape_ := s, stride_ := stride }
    else none
  else
    if stride ≥ s.get_row_count then some { lyt := lyt, shape_ := s, stride_ := stride }
    else none

/-- The function `matrix_base::get_default_stride` (matrix.hpp:140-148). -/
def matrix_base.get_default_stride (lyt : layout) (s : shape) : Int :=
  if lyt = layout.row_major then s.get_column_count else s.get_row_count

/-- The class `matrix<Float, lyt>`: a `matrix_base<lyt>` together with the
array `x_` it shares. -/
structure matrix (V : Type) extends matrix_base where
  x_ : array V
  deriving DecidableEq, Repr

/-- The private constructor `matrix(const array<Float>&, const shape&,
std::int64_t stride)` (matrix.hpp:470-476): the base constructor runs, then the
element count is asserted; `none` when an assertion fails. -/
def matrix.create {V : Type} (lyt : layout) (x : array V) (s : shape) (stride : Int) :
    Option (matrix V) :=
  match matrix_base.create lyt s stride with
  | none => none
  | some b => if s.get_count ≤ x.get_count then some { b with x_ := x } else none

/-- The function `matrix::wrap(const array<Float>&, const shape&)`
(matrix.hpp:190-192), through the constructor `matrix(x, s)` with the default
stride (matrix.hpp:478-479). -/
def matrix.wrap {V : Type} (lyt : layout) (x : array V) (s : shape) : Option (matrix V) :=
  matrix.create lyt x s (matrix_base.get_default_stride lyt s)

/-- The method `matrix::get_array`. -/
def matrix.get_array {V : Type} (m : matrix V) : array V := m.x_

/-- The method `matrix::get_shape`. -/
def matrix.get_shape {V : Type} (m : matrix V) : shape := m.shape_

/-- The method `matrix::t` (matrix.hpp:415-417): a matrix of the transposed
layout over the same array, the transposed shape and the same stride, built by
the private constructor. -/
def matrix.t {V : Type} (m : matrix V) : Option (matrix V) :=
  matrix.create (transpose_layout m.lyt) m.x_ m.get_shape.t m.get_stride

/-- The method `matrix::get(std::int64_t linear_i)` (matrix.hpp:419-421):
`get_data()[linear_i]`; `none` for a read outside the array. -/
def matrix.get_linear {V : Type} (m : matrix V) (linear_i : Int) : Option V :=
  if linear_i < 0 then none else m.x_.data[linear_i.toNat]?

/-- The method `matrix::get(std::int64_t i, std::int64_t j)` (matrix.hpp:423-425):
`get_data()[get_linear_index(i, j)]`. -/
def matrix.get {V : Type} (m : matrix V) (i j : Int) : Option V :=
  match m.get_linear_index i j with
  | none => none
  | some k => m.get_linear k

/-- The method `matrix::set(std::int64_t i, std::int64_t j)`
(matrix.hpp:431-433): `get_mutable_data()[get_linear_index(i, j)]`, with the
value `v` assigned through the returned reference.  `none` is a failed
assertion or a write outside the array, the inner error a `throw` of
`get_mutable_data`. -/
def matrix.set {V : Type} (m : matrix V) (i j : Int) (v : V) :
    Option (Except error (matrix V)) :=
  match m.x_.get_mutable_data with
  | .error err => some (.error err)
  | .ok _ =>
    match m.get_linear_index i j with
    | none => none
    | some k =>
      if k < 0 ∨ (m.x_.data.length : Int) ≤ k then none
      else some (.ok { m with x_ := { m.x_ with data := m.x_.data.set k.toNat v } })

/-- The default constructor `matrix()` (matrix.hpp:284): `base({ 0, 0 }, 0)`
over a default-constructed (empty, null) array. -/
def matrix.init {V : Type} (lyt : layout) : matrix V :=
  { lyt := lyt
    shape_ := { row_count := 0, column_count := 0 }
    stride_ := 0
    x_ := { data_ptr := 0, data := [], is_mutable := false } }

/-- The method `matrix::get_data` (matrix.hpp:294-296). -/
def matrix.get_data {V : Type} (m : matrix V) : Nat := m.x_.get_data

/-- The method `matrix::get_mutable_data` (matrix.hpp:298-300). -/
def matrix.get_mutable_data {V : Type} (m : matrix V) : Except error Nat :=
  m.x_.get_mutable_data

/-- The method `matrix::need_mutable_data` (matrix.hpp:302-305):
`x_.need_mutable_data(); return *this;`. -/
def matrix.need_mutable_data {V : Type} (al : allocator) (m : matrix V) :
    matrix V × allocator :=
  ({ m with x_ := (m.x_.need_mutable_data al).1 }, (m.x_.need_mutable_data al).2)

/-- The method `matrix::has_data` (matrix.hpp:307-309). -/
def matrix.has_data {V : Type} (m : matrix V) : Bool := decide (m.get_count > 0)

/-- The method `matrix::has_mutable_data` (matrix.hpp:311-313). -/
def matrix.has_mutable_data {V : Type} (m : matrix V) : Bool :=
  m.has_data && m.x_.has_mutable_data

/-- The function `matrix::empty(const shape&)` (matrix.hpp:224-226):
`wrap(array<Float>::empty(s.get_count()), s)`.  The fresh elements are
uninitialised: `uninit k` is what the storage happens to hold at offset `k`. -/
def matrix.empty {V : Type} (lyt : layout) (al : allocator) (uninit : Nat → V) (s : shape) :
    Option (matrix V × allocator) :=
  match matrix.wrap lyt (array.empty al ((List.range s.get_count.toNat).map uninit)).1 s with
  | none => none
  | some m => some (m, (array.empty al ((List.range s.get_count.toNat).map uninit)).2)

/-- The method `matrix::fill(Float filler)` (matrix.hpp:435-441):
`ptr = get_mutable_data(); for (i = 0; i < get_count(); i++) ptr[i] = filler;`. -/
def matrix.fill {V : Type} (m : matrix V) (filler : V) : Except error (matrix V) :=
  match m.get_mutable_data with
  | .error err => .error err
  | .ok _ =>
    .ok { m with
      x_ := { m.x_ with
        data := (List.range m.get_count.toNat).foldl (fun acc i => acc.set i filler)
          m.x_.data } }

/-- The function `matrix::full(const shape&, Filler&&)` (matrix.hpp:236-239):
`empty(s).fill(filler)`.  The outer `none` is a failed assertion, the inner
error a `throw`. -/
def matrix.full {V : Type} (lyt : layout) (al : allocator) (uninit : Nat → V) (s : shape)
    (filler : V) : Option (Except error (matrix V × allocator)) :=
  match matrix.empty lyt al uninit s with
  | none => none
  | some (m, al1) =>
    match m.fill filler with
    | .error err => some (.error err)
    | .ok m1 => some (.ok (m1, al1))

/-- The function `matrix::ones(const shape&)` (matrix.hpp:251-253). -/
def matrix.ones {V : Type} [One V] (lyt : layout) (al : allocator) (uninit : Nat → V)
    (s : shape) : Option (Except error (matrix V × allocator)) :=
  matrix.full lyt al uninit s 1

/-- The function `matrix::zeros(const shape&)` (matrix.hpp:263-265). -/
def matrix.zeros {V : Type} [Zero V] (lyt : layout) (al : allocator) (uninit : Nat → V)
    (s : shape) : Option (Except error (matrix V × allocator)) :=
  matrix.full lyt al uninit s 0

/-- The matrix `matrix<Float>::wrap(x, { 2, 3 })` over the six-element array
`x = [1, 2, 3, 4, 5, 6]` at address 8 (row-major, default stride 3). -/
def matrix_2x3 : matrix Int :=
  { lyt := layout.row_major
    shape_ := { row_count := 2, column_count := 3 }
    stride_ := 3
    x_ := { data_ptr := 8, data := [1, 2, 3, 4, 5, 6], is_mutable := false } }

end linalg

/-! ## Legacy-table interop (backend/interop/table_conversion.hpp) -/

namespace backend.interop

/-- The function `convert_to_daal_homogen_table` (table_conversion.hpp:38-59).
`data` is passed by reference, so its state after the call is part of the
result.  The outer `none` is the failed assertion `data.has_mutable_data()`;
an empty array gives the null table (`.ok none`).  `create` stands for
`HomogenNumericTable<Data>::create(daal_data, integral_cast(column_count),
integral_cast(row_count))` of the legacy library. -/
def convert_to_daal_homogen_table {V R : Type} (create : Nat → Int → Int → Except error R)
    (al : allocator) (data : array V) (row_count column_count : Int) (allow_copy : Bool) :
    Option (Except error (Option R) × array V × allocator) :=
  if data.get_count = 0 then
    some (.ok none, data, al)
  else
    let data1 := if allow_copy then (data.need_mutable_data al).1 else data
    let al1 := if allow_copy then (data.need_mutable_data al).2 else al
    if ¬ (data1.has_mutable_data = true) then
      none
    else
      match data1.get_mutable_data with
      | .error err => some (.error err, data1, al1)
      | .ok daal_data =>
        match create daal_data column_count row_count with
        | .error err => some (.error err, data1, al1)
        | .ok nt => some (.ok (some nt), data1, al1)

end backend.interop

/-! ## Device memory and transfer (backend/memory.hpp, backend/transfer.hpp) -/

namespace backend

/-- The function `is_device_usm_pointer(queue, pointer)` (memory.hpp:25-28). -/
def is_device_usm_pointer (rt : sycl.runtime) (queue : sycl.queue) (pointer : Nat) : Bool :=
  decide (sycl.get_pointer_type rt pointer queue.get_context = sycl.usm.alloc.device)

/-- The function `is_device_usm(const array<T>&)` (memory.hpp:221-230). -/
def is_device_usm {V : Type} (rt : sycl.runtime) (ary : array V) : Bool :=
  match ary.get_queue with
  | some q => is_device_usm_pointer rt q ary.get_data
  | none => false

/-- The function `malloc(queue, size, alloc)` (memory.hpp:102-116). -/
def malloc (rt : sycl.runtime) (queue : sycl.queue) (size : Int) (alloc : sycl.usm.alloc) :
    Except error (Nat × sycl.runtime) :=
  let ptr := (sycl.malloc rt size queue alloc).1
  if ptr = 0 then
    if alloc = sycl.usm.alloc.shared ∨ alloc = sycl.usm.alloc.host then
      .error .host_bad_alloc
    else if alloc = sycl.usm.alloc.device then
      .error .device_bad_alloc
    else
      .error (.invalid_argument .unknown_usm_pointer_type)
  else
    .ok (ptr, (sycl.malloc rt size queue alloc).2)

/-- The exception `malloc` throws for an allocation kind once the allocator
has returned null (the three branches of memory.hpp:104-114). -/
def bad_alloc (alloc : sycl.usm.alloc) : error :=
  if alloc = sycl.usm.alloc.shared ∨ alloc = sycl.usm.alloc.host then
    .host_bad_alloc
  else if alloc = sycl.usm.alloc.device then
    .device_bad_alloc
  else
    .invalid_argument .unknown_usm_pointer_type

/-- Modelled from the spec: `array<T>::empty(queue, count, alloc)` (§4.1; not
among the sources): the device variant of `empty` "routes allocation through a
device allocator keyed by allocation kind" and fails with the allocation error
of that kind; the buffer is tagged with the queue.  `T` is the element type,
`contents` what is written into the fresh elements. -/
def array_empty_usm {V : Type} (T : data_type) (rt : sycl.runtime) (q : sycl.queue)
    (contents : List V) (alloc : sycl.usm.alloc) : Except error (array V × sycl.runtime) :=
  if contents.length = 0 then
    .ok ({ data_ptr := 0, data := [], is_mutable := true, queue_ := some q }, rt)
  else
    match malloc rt q (element_size T * (contents.length : Int)) alloc with
    | .error err => .error err
    | .ok (ptr, rt1) =>
      .ok ({ data_ptr := ptr, data := contents, is_mutable := true, queue_ := some q }, rt1)

/-- The common tail of `to_device` (transfer.hpp:42-47) and `to_host`
(transfer.hpp:60-72), which differ in the allocation kind only: allocate
`element_count` elements with `array<T>::empty(q, element_count, alloc)` and
submit `q.memcpy(dst, ary.get_data(), sizeof(T) * element_count)`
(`integral_cast<std::size_t>` of the positive count is the count itself).  The
new array is given the elements the copy leaves in it once its event
completes. -/
def copy_to_usm {V : Type} (T : data_type) (rt : sycl.runtime) (q : sycl.queue) (ary : array V)
    (alloc : sycl.usm.alloc) : Except error ((array V × sycl.event) × sycl.runtime) :=
  let element_count := ary.get_count
  match array_empty_usm T rt q ary.data alloc with
  | .error err => .error err
  | .ok (ary_new, rt1) =>
    match ary_new.get_mutable_data with
    | .error err => .error err
    | .ok dst =>
      .ok ((ary_new, sycl.event.memcpy q dst ary.get_data (element_size T * element_count)), rt1)

/-- The function `to_device(q, ary)` (transfer.hpp:25-48).  The outer `none`
is the failed assertion that the array's queue is `q`. -/
def to_device {V : Type} (T : data_type) (rt : sycl.runtime) (q : sycl.queue) (ary : array V) :
    Option (Except error ((array V × sycl.event) × sycl.runtime)) :=
  if ary.get_count = 0 then
    some (.ok ((ary, sycl.event.completed), rt))
  else
    match ary.get_queue with
    | some ary_q =>
      if ¬ (ary_q = q) then
        none
      else if sycl.get_pointer_type rt ary.get_data q.get_context = sycl.usm.alloc.device then
        some (.ok ((ary, sycl.event.completed), rt))
      else
        some (copy_to_usm T rt q ary sycl.usm.alloc.device)
    | none => some (copy_to_usm T rt q ary sycl.usm.alloc.device)

/-- The function `to_host(ary)` (transfer.hpp:50-73).  The outer `none` is the
failed assertion `ary.get_queue().has_value()`. -/
def to_host {V : Type} (T : data_type) (rt : sycl.runtime) (ary : array V) :
    Option (Except error ((array V × sycl.event) × sycl.runtime)) :=
  if ary.get_count = 0 then
    some (.ok ((ary, sycl.event.completed), rt))
  else if ary.get_queue.isSome = false then
    some (.ok ((ary, sycl.event.completed), rt))
  else
    match ary.get_queue with
    | none => none
    | some q => some (copy_to_usm T rt q ary sycl.usm.alloc.host)

/-! ### Integer helpers (backend/common.hpp)

The helpers are templates over an integral type `Integer`.  The parameter
`wrap` reduces the result of an arithmetic operation to the range of `Integer`:
it is the identity for an ideal integer and `wrap_int64` for `std::int64_t`
under two's-complement wrap-around.  A loop is run with `fuel`: `none` means
that it is still running after `fuel` iterations (or that the assertion
`x > 0` failed). -/

/-- Two's-complement reduction of an integer to the range of `std::int64_t`. -/
def wrap_int64 (v : Int) : Int := (v + 2 ^ 63) % 2 ^ 64 - 2 ^ 63

/-- The loop of `down_pow2` (common.hpp:71-73):
`while (power < x / 2) { power *= 2; }`. -/
def down_pow2_loop (wrap : Int → Int) : Nat → Int → Int → Option Int
  | 0, _, _ => none
  | fuel + 1, x, power =>
    if power < x / 2 then down_pow2_loop wrap fuel x (wrap (power * 2)) else some power

/-- The function `down_pow2` (common.hpp:66-75), documented as "Finds the
largest power of 2 number not larger than `x`". -/
def down_pow2 (wrap : Int → Int) (fuel : Nat) (x : Int) : Option Int :=
  if ¬ (x > 0) then none else down_pow2_loop wrap fuel x 1

/-- The loop of `up_pow2` (common.hpp:86-88):
`while (power < x) { power *= 2; }`. -/
def up_pow2_loop (wrap : Int → Int) : Nat → Int → Int → Option Int
  | 0, _, _ => none
  | fuel + 1, x, power =>
    if power < x then up_pow2_loop wrap fuel x (wrap (power * 2)) else some power

/-- The function `up_pow2` (common.hpp:81-90), documented as "Finds the
smallest power of 2 number not smaller than `x`". -/
def up_pow2 (wrap : Int → Int) (fuel : Nat) (x : Int) : Option Int :=
  if ¬ (x > 0) then none else up_pow2_loop wrap fuel x 1

/-- The function `down_multiple` (common.hpp:39-45); `none` when one of its
assertions fails. -/
def down_multiple (wrap : Int → Int) (x multiple : Int) : Option Int :=
  if ¬ (x > 0) then none
  else if ¬ (multiple > 0) then none
  else some (wrap (wrap (x / multiple) * multiple))

/-- The function `up_multiple` (common.hpp:51-60); `none` when an assertion
fails.  `ONEDAL_ASSERT_SUM_OVERFLOW(Integer, y, z)` (a macro that is not among
the sources) holds when the sum `y + z` is representable, that is when `wrap`
leaves it as it is. -/
def up_multiple (wrap : Int → Int) (x multiple : Int) : Option Int :=
  if ¬ (x > 0) then none
  else if ¬ (multiple > 0) then none
  else
    match down_multiple wrap x multiple with
    | none => none
    | some y =>
      let z := wrap (multiple * (if wrap (x % multiple) ≠ 0 then 1 else 0))
      if ¬ (wrap (y + z) = y + z) then none
      else some (wrap (y + z))

/-- The function `make_multiple_nd_range_1d` (common.hpp:97-102): the global
and the local size of the `sycl::nd_range<1>` it returns.  `integral_cast`
stands for `dal::detail::integral_cast<std::size_t>` (not among the sources)
followed by the conversion back to `std::int64_t`; the outer `none` is a failed
assertion of `up_multiple`. -/
def make_multiple_nd_range_1d (integral_cast : Int → Except error Int)
    (global_size local_size : Int) : Option (Except error (Int × Int)) :=
  match integral_cast global_size with
  | .error err => some (.error err)
  | .ok g =>
    match integral_cast local_size with
    | .error err => some (.error err)
    | .ok l =>
      match up_multiple wrap_int64 g l with
      | none => none
      | some global => some (.ok (global, l))

/-- A queue used in the examples. -/
def sample_queue : sycl.queue := { context := 1, device := 1 }

/-- A runtime used in the examples: the block at address 8 is device USM,
nothing else is known, and the next allocation is placed at address 500. -/
def sample_runtime : sycl.runtime :=
  { allocate := fun _ _ _ => 500
    pointer_type := fun p _ => if p = 8 then sycl.usm.alloc.device else sycl.usm.alloc.unknown }

/-- A two-element device-USM array of `sample_queue`, at address 8. -/
def sample_device_array : array Int :=
  { data_ptr := 8, data := [1, 2], is_mutable := true, queue_ := some sample_queue }

/-- A two-element host array, at address 20. -/
def sample_host_array : array Int :=
  { data_ptr := 20, data := [1, 2], is_mutable := true }

/-- A two-element array without a queue whose data, at address 8, is device
USM in the context of `sample_queue`. -/
def sample_untagged_device_array : array Int :=
  { data_ptr := 8, data := [1, 2], is_mutable := true }

/-- Another queue of the same context. -/
def sample_other_queue : sycl.queue := { context := 1, device := 2 }

/-- A two-element device-USM array of `sample_other_queue`, at address 8. -/
def sample_other_queue_array : array Int :=
  { data_ptr := 8, data := [1, 2], is_mutable := true, queue_ := some sample_other_queue }

/-- A runtime in which the block at address 30 is host USM, nothing else is
known, and the next allocation is placed at address 500. -/
def sample_host_usm_runtime : sycl.runtime :=
  { allocate := fun _ _ _ => 500
    pointer_type := fun p _ => if p = 30 then sycl.usm.alloc.host else sycl.usm.alloc.unknown }

/-- A two-element host-USM array of `sample_queue`, at address 30. -/
def sample_host_usm_array : array Int :=
  { data_ptr := 30, data := [1, 2], is_mutable := true, queue_ := some sample_queue }

end backend

/-! ## Two-class label conversion (algo/svm/backend/utils.hpp) -/

namespace svm.backend

/-- The struct `binary_label_t<Float>` (utils.hpp:39-43). -/
structure binary_label_t (V : Type) where
  first : V
  second : V
  deriving DecidableEq, Repr

/-- How a piece of code ends: it completes with a value, it throws, it reads or
writes an array element outside the array (undefined behaviour), or it is
still running when the fuel of the model is used up. -/
inductive outcome (α : Type) where
  | returned (a : α)
  | thrown (err : error)
  | out_of_bounds
  | out_of_fuel
  deriving DecidableEq, Repr

/-- The variables the two loops of `convert_labels` change: the index `i`,
`value_second_class_label`, and the elements of `new_label_data`, `none` being
a freshly allocated element that has not been written yet. -/
structure labels_state (V : Type) where
  i : Nat
  value_second_class_label : V
  new_label_data : List (Option V)
  deriving DecidableEq, Repr

/-- The first loop of `convert_labels` (utils.hpp:58-67), entered with `i` in
the state; the `break` leaves `i` at the index of the second label.  `eq` is
the operator `==` of the element type `Float`. -/
def convert_labels_first_loop {V : Type} (eq : V → V → Bool) (arr_label : List V) (count : Nat)
    (in_binary_labels : binary_label_t V) (value_first_class_label : V) :
    Nat → labels_state V → outcome (labels_state V)
  | 0, _ => .out_of_fuel
  | fuel + 1, st =>
    if st.i < count then
      match arr_label[st.i]? with
      | none => .out_of_bounds
      | some label =>
        if eq label value_first_class_label = true then
          if st.i < st.new_label_data.length then
            convert_labels_first_loop eq arr_label count in_binary_labels
              value_first_class_label fuel
              { st with
                new_label_data := st.new_label_data.set st.i (some in_binary_labels.first)
                i := st.i + 1 }
          else .out_of_bounds
        else
          if st.i < st.new_label_data.length then
            .returned
              { st with
                value_second_class_label := label
                new_label_data := st.new_label_data.set st.i (some in_binary_labels.second) }
          else .out_of_bounds
    else .returned st

/-- The second loop of `convert_labels` (utils.hpp:73-84), which goes on from
the `i` the first loop left. -/
def convert_labels_second_loop {V : Type} (eq : V → V → Bool) (arr_label : List V) (count : Nat)
    (in_binary_labels : binary_label_t V) (value_first_class_label : V) :
    Nat → labels_state V → outcome (labels_state V)
  | 0, _ => .out_of_fuel
  | fuel + 1, st =>
    if st.i < count then
      match arr_label[st.i]? with
      | none => .out_of_bounds
      | some label =>
        if eq label value_first_class_label = true then
          if st.i < st.new_label_data.length then
            convert_labels_second_loop eq arr_label count in_binary_labels
              value_first_class_label fuel
              { st with
                new_label_data := st.new_label_data.set st.i (some in_binary_labels.first)
                i := st.i + 1 }
          else .out_of_bounds
        else if eq label st.value_second_class_label = true then
          if st.i < st.new_label_data.length then
            convert_labels_second_loop eq arr_label count in_binary_labels
              value_first_class_label fuel
              { st with
                new_label_data := st.new_label_data.set st.i (some in_binary_labels.second)
                i := st.i + 1 }
          else .out_of_bounds
        else
          .thrown (.invalid_argument
            .input_labels_contain_wrong_unique_values_count_expect_two)
    else .returned st

/-- What a call of `convert_labels` leaves behind: how it ended (`result`, the
returned array on success), the input array and the caller's
`out_binary_labels` after the call, the elements of the fresh array as far as
they were written, and the allocator. -/
structure convert_labels_run (V : Type) where
  result : outcome (array V)
  arr_label : array V
  out_binary_labels : binary_label_t V
  new_label_data : List (Option V)
  al : allocator
  deriving DecidableEq, Repr

/-- The function `convert_labels(arr_label, in_binary_labels,
out_binary_labels)` (utils.hpp:45-89), host version.  `eq` is the operator
`==` of the element type `Float`, with which the labels are compared: on
`float` and `double` it is not reflexive, a NaN being unequal to itself.
`uninit k` is what the freshly allocated array happens to hold at offset `k`;
`arr_label[i]` and `new_label_data[i]` outside the arrays end the run with
`out_of_bounds`. -/
def convert_labels {V : Type} (eq : V → V → Bool) (fuel : Nat) (al : allocator)
    (uninit : Nat → V) (arr_label : array V)
    (in_binary_labels out_binary_labels : binary_label_t V) :
    convert_labels_run V :=
  let count := arr_label.data.length
  let new_label_arr := (array.empty al ((List.range count).map uninit)).1
  let al1 := (array.empty al ((List.range count).map uninit)).2
  let fresh : List (Option V) := List.replicate count none
  let stop := fun (r : outcome (array V)) (written : List (Option V)) =>
    ({ result := r, arr_label := arr_label, out_binary_labels := out_binary_labels,
       new_label_data := written, al := al1 } : convert_labels_run V)
  match new_label_arr.get_mutable_data with
  | .error err => stop (.thrown err) fresh
  | .ok _ =>
    match arr_label.data[0]?, arr_label.data[1]? with
    | some value_first_class_label, some value_second_class_label =>
      if 0 < fresh.length then
        match convert_labels_first_loop eq arr_label.data count in_binary_labels
            value_first_class_label fuel
            { i := 1, value_second_class_label := value_second_class_label,
              new_label_data := fresh.set 0 (some in_binary_labels.first) } with
        | .returned st1 =>
          if eq value_first_class_label st1.value_second_class_label = true then
            stop (.thrown (.invalid_argument
              .input_labels_contain_only_one_unique_value_expect_two)) st1.new_label_data
          else
            match convert_labels_second_loop eq arr_label.data count in_binary_labels
                value_first_class_label fuel st1 with
            | .returned st2 =>
              { result := .returned
                  { new_label_arr with
                    data := List.zipWith (fun written old => written.getD old)
                      st2.new_label_data new_label_arr.data }
                arr_label := arr_label
                out_binary_labels :=
                  { first := value_first_class_label,
                    second := st2.value_second_class_label }
                new_label_data := st2.new_label_data
                al := al1 }
            | .thrown err => stop (.thrown err) st1.new_label_data
            | .out_of_bounds => stop .out_of_bounds st1.new_label_data
            | .out_of_fuel => stop .out_of_fuel st1.new_label_data
        | .thrown err => stop (.thrown err) fresh
        | .out_of_bounds => stop .out_of_bounds fresh
        | .out_of_fuel => stop .out_of_fuel fresh
      else stop .out_of_bounds fresh
    | _, _ => stop .out_of_bounds fresh

/-- The label `convert_labels` writes at index `j` for the input label found
there: `in.first` at index 0 (written without a comparison) and for a label
that compares equal to the first class label, `in.second` for any other. -/
def converted_label {V : Type} (eq : V → V → Bool) (value_first_class_label : V)
    (in_binary_labels : binary_label_t V) (j : Nat) (label : V) : V :=
  if j = 0 ∨ eq label value_first_class_label = true then in_binary_labels.first
  else in_binary_labels.second

/-- The converted labels of a whole array. -/
def converted_labels {V : Type} (eq : V → V → Bool) (value_first_class_label : V)
    (in_binary_labels : binary_label_t V) (arr_label : List V) : List V :=
  arr_label.mapIdx fun j label =>
    converted_label eq value_first_class_label in_binary_labels j label

/-- The elements of the fresh array when exactly the positions below `w` have
been written, each with the converted label of that position. -/
def written_upto {V : Type} (eq : V → V → Bool) (arr_label : List V)
    (value_first_class_label : V) (in_binary_labels : binary_label_t V) (w : Nat) :
    List (Option V) :=
  (List.range arr_label.length).map fun j =>
    if j < w then
      (arr_label[j]?).map (converted_label eq value_first_class_label in_binary_labels j)
    else none

/-- The operator `==` on labels that are integers. -/
def int_eq (a b : Int) : Bool := decide (a = b)

/-- The values of a floating-point type in the examples: a number (an integer
here) or NaN. -/
inductive sample_float where
  | number (v : Int)
  | nan
  deriving DecidableEq, Repr

/-- The operator `==` on the floating-point values of the examples: numbers
are compared by value, and a NaN is unequal to everything, itself included. -/
def sample_float.eq : sample_float → sample_float → Bool
  | .number a, .number b => decide (a = b)
  | _, _ => false

/-- The labels `{ -1, 1 }` passed as `in_binary_labels` in the examples. -/
def sample_in_labels : binary_label_t Int := { first := -1, second := 1 }

/-- The label array `[5, 5, 7, 5, 7]` of the examples, at address 8: the second
label first appears at index 2. -/
def sample_labels : array Int := { data_ptr := 8, data := [5, 5, 7, 5, 7], is_mutable := false }

/-- A label array with one value only. -/
def sample_one_label : array Int := { data_ptr := 8, data := [5, 5, 5], is_mutable := false }

/-- A label array with three values. -/
def sample_three_labels : array Int :=
  { data_ptr := 8, data := [5, 6, 5, 8], is_mutable := false }

/-- The caller's `out_binary_labels` before the call in the examples. -/
def sample_out_labels : binary_label_t Int := { first := 0, second := 0 }

/-- The allocator of the examples: the next free address is 100. -/
def sample_allocator : allocator := { next_ptr := 100 }

/-- The contents of freshly allocated memory in the examples. -/
def sample_uninit : Nat → Int := fun _ => 99

/-- The labels `{ -1, 1 }` as floating-point values. -/
def float_in_labels : binary_label_t sample_float :=
  { first := .number (-1), second := .number 1 }

/-- The labels `{ -1, NaN }`: the two are different. -/
def float_in_labels_nan : binary_label_t sample_float :=
  { first := .number (-1), second := .nan }

/-- The caller's `out_binary_labels` before the call, as floating-point
values. -/
def float_out_labels : binary_label_t sample_float :=
  { first := .number 0, second := .number 0 }

/-- The label array `[1, NaN]`: two distinct values, the second a NaN. -/
def float_labels_one_nan : array sample_float :=
  { data_ptr := 8, data := [.number 1, .nan], is_mutable := false }

/-- The label array `[NaN, 1, 1]`: the first label is a NaN. -/
def float_labels_nan_first : array sample_float :=
  { data_ptr := 8, data := [.nan, .number 1, .number 1], is_mutable := false }

/-- The label array `[5, 5, 7]` as floating-point values. -/
def float_labels : array sample_float :=
  { data_ptr := 8, data := [.number 5, .number 5, .number 7], is_mutable := false }

/-- The contents of freshly allocated memory, as floating-point values. -/
def float_uninit : Nat → sample_float := fun _ => .number 99

end svm.backend

end oneapi.dal

/-! # Theorems -/

namespace oneapi.dal

/-! ## Auxiliary facts about lists -/

/-- A row-by-row traversal of `n` rows of `m` columns visits `n * m` cells. -/
theorem length_flatMap_range {α : Type} (g : Nat → Nat → α) (m n : Nat) :
    ((List.range n).flatMap fun k => (List.range m).map (g k)).length = n * m := by
  induction n with
  | zero => simp
  | succ n ih =>
    rw [List.range_succ, List.flatMap_append, List.length_append, ih]
    simp [Nat.succ_mul]

/-- Cell `(k, c)` of a row-by-row traversal sits at position `k * m + c`. -/
theorem getElem?_flatMap_range {α : Type} (g : Nat → Nat → α) (m n k c : Nat)
    (hk : k < n) (hc : c < m) :
    ((List.range n).flatMap fun k => (List.range m).map (g k))[k * m + c]? = some (g k c) := by
  induction n with
  | zero => omega
  | succ n ih =>
    rw [List.range_succ, List.flatMap_append]
    by_cases hkn : k < n
    · have hlt : k * m + c < n * m := by
        calc k * m + c < k * m + m := by omega
          _ = (k + 1) * m := by ring
          _ ≤ n * m := Nat.mul_le_mul_right m hkn
      rw [List.getElem?_append_left (by rw [length_flatMap_range]; exact hlt)]
      exact ih hkn
    · have hkeq : k = n := by omega
      subst hkeq
      rw [List.getElem?_append_right (by rw [length_flatMap_range]; omega),
        length_flatMap_range]
      simp [List.getElem?_range hc]

/-- Writing back the value a cell already holds changes nothing. -/
theorem set_getD_self {α : Type} (l : List α) (i : Nat) (d : α) :
    l.set i (l.getD i d) = l := by
  by_cases h : i < l.length
  · apply List.ext_getElem? ; intro j
    rw [List.getElem?_set]
    by_cases hij : i = j
    · subst hij
      simp [h, List.getD_eq_getElem?_getD, List.getElem?_eq_getElem h]
    · simp [hij]
  · exact List.set_eq_of_length_le (by omega)

/-- A fold whose every step leaves the accumulator as it is returns it. -/
theorem foldl_fixed {α β : Type} (f : α → β → α) (a : α) (l : List β)
    (h : ∀ x ∈ l, f a x = a) : l.foldl f a = a := by
  induction l with
  | nil => rfl
  | cons x xs ih =>
    rw [List.foldl_cons, h x (List.mem_cons_self x xs)]
    exact ih (fun y hy => h y (List.mem_cons_of_mem x hy))

/-! ## Auxiliary facts about the accessor model -/

/-- A range that violates one of the three conditions is refused. -/
theorem check_range_invalid (r : range) (extent : Int)
    (h : r.start_idx < 0 ∨ r.resolve_end extent > extent ∨
      r.start_idx > r.resolve_end extent) :
    check_range r extent = .error .range_error := by
  unfold check_range
  rw [if_pos h]

/-- A range inside `[0, extent]` is accepted and resolves to its bounds. -/
theorem check_range_valid (r : range) (extent : Int)
    (h0 : 0 ≤ r.start_idx) (h1 : r.start_idx ≤ r.resolve_end extent)
    (h2 : r.resolve_end extent ≤ extent) :
    check_range r extent = .ok (r.start_idx.toNat, (r.resolve_end extent).toNat) := by
  unfold check_range
  rw [if_neg (by omega)]

/-- The storage offset of an in-range cell of a well-formed table lies inside
the buffer. -/
theorem linear_index_lt {V : Type} (t : homogen_table V) (hwf : t.well_formed)
    (row col : Nat) (hr : row < t.row_count.toNat) (hc : col < t.column_count.toNat) :
    linear_index t.layout t.stride row col < t.data.data.length := by
  obtain ⟨hR, hC, hlen⟩ := hwf
  have hlen1 : t.row_count.toNat * t.column_count.toNat ≤ t.data.data.length := by
    unfold array.get_count at hlen
    have h1 : ((t.row_count.toNat * t.column_count.toNat : Nat) : Int)
        = t.row_count * t.column_count := by
      rw [Nat.cast_mul, Int.toNat_of_nonneg hR.le, Int.toNat_of_nonneg hC.le]
    omega
  unfold linear_index homogen_table.stride
  cases hl : t.layout with
  | row_major =>
    simp only
    calc row * t.column_count.toNat + col < row * t.column_count.toNat + t.column_count.toNat := by
          omega
      _ = (row + 1) * t.column_count.toNat := by ring
      _ ≤ t.row_count.toNat * t.column_count.toNat := Nat.mul_le_mul_right _ hr
      _ ≤ t.data.data.length := hlen1
  | column_major =>
    simp only
    calc col * t.row_count.toNat + row < col * t.row_count.toNat + t.row_count.toNat := by omega
      _ = (col + 1) * t.row_count.toNat := by ring
      _ ≤ t.column_count.toNat * t.row_count.toNat := Nat.mul_le_mul_right _ hc
      _ = t.row_count.toNat * t.column_count.toNat := Nat.mul_comm _ _
      _ ≤ t.data.data.length := hlen1

/-- The logical element of a cell is the storage element at its linear index. -/
theorem logical_element_eq {V : Type} (t : homogen_table V) (row col : Nat) :
    t.logical_element row col = t.data.data[linear_index t.layout t.stride row col]? := by
  unfold homogen_table.logical_element linear_index homogen_table.stride
  cases t.layout <;> rfl

/-- The gathered block has one cell per requested row and column. -/
theorem gather_length {V : Type} [Inhabited V] (f : V → V) (t : homogen_table V) (b e : Nat) :
    (gather f t b e).length = (e - b) * t.column_count.toNat := by
  unfold gather
  exact length_flatMap_range _ _ _

/-- Cell `(k, c)` of the gathered block is the converted logical element
`(b + k, c)` of the table. -/
theorem gather_getElem? {V : Type} [Inhabited V] (f : V → V) (t : homogen_table V)
    (hwf : t.well_formed) (b e : Nat) (he : e ≤ t.row_count.toNat) (k c : Nat)
    (hk : k < e - b) (hc : c < t.column_count.toNat) :
    ∃ x, t.logical_element (b + k) c = some x ∧
      (gather f t b e)[k * t.column_count.toNat + c]? = some (f x) := by
  have hlt := linear_index_lt t hwf (b + k) c (by omega) hc
  refine ⟨t.data.data[linear_index t.layout t.stride (b + k) c], ?_, ?_⟩
  · rw [logical_element_eq, List.getElem?_eq_getElem hlt]
  · unfold gather
    rw [getElem?_flatMap_range _ _ _ k c hk hc, List.getD_eq_getElem _ _ hlt]

/-- The aliasing buffer of a well-formed table has `row_count * column_count`
elements. -/
theorem alias_data_length {V : Type} (t : homogen_table V) (hwf : t.well_formed) :
    t.alias_data.data.length = t.row_count.toNat * t.column_count.toNat := by
  obtain ⟨hR, hC, hlen⟩ := hwf
  unfold array.get_count at hlen
  have h1 : ((t.row_count.toNat * t.column_count.toNat : Nat) : Int)
      = t.row_count * t.column_count := by
    rw [Nat.cast_mul, Int.toNat_of_nonneg hR.le, Int.toNat_of_nonneg hC.le]
  unfold homogen_table.alias_data
  simp only [List.length_take]
  omega

/-- Cell `(k, c)` of the aliasing buffer of a row-major table is the logical
element `(k, c)`. -/
theorem alias_data_getElem? {V : Type} (t : homogen_table V) (hwf : t.well_formed)
    (hl : t.layout = .row_major) (k c : Nat)
    (hk : k < t.row_count.toNat) (hc : c < t.column_count.toNat) :
    ∃ x, t.logical_element k c = some x ∧
      t.alias_data.data[k * t.column_count.toNat + c]? = some x := by
  have hlt := linear_index_lt t hwf k c hk hc
  have hidx : linear_index t.layout t.stride k c = k * t.column_count.toNat + c := by
    unfold linear_index homogen_table.stride; rw [hl]
  refine ⟨t.data.data[linear_index t.layout t.stride k c], ?_, ?_⟩
  · rw [logical_element_eq, List.getElem?_eq_getElem hlt]
  · have hin : k * t.column_count.toNat + c < t.row_count.toNat * t.column_count.toNat := by
      calc k * t.column_count.toNat + c < k * t.column_count.toNat + t.column_count.toNat := by
            omega
        _ = (k + 1) * t.column_count.toNat := by ring
        _ ≤ t.row_count.toNat * t.column_count.toNat := Nat.mul_le_mul_right _ hk
    unfold homogen_table.alias_data
    simp only
    rw [List.getElem?_take_of_lt hin, ← hidx, List.getElem?_eq_getElem hlt]

/-- The buffer returned by `array::empty` holds the contents written to it. -/
theorem array_empty_data {V : Type} (al : allocator) (l : List V) :
    (array.empty al l).1.data = l := by
  unfold array.empty
  by_cases h : l.length = 0
  · rw [if_pos h]; exact (List.length_eq_zero.mp h).symm
  · rw [if_neg h]

/-- A non-empty allocation is placed at the allocator's next free address. -/
theorem array_empty_data_ptr {V : Type} (al : allocator) (l : List V) (h : 0 < l.length) :
    (array.empty al l).1.data_ptr = al.next_ptr := by
  unfold array.empty
  rw [if_neg (by omega)]

/-- Converting between equal element types changes nothing. -/
theorem convert_same {V : Type} (cv : data_type → data_type → V → V) (d : data_type) (v : V) :
    convert cv d d v = v := by
  unfold convert
  rw [if_pos rfl]

/-- What `pull` returns on a valid range of a well-formed table, over the
resolved bounds: the block of the requested rows in row-major order, aliasing
the table exactly when the request is zero-copy eligible. -/
theorem pull_valid {V : Type} [Inhabited V] (cv : data_type → data_type → V → V)
    (T : data_type) (al : allocator) (t : homogen_table V) (r : range)
    (hwf : t.well_formed) (h0 : 0 ≤ r.start_idx)
    (h1 : r.start_idx ≤ r.resolve_end t.row_count)
    (h2 : r.resolve_end t.row_count ≤ t.row_count) :
    ∃ arr al1, row_accessor.pull cv T al t r = .ok (arr, al1) ∧
      arr.data.length
        = ((r.resolve_end t.row_count).toNat - r.start_idx.toNat) * t.column_count.toNat ∧
      (∀ k c, k < (r.resolve_end t.row_count).toNat - r.start_idx.toNat →
        c < t.column_count.toNat →
        ∃ x, t.logical_element (r.start_idx.toNat + k) c = some x ∧
          arr.data[k * t.column_count.toNat + c]? = some (convert cv t.dtype T x)) ∧
      (zero_copy_eligible T t r.start_idx.toNat (r.resolve_end t.row_count).toNat →
        arr = t.alias_data ∧ al1 = al) ∧
      (¬ zero_copy_eligible T t r.start_idx.toNat (r.resolve_end t.row_count).toNat →
        (arr, al1) = array.empty al (gather (convert cv t.dtype T) t r.start_idx.toNat
          (r.resolve_end t.row_count).toNat)) := by
  unfold row_accessor.pull
  rw [check_range_valid r t.row_count h0 h1 h2]
  simp only
  by_cases hz : zero_copy_eligible T t r.start_idx.toNat (r.resolve_end t.row_count).toNat
  · rw [if_pos hz]
    obtain ⟨hT, hb, he, hl⟩ := hz
    refine ⟨t.alias_data, al, rfl, ?_, ?_, fun _ => ⟨rfl, rfl⟩, fun hn => absurd ⟨hT, hb, he, hl⟩ hn⟩
    · rw [alias_data_length t hwf, hb, he]; simp
    · intro k c hk hc
      rw [hb, he] at hk
      obtain ⟨x, hx1, hx2⟩ := alias_data_getElem? t hwf hl k c (by omega) hc
      refine ⟨x, ?_, ?_⟩
      · rw [hb]; simpa using hx1
      · rw [hx2, hT, convert_same]
  · rw [if_neg hz]
    refine ⟨(array.empty al (gather (convert cv t.dtype T) t r.start_idx.toNat
        (r.resolve_end t.row_count).toNat)).1,
      (array.empty al (gather (convert cv t.dtype T) t r.start_idx.toNat
        (r.resolve_end t.row_count).toNat)).2, rfl, ?_, ?_, fun hy => absurd hy hz, fun _ => rfl⟩
    · rw [array_empty_data, gather_length]
    · intro k c hk hc
      rw [array_empty_data]
      have he : (r.resolve_end t.row_count).toNat ≤ t.row_count.toNat :=
        Int.toNat_le_toNat h2
      exact gather_getElem? _ t hwf _ _ he k c hk hc

/-- Scattering a block whose every cell already equals the destination cell
it is written to leaves the destination unchanged. -/
theorem scatter_self {V : Type} [Inhabited V] (f : V → V) (layout : data_layout)
    (stride columns : Nat) (dst block : List V) (b e : Nat)
    (h : ∀ k c, k < e - b → c < columns →
      f (block.getD (k * columns + c) default)
        = dst.getD (linear_index layout stride (b + k) c) default) :
    scatter f layout stride columns dst block b e = dst := by
  unfold scatter
  apply foldl_fixed
  intro k hk
  apply foldl_fixed
  intro c hc
  rw [h k c (List.mem_range.mp hk) (List.mem_range.mp hc)]
  exact set_getD_self _ _ _

/-- The buffer `need_mutable_data` leaves behind holds the same elements. -/
theorem need_mutable_data_data {V : Type} (al : allocator) (a : array V) :
    (a.need_mutable_data al).1.data = a.data := by
  unfold array.need_mutable_data
  by_cases h : a.is_mutable = true
  · rw [if_pos h]
  · rw [if_neg h, array_empty_data]

/-- Pushing the one-row block `[7, 8]` into row 1 of the 3x2 column-major table
`{ 1, 2, 3, -1, -2, -3 }` overwrites the storage cells 1 and 4 and no other. -/
theorem push_writes_row_of_column_major_table :
    row_accessor.push (fun _ _ (v : Int) => v) data_type.float32 false { next_ptr := 100 }
        (init_impl_bytes 3 2 { data_ptr := 8, data := [1, 2, 3, -1, -2, -3], is_mutable := true }
          data_type.float32 data_layout.column_major)
        { data_ptr := 50, data := [7, 8], is_mutable := true } { start_idx := 1, end_idx := 2 }
      = .ok (init_impl_bytes 3 2
          { data_ptr := 8, data := [1, 7, 3, -1, 8, -3], is_mutable := true }
          data_type.float32 data_layout.column_major, { next_ptr := 100 }) :=
  rfl

/-- A table constructed from an array satisfies the table invariant. -/
theorem init_impl_array_well_formed {V : Type} (Data : data_type) (data : array V)
    (row_count column_count : Int) (layout : data_layout) (t : homogen_table V)
    (h : init_impl_array Data data row_count column_count layout = .ok t) :
    t.well_formed := by
  unfold init_impl_array validate_input_dimensions check_mul_overflow at h
  by_cases hr : row_count ≤ 0
  · simp [hr, bind, Except.bind] at h
  · by_cases hc : column_count ≤ 0
    · simp [hr, hc, bind, Except.bind] at h
    · by_cases ho : int64_min ≤ row_count * column_count ∧ row_count * column_count ≤ int64_max
      · by_cases hn : data.get_count < row_count * column_count
        · simp [hr, hc, ho, hn, bind, Except.bind, throw, throwThe, MonadExceptOf.throw] at h
        · simp [hr, hc, ho, hn, bind, Except.bind, pure, Except.pure] at h
          subst h
          exact ⟨not_le.mp hr, not_le.mp hc, not_lt.mp hn⟩
      · simp [hr, hc, ho, bind, Except.bind] at h

/-- A table constructed from a raw pointer satisfies the table invariant. -/
theorem init_impl_pointer_well_formed {V : Type} (Data : data_type)
    (row_count column_count : Int) (data_pointer : Nat) (memory : Nat → V)
    (layout : data_layout) (t : homogen_table V)
    (h : init_impl_pointer Data row_count column_count data_pointer memory layout = .ok t) :
    t.well_formed := by
  unfold init_impl_pointer validate_input_dimensions check_mul_overflow at h
  by_cases hr : row_count ≤ 0
  · simp [hr, bind, Except.bind] at h
  · by_cases hc : column_count ≤ 0
    · simp [hr, hc, bind, Except.bind] at h
    · by_cases ho : int64_min ≤ row_count * column_count ∧ row_count * column_count ≤ int64_max
      · simp [hr, hc, ho, bind, Except.bind, pure, Except.pure] at h
        subst h
        refine ⟨not_le.mp hr, not_le.mp hc, ?_⟩
        have hpos : 0 ≤ row_count * column_count :=
          Int.mul_nonneg (not_le.mp hr).le (not_le.mp hc).le
        simp [init_impl_bytes, array.wrap, array.get_count, Int.toNat_of_nonneg hpos]
      · simp [hr, hc, ho, bind, Except.bind] at h

/-! ## Claims -/

/-- C1: on a valid row range `[b, e)` of a table in either layout, `pull`
returns exactly `(e - b) * column_count` elements in row-major order: the
element at `(row - b) * column_count + col` is the table's logical element
`(row, col)` converted to the accessor's element type `T`: the element itself
when the table holds elements of type `T`, and its conversion `cv` from the
table's element type to `T` otherwise. -/
theorem pull_returns_rows_in_row_major_order {V : Type} [Inhabited V]
    (cv : data_type → data_type → V → V) (T : data_type) (al : allocator)
    (t : homogen_table V) (r : range) (hwf : t.well_formed)
    (h0 : 0 ≤ r.start_idx)
    (h1 : r.start_idx ≤ r.resolve_end t.get_row_count)
    (h2 : r.resolve_end t.get_row_count ≤ t.get_row_count) :
    ∃ arr al1, row_accessor.pull cv T al t r = .ok (arr, al1) ∧
      arr.get_count = (r.resolve_end t.get_row_count - r.start_idx) * t.get_column_count ∧
      ∀ row col : Nat, r.start_idx ≤ (row : Int) →
        (row : Int) < r.resolve_end t.get_row_count → (col : Int) < t.get_column_count →
        ∃ x, t.logical_element row col = some x ∧
          arr.data[(row - r.start_idx.toNat) * t.get_column_count.toNat + col]?
            = some (if t.dtype = T then x else cv t.dtype T x) := by
  unfold homogen_table.get_row_count homogen_table.get_column_count at *
  obtain ⟨arr, al1, hp, hlen, hel, -, -⟩ := pull_valid cv T al t r hwf h0 h1 h2
  unfold convert at hel
  refine ⟨arr, al1, hp, ?_, ?_⟩
  · unfold array.get_count
    rw [hlen, Nat.cast_mul, Int.toNat_of_nonneg hwf.2.1.le, Nat.cast_sub (Int.toNat_le_toNat h1),
      Int.toNat_of_nonneg h0, Int.toNat_of_nonneg (h0.trans h1)]
  · intro row col hr1 hr2 hc
    have hk : row - r.start_idx.toNat
        < (r.resolve_end t.row_count).toNat - r.start_idx.toNat := by omega
    obtain ⟨x, hx1, hx2⟩ := hel (row - r.start_idx.toNat) col hk (by omega)
    refine ⟨x, ?_, hx2⟩
    have hadd : r.start_idx.toNat + (row - r.start_idx.toNat) = row := by omega
    rw [hadd] at hx1
    exact hx1

/-- The 3x2 column-major table of row_accessor.cpp:78-103, wrapping the
`float` values `{ 1, 2, 3, -1, -2, -3 }` at address 8: rows `{ 1, 2 }` pulled
as `std::int32_t` are the converted values `[2, -2]`, rows `{ 1, -1 }` pulled
as `float` are `[2, -2, 3, -3]`, not converted. -/
theorem pull_returns_rows_in_row_major_order_witness :
    (∃ arr al1,
      row_accessor.pull typed_value.cast data_type.int32 { next_ptr := 100 } float_table_3x2
        { start_idx := 1, end_idx := 2 } = .ok (arr, al1) ∧
      arr.get_count = (2 - 1) * 2 ∧
      ∀ row col : Nat, (1 : Int) ≤ (row : Int) → (row : Int) < 2 → (col : Int) < 2 →
        ∃ x, float_table_3x2.logical_element row col = some x ∧
          arr.data[(row - 1) * 2 + col]?
            = some (typed_value.cast data_type.float32 data_type.int32 x)) ∧
    (row_accessor.pull typed_value.cast data_type.int32 { next_ptr := 100 } float_table_3x2
        { start_idx := 1, end_idx := 2 }).map (fun res => res.1.data)
      = .ok [{ dtype := .int32, number := 2 }, { dtype := .int32, number := -2 }] ∧
    (row_accessor.pull typed_value.cast data_type.float32 { next_ptr := 100 } float_table_3x2
        { start_idx := 1, end_idx := -1 }).map (fun res => res.1.data)
      = .ok [{ dtype := .float32, number := 2 }, { dtype := .float32, number := -2 },
             { dtype := .float32, number := 3 }, { dtype := .float32, number := -3 }] ∧
    float_table_3x2.logical_element 1 0 = some { dtype := .float32, number := 2 } ∧
    float_table_3x2.logical_element 1 1 = some { dtype := .float32, number := -2 } :=
  ⟨pull_returns_rows_in_row_major_order typed_value.cast data_type.int32
      { next_ptr := 100 } float_table_3x2 { start_idx := 1, end_idx := 2 }
      (by decide) (by decide) (by decide) (by decide),
    rfl, rfl, rfl, rfl⟩

/-- C2: `pull` fails with `range_error` whenever, after the sentinel `-1` has
been resolved to the row count, the range starts below zero, ends beyond the
row count, or starts after its end. -/
theorem pull_range_error {V : Type} [Inhabited V] (cv : data_type → data_type → V → V)
    (T : data_type) (al : allocator) (t : homogen_table V) (r : range)
    (h : r.start_idx < 0 ∨ r.resolve_end t.get_row_count > t.get_row_count ∨
      r.start_idx > r.resolve_end t.get_row_count) :
    row_accessor.pull cv T al t r = .error .range_error := by
  unfold row_accessor.pull
  rw [check_range_invalid r t.row_count h]

/-- The 3x2 table of row_accessor.cpp:105-111 (six zeros), pulled for `{1, 4}`. -/
theorem pull_range_error_witness :
    row_accessor.pull (fun _ _ (v : Int) => v) data_type.float32 { next_ptr := 100 }
      (init_impl_bytes 3 2 { data_ptr := 8, data := [0, 0, 0, 0, 0, 0], is_mutable := true }
        data_type.float32 data_layout.row_major) { start_idx := 1, end_idx := 4 }
      = .error .range_error :=
  pull_range_error (fun _ _ (v : Int) => v) data_type.float32 { next_ptr := 100 }
    (init_impl_bytes 3 2 { data_ptr := 8, data := [0, 0, 0, 0, 0, 0], is_mutable := true }
      data_type.float32 data_layout.row_major) { start_idx := 1, end_idx := 4 }
    (by decide)

/-- C3: for `0 <= b < row_count`, `pull({b, -1})` gives the same result as
`pull({b, row_count})`, it succeeds, and it returns exactly the rows
`b .. row_count - 1`: `(row_count - b) * column_count` elements, row after row. -/
theorem pull_sentinel_reads_to_last_row {V : Type} [Inhabited V]
    (cv : data_type → data_type → V → V) (T : data_type) (al : allocator)
    (t : homogen_table V) (b : Int) (hwf : t.well_formed)
    (hb0 : 0 ≤ b) (hb1 : b < t.get_row_count) :
    row_accessor.pull cv T al t { start_idx := b, end_idx := -1 }
      = row_accessor.pull cv T al t { start_idx := b, end_idx := t.get_row_count } ∧
    ∃ arr al1, row_accessor.pull cv T al t { start_idx := b, end_idx := -1 } = .ok (arr, al1) ∧
      arr.get_count = (t.get_row_count - b) * t.get_column_count ∧
      ∀ row col : Nat, b ≤ (row : Int) → (row : Int) < t.get_row_count →
        (col : Int) < t.get_column_count →
        ∃ x, t.logical_element row col = some x ∧
          arr.data[(row - b.toNat) * t.get_column_count.toNat + col]?
            = some (convert cv t.dtype T x) := by
  unfold homogen_table.get_row_count homogen_table.get_column_count at *
  have hres : ({ start_idx := b, end_idx := -1 } : range).resolve_end t.row_count
      = t.row_count := by
    unfold range.resolve_end; rw [if_pos rfl]
  have hres2 : ({ start_idx := b, end_idx := t.row_count } : range).resolve_end t.row_count
      = t.row_count := by
    unfold range.resolve_end; split <;> rfl
  constructor
  · unfold row_accessor.pull check_range
    simp only [hres, hres2]
  · obtain ⟨arr, al1, hp, hlen, hel, -, -⟩ :=
      pull_valid cv T al t { start_idx := b, end_idx := -1 } hwf hb0
        (by rw [hres]; exact hb1.le) (by rw [hres])
    rw [hres] at hlen hel
    simp only at hlen hel
    refine ⟨arr, al1, hp, ?_, ?_⟩
    · unfold array.get_count
      have hbR : b.toNat ≤ t.row_count.toNat := Int.toNat_le_toNat hb1.le
      rw [hlen, Nat.cast_mul, Int.toNat_of_nonneg hwf.2.1.le, Nat.cast_sub hbR,
        Int.toNat_of_nonneg hb0, Int.toNat_of_nonneg hwf.1.le]
    · intro row col hr1 hr2 hc
      have hk : row - b.toNat < t.row_count.toNat - b.toNat := by omega
      obtain ⟨x, hx1, hx2⟩ := hel (row - b.toNat) col hk (by omega)
      refine ⟨x, ?_, hx2⟩
      have hadd : b.toNat + (row - b.toNat) = row := by omega
      rw [hadd] at hx1
      exact hx1

/-- The 3x2 column-major table of row_accessor.cpp:78-91: `pull({1, -1})`
returns rows 1 and 2, that is `2 * column_count` elements. -/
theorem pull_sentinel_reads_to_last_row_witness :
    (row_accessor.pull (fun _ _ (v : Int) => v) data_type.float32 { next_ptr := 100 }
        (init_impl_bytes 3 2 { data_ptr := 8, data := [1, 2, 3, -1, -2, -3], is_mutable := false }
          data_type.float32 data_layout.column_major) { start_idx := 1, end_idx := -1 }
      = row_accessor.pull (fun _ _ (v : Int) => v) data_type.float32 { next_ptr := 100 }
        (init_impl_bytes 3 2 { data_ptr := 8, data := [1, 2, 3, -1, -2, -3], is_mutable := false }
          data_type.float32 data_layout.column_major) { start_idx := 1, end_idx := 3 } ∧
    ∃ arr al1,
      row_accessor.pull (fun _ _ (v : Int) => v) data_type.float32 { next_ptr := 100 }
        (init_impl_bytes 3 2 { data_ptr := 8, data := [1, 2, 3, -1, -2, -3], is_mutable := false }
          data_type.float32 data_layout.column_major) { start_idx := 1, end_idx := -1 }
        = .ok (arr, al1) ∧
      arr.get_count = (3 - 1) * 2 ∧
      ∀ row col : Nat, (1 : Int) ≤ (row : Int) → (row : Int) < 3 → (col : Int) < 2 →
        ∃ x, (init_impl_bytes 3 2
            { data_ptr := 8, data := [1, 2, 3, -1, -2, -3], is_mutable := false }
            data_type.float32 data_layout.column_major).logical_element row col = some x ∧
          arr.data[(row - 1) * 2 + col]? = some x) ∧
    (row_accessor.pull (fun _ _ (v : Int) => v) data_type.float32 { next_ptr := 100 }
        (init_impl_bytes 3 2 { data_ptr := 8, data := [1, 2, 3, -1, -2, -3], is_mutable := false }
          data_type.float32 data_layout.column_major) { start_idx := 1, end_idx := -1 }).map
      (fun res => res.1.get_count) = .ok (2 * 2) :=
  ⟨pull_sentinel_reads_to_last_row (fun _ _ (v : Int) => v) data_type.float32
      { next_ptr := 100 }
      (init_impl_bytes 3 2 { data_ptr := 8, data := [1, 2, 3, -1, -2, -3], is_mutable := false }
        data_type.float32 data_layout.column_major) 1 (by decide) (by decide) (by decide),
    rfl⟩

/-- C5: on a writable table, `push(block, {b, e})` fails with `range_error`
exactly when the range is not inside `[0, row_count]` or the block does not
hold `(e - b) * column_count` elements. -/
theorem push_range_error_iff {V : Type} [Inhabited V] (cv : data_type → data_type → V → V)
    (T : data_type) (in_place : Bool) (al : allocator) (t : homogen_table V)
    (block : array V) (r : range) (hwf : t.well_formed)
    (hm : t.data.is_mutable = true) :
    row_accessor.push cv T in_place al t block r = .error .range_error ↔
      ¬ (0 ≤ r.start_idx ∧ r.start_idx ≤ r.resolve_end t.get_row_count ∧
          r.resolve_end t.get_row_count ≤ t.get_row_count ∧
          block.get_count
            = (r.resolve_end t.get_row_count - r.start_idx) * t.get_column_count) := by
  unfold homogen_table.get_row_count homogen_table.get_column_count
  unfold row_accessor.push
  by_cases hv : 0 ≤ r.start_idx ∧ r.start_idx ≤ r.resolve_end t.row_count ∧
      r.resolve_end t.row_count ≤ t.row_count
  · obtain ⟨h0, h1, h2⟩ := hv
    rw [check_range_valid r t.row_count h0 h1 h2]
    simp only
    have hcast : (((r.resolve_end t.row_count).toNat - r.start_idx.toNat)
        * t.column_count.toNat : Nat)
        = ((r.resolve_end t.row_count - r.start_idx) * t.column_count : Int) := by
      rw [Nat.cast_mul, Int.toNat_of_nonneg hwf.2.1.le, Nat.cast_sub (Int.toNat_le_toNat h1),
        Int.toNat_of_nonneg h0, Int.toNat_of_nonneg (h0.trans h1)]
    by_cases hlen : block.data.length
        ≠ ((r.resolve_end t.row_count).toNat - r.start_idx.toNat) * t.column_count.toNat
    · rw [if_pos hlen]
      refine ⟨fun _ => ?_, fun _ => rfl⟩
      rintro ⟨-, -, -, hcount⟩
      unfold array.get_count at hcount
      rw [← hcast] at hcount
      exact hlen (by exact_mod_cast hcount)
    · rw [if_neg hlen, if_neg (by rw [hm]; simp)]
      have hcount : block.get_count
          = (r.resolve_end t.row_count - r.start_idx) * t.column_count := by
        unfold array.get_count
        rw [← hcast]
        exact_mod_cast not_not.mp hlen
      constructor
      · intro h
        simp at h
      · intro h
        exact absurd ⟨h0, h1, h2, hcount⟩ h
  · rw [check_range_invalid r t.row_count (by omega)]
    refine ⟨fun _ => ?_, fun _ => rfl⟩
    rintro ⟨h0, h1, h2, -⟩
    exact hv ⟨h0, h1, h2⟩

/-- The 3x2 table of row_accessor.cpp:113-121: a one-row block (two elements)
is refused for the ranges `{0, 2}` and `{3, 4}`. -/
theorem push_range_error_iff_witness :
    row_accessor.push (fun _ _ (v : Int) => v) data_type.float32 false { next_ptr := 100 }
        (init_impl_bytes 3 2 { data_ptr := 8, data := [0, 0, 0, 0, 0, 0], is_mutable := true }
          data_type.float32 data_layout.row_major)
        { data_ptr := 50, data := [0, 0], is_mutable := true } { start_idx := 0, end_idx := 2 }
      = .error .range_error ∧
    row_accessor.push (fun _ _ (v : Int) => v) data_type.float32 false { next_ptr := 100 }
        (init_impl_bytes 3 2 { data_ptr := 8, data := [0, 0, 0, 0, 0, 0], is_mutable := true }
          data_type.float32 data_layout.row_major)
        { data_ptr := 50, data := [0, 0], is_mutable := true } { start_idx := 3, end_idx := 4 }
      = .error .range_error :=
  ⟨(push_range_error_iff (fun _ _ (v : Int) => v) data_type.float32 false { next_ptr := 100 }
      (init_impl_bytes 3 2 { data_ptr := 8, data := [0, 0, 0, 0, 0, 0], is_mutable := true }
        data_type.float32 data_layout.row_major)
      { data_ptr := 50, data := [0, 0], is_mutable := true } { start_idx := 0, end_idx := 2 }
      (by decide) rfl).mpr (by decide),
   (push_range_error_iff (fun _ _ (v : Int) => v) data_type.float32 false { next_ptr := 100 }
      (init_impl_bytes 3 2 { data_ptr := 8, data := [0, 0, 0, 0, 0, 0], is_mutable := true }
        data_type.float32 data_layout.row_major)
      { data_ptr := 50, data := [0, 0], is_mutable := true } { start_idx := 3, end_idx := 4 }
      (by decide) rfl).mpr (by decide)⟩

/-- C6: with the accessor's element type equal to the table's, pulling a
valid row range and pushing the block back into the same range leaves every
stored element of the table, and its dimensions, element type and layout, as
they were; the only way the push does not go through is
`ImmutableBufferError` on a non-writable buffer with in-place semantics, which
writes nothing. -/
theorem push_pull_round_trip {V : Type} [Inhabited V] (cv : data_type → data_type → V → V)
    (in_place : Bool) (al : allocator) (t : homogen_table V) (r : range)
    (hwf : t.well_formed) (h0 : 0 ≤ r.start_idx)
    (h1 : r.start_idx ≤ r.resolve_end t.get_row_count)
    (h2 : r.resolve_end t.get_row_count ≤ t.get_row_count) :
    ∃ blk al1, row_accessor.pull cv t.dtype al t r = .ok (blk, al1) ∧
      ((row_accessor.push cv t.dtype in_place al1 t blk r = .error .immutable_buffer_error ∧
          t.data.is_mutable = false ∧ in_place = true) ∨
        ∃ t1 al2, row_accessor.push cv t.dtype in_place al1 t blk r = .ok (t1, al2) ∧
          t1.data.data = t.data.data ∧
          t1.get_row_count = t.get_row_count ∧ t1.get_column_count = t.get_column_count ∧
          t1.dtype = t.dtype ∧ t1.layout = t.layout ∧
          ∀ row col, t1.logical_element row col = t.logical_element row col) := by
  unfold homogen_table.get_row_count homogen_table.get_column_count at *
  obtain ⟨blk, al1, hp, hlen, hel, -, -⟩ := pull_valid cv t.dtype al t r hwf h0 h1 h2
  refine ⟨blk, al1, hp, ?_⟩
  unfold row_accessor.push
  rw [check_range_valid r t.row_count h0 h1 h2]
  simp only
  rw [if_neg (not_not.mpr hlen)]
  by_cases himm : t.data.is_mutable = false ∧ in_place = true
  · left
    rw [if_pos himm]
    exact ⟨rfl, himm⟩
  · right
    rw [if_neg himm]
    have hdata := need_mutable_data_data al1 t.data
    rcases hnm : t.data.need_mutable_data al1 with ⟨buf, al2⟩
    rw [hnm] at hdata
    simp only at hdata
    have hsc : scatter (convert cv t.dtype t.dtype) t.layout t.stride t.column_count.toNat
        buf.data blk.data r.start_idx.toNat (r.resolve_end t.row_count).toNat = t.data.data := by
      rw [hdata]
      apply scatter_self
      intro k c hk hc
      obtain ⟨x, hx1, hx2⟩ := hel k c hk hc
      rw [logical_element_eq] at hx1
      rw [convert_same] at hx2
      rw [convert_same, List.getD_eq_getElem?_getD, List.getD_eq_getElem?_getD, hx1, hx2]
    refine ⟨_, al2, rfl, hsc, rfl, rfl, rfl, rfl, ?_⟩
    intro row col
    unfold homogen_table.logical_element
    simp only [hsc]

/-- The 3x2 column-major table `{ 1, 2, 3, -1, -2, -3 }`, writable, rows
`{1, -1}`: the block `[2, -2, 3, -3]` is pulled and pushed back. -/
theorem push_pull_round_trip_witness :
    (∃ blk al1,
      row_accessor.pull (fun _ _ (v : Int) => v) data_type.float32 { next_ptr := 100 }
        (init_impl_bytes 3 2 { data_ptr := 8, data := [1, 2, 3, -1, -2, -3], is_mutable := true }
          data_type.float32 data_layout.column_major) { start_idx := 1, end_idx := -1 }
        = .ok (blk, al1) ∧
      ((row_accessor.push (fun _ _ (v : Int) => v) data_type.float32 false al1
            (init_impl_bytes 3 2
              { data_ptr := 8, data := [1, 2, 3, -1, -2, -3], is_mutable := true }
              data_type.float32 data_layout.column_major) blk { start_idx := 1, end_idx := -1 }
            = .error .immutable_buffer_error ∧ true = false ∧ false = true) ∨
        ∃ t1 al2,
          row_accessor.push (fun _ _ (v : Int) => v) data_type.float32 false al1
            (init_impl_bytes 3 2
              { data_ptr := 8, data := [1, 2, 3, -1, -2, -3], is_mutable := true }
              data_type.float32 data_layout.column_major) blk { start_idx := 1, end_idx := -1 }
            = .ok (t1, al2) ∧
          t1.data.data = [1, 2, 3, -1, -2, -3] ∧
          t1.get_row_count = 3 ∧ t1.get_column_count = 2 ∧
          t1.dtype = data_type.float32 ∧ t1.layout = data_layout.column_major ∧
          ∀ row col, t1.logical_element row col
            = (init_impl_bytes 3 2
              { data_ptr := 8, data := [1, 2, 3, -1, -2, -3], is_mutable := true }
              data_type.float32 data_layout.column_major).logical_element row col)) ∧
    row_accessor.push (fun _ _ (v : Int) => v) data_type.float32 false { next_ptr := 104 }
        (init_impl_bytes 3 2 { data_ptr := 8, data := [1, 2, 3, -1, -2, -3], is_mutable := true }
          data_type.float32 data_layout.column_major)
        { data_ptr := 100, data := [2, -2, 3, -3], is_mutable := true }
        { start_idx := 1, end_idx := -1 }
      = .ok (init_impl_bytes 3 2
          { data_ptr := 8, data := [1, 2, 3, -1, -2, -3], is_mutable := true }
          data_type.float32 data_layout.column_major, { next_ptr := 104 }) :=
  ⟨push_pull_round_trip (fun _ _ (v : Int) => v) false { next_ptr := 100 }
      (init_impl_bytes 3 2 { data_ptr := 8, data := [1, 2, 3, -1, -2, -3], is_mutable := true }
        data_type.float32 data_layout.column_major) { start_idx := 1, end_idx := -1 }
      (by decide) (by decide) (by decide) (by decide),
    rfl⟩

/-- C8: construction from a raw pointer and construction from an array both
fail with `domain_error` if and only if `row_count <= 0` or
`column_count <= 0`, and `validate_input_dimensions` accepts exactly the pairs
with `row_count > 0` and `column_count > 0`. -/
theorem dimension_error_iff {V : Type} (Data : data_type) (row_count column_count : Int)
    (data_pointer : Nat) (memory : Nat → V) (data : array V) (layout : data_layout) :
    ((∃ msg, init_impl_pointer Data row_count column_count data_pointer memory layout
        = .error (.domain_error msg)) ↔ (row_count ≤ 0 ∨ column_count ≤ 0)) ∧
    ((∃ msg, init_impl_array Data data row_count column_count layout
        = .error (.domain_error msg)) ↔ (row_count ≤ 0 ∨ column_count ≤ 0)) ∧
    (validate_input_dimensions row_count column_count = .ok ()
      ↔ (0 < row_count ∧ 0 < column_count)) := by
  unfold init_impl_pointer init_impl_array validate_input_dimensions check_mul_overflow
  by_cases hr : row_count ≤ 0
  · simp [hr, bind, Except.bind]
  · by_cases hc : column_count ≤ 0
    · simp [hr, hc, bind, Except.bind]
    · simp only [hr, hc, if_false, or_self, iff_false, not_exists]
      refine ⟨?_, ?_, ?_⟩
      · intro msg
        by_cases ho : int64_min ≤ row_count * column_count ∧ row_count * column_count ≤ int64_max
        · simp [ho, bind, Except.bind, pure, Except.pure]
        · simp [ho, bind, Except.bind]
      · intro msg
        by_cases ho : int64_min ≤ row_count * column_count ∧ row_count * column_count ≤ int64_max
        · by_cases hn : data.get_count < row_count * column_count
          · simp [ho, hn, bind, Except.bind, throw, throwThe, MonadExceptOf.throw]
          · simp [ho, hn, bind, Except.bind, pure, Except.pure]
        · simp [ho, bind, Except.bind]
      · simp; omega

/-- C9: for positive dimensions whose product fits `std::int64_t`,
construction from an array of `n` elements fails with `invalid_argument` if and
only if `n < row_count * column_count`; otherwise it succeeds, and from an
array of exactly `row_count * column_count` elements the table satisfies
`row_count * column_count * element_size = byte size of the array`. -/
theorem size_mismatch_iff {V : Type} (Data : data_type) (data : array V)
    (row_count column_count : Int) (layout : data_layout)
    (hr : 0 < row_count) (hc : 0 < column_count)
    (hov : row_count * column_count ≤ int64_max) :
    ((∃ msg, init_impl_array Data data row_count column_count layout
        = .error (.invalid_argument msg)) ↔ data.get_count < row_count * column_count) ∧
    (row_count * column_count ≤ data.get_count →
      ∃ t, init_impl_array Data data row_count column_count layout = .ok t ∧
        t.get_row_count = row_count ∧ t.get_column_count = column_count ∧ t.data = data) ∧
    (data.get_count = row_count * column_count →
      ∃ t, init_impl_array Data data row_count column_count layout = .ok t ∧
        t.get_row_count * t.get_column_count * element_size t.dtype
          = data.byte_size Data ∧
        t.byte_size = data.byte_size Data) := by
  have hmin : int64_min ≤ row_count * column_count := by
    have h1 : 0 < row_count * column_count := Int.mul_pos hr hc
    unfold int64_min; omega
  have hrun : init_impl_array Data data row_count column_count layout
      = if data.get_count < row_count * column_count then
          .error (.invalid_argument .rc_and_cc_do_not_match_element_count_in_array)
        else .ok (init_impl_bytes row_count column_count data Data layout) := by
    unfold init_impl_array validate_input_dimensions check_mul_overflow
    rw [if_neg (by omega), if_neg (by omega), if_pos ⟨hmin, hov⟩]
    by_cases hn : data.get_count < row_count * column_count
    · simp [hn, bind, Except.bind, throw, throwThe, MonadExceptOf.throw]
    · simp [hn, bind, Except.bind, pure, Except.pure]
  rw [hrun]
  refine ⟨?_, ?_, ?_⟩
  · constructor
    · rintro ⟨msg, hmsg⟩
      by_contra hn
      rw [if_neg hn] at hmsg
      cases hmsg
    · intro hn
      exact ⟨_, by rw [if_pos hn]⟩
  · intro hle
    exact ⟨init_impl_bytes row_count column_count data Data layout,
      by rw [if_neg (by omega)], rfl, rfl, rfl⟩
  · intro heq
    refine ⟨init_impl_bytes row_count column_count data Data layout,
      by rw [if_neg (by omega)], ?_, rfl⟩
    unfold homogen_table.get_row_count homogen_table.get_column_count init_impl_bytes
      array.byte_size
    simp only
    rw [heq]

/-- An array of six `float` zeros built into a 3x2 table, and an array of five
refused. -/
theorem size_mismatch_iff_witness :
    (∃ t, init_impl_array data_type.float32
        ({ data_ptr := 8, data := [0, 0, 0, 0, 0, 0], is_mutable := true } : array Int) 3 2
        data_layout.row_major = .ok t ∧
      t.get_row_count * t.get_column_count * element_size t.dtype
        = ({ data_ptr := 8, data := [0, 0, 0, 0, 0, 0], is_mutable := true } : array Int).byte_size
          data_type.float32 ∧
      t.byte_size
        = ({ data_ptr := 8, data := [0, 0, 0, 0, 0, 0], is_mutable := true } : array Int).byte_size
          data_type.float32) ∧
    (∃ msg, init_impl_array data_type.float32
        ({ data_ptr := 8, data := [0, 0, 0, 0, 0], is_mutable := true } : array Int) 3 2
        data_layout.row_major = .error (.invalid_argument msg)) :=
  ⟨(size_mismatch_iff data_type.float32
      ({ data_ptr := 8, data := [0, 0, 0, 0, 0, 0], is_mutable := true } : array Int) 3 2
      data_layout.row_major (by decide) (by decide) (by decide)).2.2 (by decide),
   (size_mismatch_iff data_type.float32
      ({ data_ptr := 8, data := [0, 0, 0, 0, 0], is_mutable := true } : array Int) 3 2
      data_layout.row_major (by decide) (by decide) (by decide)).1.mpr (by decide)⟩

namespace linalg

/-- C10: for in-bounds `(i, j)`, `get_linear_index(i, j)` is `i * stride + j`
in row-major layout and `j * stride + i` in column-major layout. -/
theorem get_linear_index_formula (m : matrix_base) (i j : Int)
    (hi0 : 0 ≤ i) (hi1 : i < m.get_row_count)
    (hj0 : 0 ≤ j) (hj1 : j < m.get_column_count) :
    (m.get_layout = layout.row_major →
      m.get_linear_index i j = some (i * m.get_stride + j)) ∧
    (m.get_layout = layout.column_major →
      m.get_linear_index i j = some (j * m.get_stride + i)) := by
  unfold matrix_base.get_linear_index matrix_base.get_layout
  rw [if_neg (not_not.mpr ⟨hi0, hi1⟩), if_neg (not_not.mpr ⟨hj0, hj1⟩)]
  constructor
  · intro hl
    rw [if_pos hl]
  · intro hl
    rw [if_neg (by rw [hl]; decide)]

/-- A 2x3 descriptor of stride 3 in each layout, at `(1, 2)` and `(1, 1)`. -/
theorem get_linear_index_formula_witness :
    ({ lyt := layout.row_major, shape_ := { row_count := 2, column_count := 3 },
        stride_ := 3 } : matrix_base).get_linear_index 1 2 = some (1 * 3 + 2) ∧
    ({ lyt := layout.column_major, shape_ := { row_count := 2, column_count := 3 },
        stride_ := 2 } : matrix_base).get_linear_index 1 1 = some (1 * 2 + 1) :=
  ⟨(get_linear_index_formula
      { lyt := layout.row_major, shape_ := { row_count := 2, column_count := 3 }, stride_ := 3 }
      1 2 (by decide) (by decide) (by decide) (by decide)).1 rfl,
   (get_linear_index_formula
      { lyt := layout.column_major, shape_ := { row_count := 2, column_count := 3 },
        stride_ := 2 }
      1 1 (by decide) (by decide) (by decide) (by decide)).2 rfl⟩

/-- A descriptor that passed the stride assertion of its constructor. -/
theorem create_eq_some (m : matrix_base)
    (h : matrix_base.create m.lyt m.shape_ m.stride_ = some m) :
    (m.lyt = layout.row_major → m.get_stride ≥ m.get_column_count) ∧
    (m.lyt = layout.column_major → m.get_stride ≥ m.get_row_count) := by
  unfold matrix_base.create at h
  unfold matrix_base.get_stride matrix_base.get_column_count matrix_base.get_row_count
  constructor
  · intro hl
    rw [if_pos hl] at h
    by_contra hn
    rw [if_neg hn] at h
    cases h
  · intro hl
    rw [if_neg (by rw [hl]; decide)] at h
    by_contra hn
    rw [if_neg hn] at h
    cases h

/-- C11 (counterexample): the 2x2 row-major descriptor of stride 3 passes the
constructor's assertion (3 >= 2), and its in-bounds cell `(1, 1)` has linear
index 4, which exceeds `2 * 2 - 1 = 3`. -/
theorem linear_index_exceeds_count_with_padded_stride :
    matrix_base.create layout.row_major { row_count := 2, column_count := 2 } 3
      = some { lyt := layout.row_major, shape_ := { row_count := 2, column_count := 2 },
               stride_ := 3 } ∧
    ({ lyt := layout.row_major, shape_ := { row_count := 2, column_count := 2 },
       stride_ := 3 } : matrix_base).get_linear_index 1 1 = some 4 ∧
    ¬ ((4 : Int) ≤ 2 * 2 - 1) := by
  decide

/-- C11 (amended): for a descriptor that satisfies the constructor's stride
constraint and an in-bounds `(i, j)`, the linear index is non-negative and at
most `(row_count - 1) * stride + column_count - 1` in row-major layout
(`(column_count - 1) * stride + row_count - 1` in column-major layout); when the
stride is the default one this bound is `row_count * column_count - 1`. -/
theorem linear_index_bound (m : matrix_base) (i j : Int)
    (hm : matrix_base.create m.lyt m.shape_ m.stride_ = some m)
    (hi0 : 0 ≤ i) (hi1 : i < m.get_row_count)
    (hj0 : 0 ≤ j) (hj1 : j < m.get_column_count) :
    ∃ k, m.get_linear_index i j = some k ∧ 0 ≤ k ∧
      (m.get_layout = layout.row_major →
        k ≤ (m.get_row_count - 1) * m.get_stride + m.get_column_count - 1) ∧
      (m.get_layout = layout.column_major →
        k ≤ (m.get_column_count - 1) * m.get_stride + m.get_row_count - 1) ∧
      (m.get_stride = matrix_base.get_default_stride m.lyt m.shape_ →
        k ≤ m.get_row_count * m.get_column_count - 1) := by
  obtain ⟨hrow, hcol⟩ := create_eq_some m hm
  unfold matrix_base.get_linear_index matrix_base.get_layout
  rw [if_neg (not_not.mpr ⟨hi0, hi1⟩), if_neg (not_not.mpr ⟨hj0, hj1⟩)]
  unfold matrix_base.get_default_stride
  by_cases hl : m.lyt = layout.row_major
  · rw [if_pos hl, if_pos hl]
    have hs := hrow hl
    have hs0 : 0 ≤ m.get_stride := by omega
    have h1 : i * m.get_stride ≤ (m.get_row_count - 1) * m.get_stride :=
      Int.mul_le_mul_of_nonneg_right (by omega) hs0
    refine ⟨_, rfl, ?_, fun _ => ?_, fun h => ?_, fun hd => ?_⟩
    · have := Int.mul_nonneg hi0 hs0; omega
    · omega
    · rw [hl] at h; cases h
    · have hd1 : m.get_stride = m.get_column_count := hd
      rw [hd1] at h1 ⊢
      have h2 : (m.get_row_count - 1) * m.get_column_count
          = m.get_row_count * m.get_column_count - m.get_column_count := by ring
      omega
  · have hc : m.lyt = layout.column_major := by
      cases hlyt : m.lyt with
      | row_major => exact absurd hlyt hl
      | column_major => rfl
    rw [if_neg hl, if_neg hl]
    have hs := hcol hc
    have hs0 : 0 ≤ m.get_stride := by omega
    have h1 : j * m.get_stride ≤ (m.get_column_count - 1) * m.get_stride :=
      Int.mul_le_mul_of_nonneg_right (by omega) hs0
    refine ⟨_, rfl, ?_, fun h => ?_, fun _ => ?_, fun hd => ?_⟩
    · have := Int.mul_nonneg hj0 hs0; omega
    · exact absurd h hl
    · omega
    · have hd1 : m.get_stride = m.get_row_count := hd
      rw [hd1] at h1 ⊢
      have h2 : (m.get_column_count - 1) * m.get_row_count
          = m.get_row_count * m.get_column_count - m.get_row_count := by ring
      omega

/-- The 2x3 row-major descriptor with its default stride 3, at `(1, 2)`. -/
theorem linear_index_bound_witness :
    ∃ k, ({ lyt := layout.row_major, shape_ := { row_count := 2, column_count := 3 },
            stride_ := 3 } : matrix_base).get_linear_index 1 2 = some k ∧ 0 ≤ k ∧
      (layout.row_major = layout.row_major → k ≤ (2 - 1) * 3 + 3 - 1) ∧
      (layout.row_major = layout.column_major → k ≤ (3 - 1) * 3 + 2 - 1) ∧
      ((3 : Int) = 3 → k ≤ 2 * 3 - 1) :=
  linear_index_bound
    { lyt := layout.row_major, shape_ := { row_count := 2, column_count := 3 }, stride_ := 3 }
    1 2 (by decide) (by decide) (by decide) (by decide) (by decide)

/-- What the assertions of the private `matrix` constructor establish. -/
theorem matrix_create_eq_some {V : Type} (lyt : layout) (x : array V) (s : shape)
    (stride : Int) (m : matrix V) (h : matrix.create lyt x s stride = some m) :
    m.lyt = lyt ∧ m.shape_ = s ∧ m.stride_ = stride ∧ m.x_ = x ∧
      matrix_base.create lyt s stride = some m.tomatrix_base ∧ s.get_count ≤ x.get_count := by
  unfold matrix.create at h
  cases hb : matrix_base.create lyt s stride with
  | none => rw [hb] at h; cases h
  | some b =>
    rw [hb] at h
    simp only at h
    by_cases hc : s.get_count ≤ x.get_count
    · rw [if_pos hc] at h
      cases h
      unfold matrix_base.create at hb
      by_cases hl : lyt = layout.row_major
      · rw [if_pos hl] at hb
        by_cases hst : stride ≥ s.get_column_count
        · rw [if_pos hst] at hb; cases hb; exact ⟨rfl, rfl, rfl, rfl, rfl, hc⟩
        · rw [if_neg hst] at hb; cases hb
      · rw [if_neg hl] at hb
        by_cases hst : stride ≥ s.get_row_count
        · rw [if_pos hst] at hb; cases hb; exact ⟨rfl, rfl, rfl, rfl, rfl, hc⟩
        · rw [if_neg hst] at hb; cases hb
    · rw [if_neg hc] at h; cases h

/-- C12: for a constructed matrix `m`, `m.t()` passes the constructor's
assertions and has the row and column counts swapped, the opposite layout,
the same stride and the same array; `m.t().get_linear_index(i, j)` is
`m.get_linear_index(j, i)` and `m.t().get(i, j)` is `m.get(j, i)` (with a
value inside the bounds), and the transposed descriptor satisfies the stride
constraint of its layout. -/
theorem transpose_is_metadata_only {V : Type} (m : matrix V)
    (hs : shape.create m.get_row_count m.get_column_count = some m.get_shape)
    (hm : matrix.create m.lyt m.x_ m.shape_ m.stride_ = some m) :
    ∃ mt, m.t = some mt ∧
      shape.create m.get_column_count m.get_row_count = some mt.get_shape ∧
      mt.get_row_count = m.get_column_count ∧ mt.get_column_count = m.get_row_count ∧
      mt.get_layout = transpose_layout m.get_layout ∧ mt.get_layout ≠ m.get_layout ∧
      mt.get_stride = m.get_stride ∧ mt.get_array = m.get_array ∧
      (∀ i j : Int, mt.get_linear_index i j = m.get_linear_index j i ∧
        mt.get i j = m.get j i) ∧
      (∀ i j : Int, 0 ≤ i → i < m.get_column_count → 0 ≤ j → j < m.get_row_count →
        ∃ k, mt.get_linear_index i j = some k) ∧
      matrix_base.create mt.lyt mt.shape_ mt.stride_ = some mt.tomatrix_base := by
  obtain ⟨-, -, -, -, hb, hcount⟩ := matrix_create_eq_some _ _ _ _ m hm
  obtain ⟨hrow, hcol⟩ := create_eq_some m.tomatrix_base hb
  have hcount_t : m.get_shape.t.get_count ≤ m.x_.get_count := by
    unfold matrix.get_shape shape.t shape.get_count shape.get_row_count shape.get_column_count
    unfold shape.get_count shape.get_row_count shape.get_column_count at hcount
    simp only
    rw [Int.mul_comm]
    exact hcount
  have hbase : matrix_base.create (transpose_layout m.lyt) m.get_shape.t m.get_stride
      = some { lyt := transpose_layout m.lyt, shape_ := m.get_shape.t,
               stride_ := m.get_stride } := by
    unfold matrix_base.create transpose_layout
    by_cases hl : m.lyt = layout.row_major
    · have h1 := hrow hl
      rw [if_pos hl, if_neg (by decide), if_pos (by exact h1)]
    · have hc : m.lyt = layout.column_major := by
        cases hlyt : m.lyt with
        | row_major => exact absurd hlyt hl
        | column_major => rfl
      have h1 := hcol hc
      rw [if_neg hl, if_pos rfl, if_pos (by exact h1)]
  have ht : m.t
      = some { lyt := transpose_layout m.lyt, shape_ := m.get_shape.t,
               stride_ := m.get_stride, x_ := m.x_ } := by
    unfold matrix.t matrix.create
    rw [hbase]
    simp only
    rw [if_pos hcount_t]
  refine ⟨_, ht, ?_, rfl, rfl, rfl, ?_, rfl, rfl, ?_, ?_, hbase⟩
  · unfold shape.create at hs ⊢
    unfold matrix.get_shape shape.t
    unfold matrix_base.get_row_count matrix_base.get_column_count shape.get_row_count
      shape.get_column_count at *
    by_cases h1 : m.shape_.row_count ≥ 0
    · by_cases h2 : m.shape_.column_count ≥ 0
      · by_cases h3 : (m.shape_.row_count = 0 ∨ m.shape_.column_count = 0) ∧
            ¬ (m.shape_.row_count = 0 ∧ m.shape_.column_count = 0)
        · rw [if_neg (not_not.mpr h1), if_neg (not_not.mpr h2), if_pos h3] at hs; cases hs
        · by_cases h4 : int64_min ≤ m.shape_.row_count * m.shape_.column_count ∧
              m.shape_.row_count * m.shape_.column_count ≤ int64_max
          · rw [if_neg (not_not.mpr h2), if_neg (not_not.mpr h1),
              if_neg (by intro h; exact h3 ⟨h.1.symm, fun hh => h.2 hh.symm⟩),
              if_neg (by rw [Int.mul_comm]; exact not_not.mpr h4)]
          · rw [if_neg (not_not.mpr h1), if_neg (not_not.mpr h2), if_neg h3, if_pos h4] at hs
            cases hs
      · rw [if_neg (not_not.mpr h1), if_pos h2] at hs; cases hs
    · rw [if_pos h1] at hs; cases hs
  · unfold matrix_base.get_layout transpose_layout
    simp only
    by_cases hl : m.lyt = layout.row_major
    · rw [if_pos hl, hl]; decide
    · rw [if_neg hl]; exact fun h => hl h.symm
  · have hidx : ∀ i j : Int,
        ({ lyt := transpose_layout m.lyt, shape_ := m.get_shape.t,
           stride_ := m.get_stride } : matrix_base).get_linear_index i j
          = m.get_linear_index j i := by
      intro i j
      unfold matrix_base.get_linear_index matrix_base.get_row_count
        matrix_base.get_column_count matrix_base.get_stride matrix.get_shape shape.t
        shape.get_row_count shape.get_column_count transpose_layout
      simp only
      by_cases hi : i ≥ 0 ∧ i < m.shape_.column_count
      · by_cases hj : j ≥ 0 ∧ j < m.shape_.row_count
        · rw [if_neg (not_not.mpr hi), if_neg (not_not.mpr hj), if_neg (not_not.mpr hj),
            if_neg (not_not.mpr hi)]
          by_cases hl : m.lyt = layout.row_major
          · rw [if_pos hl, if_neg (by decide), if_pos hl]
          · rw [if_neg hl, if_pos rfl, if_neg hl]
        · rw [if_neg (not_not.mpr hi), if_pos hj, if_pos hj]
      · rw [if_pos hi]
        by_cases hj : j ≥ 0 ∧ j < m.shape_.row_count
        · rw [if_neg (not_not.mpr hj), if_pos hi]
        · rw [if_pos hj]
    intro i j
    refine ⟨hidx i j, ?_⟩
    unfold matrix.get
    simp only
    rw [hidx i j]
    rfl
  · intro i j hi0 hi1 hj0 hj1
    unfold matrix_base.get_linear_index matrix_base.get_row_count
      matrix_base.get_column_count matrix.get_shape shape.t
      shape.get_row_count shape.get_column_count
    have hi2 : i < m.shape_.column_count := hi1
    have hj2 : j < m.shape_.row_count := hj1
    simp only
    rw [if_neg (not_not.mpr ⟨hi0, hi2⟩), if_neg (not_not.mpr ⟨hj0, hj2⟩)]
    by_cases hl : transpose_layout m.lyt = layout.row_major
    · rw [if_pos hl]; exact ⟨_, rfl⟩
    · rw [if_neg hl]; exact ⟨_, rfl⟩

/-- The 2x3 row-major matrix over `[1, 2, 3, 4, 5, 6]`: its transpose is the
3x2 column-major matrix over the same array, and `m.t().get(2, 1)` is
`m.get(1, 2) = 6`. -/
theorem transpose_is_metadata_only_witness :
    (∃ mt, matrix_2x3.t = some mt ∧
      shape.create 3 2 = some mt.get_shape ∧
      mt.get_row_count = 3 ∧ mt.get_column_count = 2 ∧
      mt.get_layout = transpose_layout layout.row_major ∧ mt.get_layout ≠ layout.row_major ∧
      mt.get_stride = 3 ∧
      mt.get_array = { data_ptr := 8, data := [1, 2, 3, 4, 5, 6], is_mutable := false } ∧
      (∀ i j : Int, mt.get_linear_index i j = matrix_2x3.get_linear_index j i ∧
        mt.get i j = matrix_2x3.get j i) ∧
      (∀ i j : Int, 0 ≤ i → i < 3 → 0 ≤ j → j < 2 → ∃ k, mt.get_linear_index i j = some k) ∧
      matrix_base.create mt.lyt mt.shape_ mt.stride_ = some mt.tomatrix_base) ∧
    matrix.wrap layout.row_major matrix_2x3.get_array matrix_2x3.get_shape
      = some matrix_2x3 ∧
    (matrix_2x3.t.map fun mt => (mt.get_layout, mt.get_shape, mt.get_stride, mt.get 2 1))
      = some (layout.column_major, { row_count := 3, column_count := 2 }, 3, some 6) ∧
    matrix_2x3.get 1 2 = some 6 :=
  ⟨transpose_is_metadata_only matrix_2x3 (by decide) (by decide), by decide, by decide,
    by decide⟩

end linalg

end oneapi.dal

/-! ## Mutable data and filled matrices -/

namespace oneapi.dal

/-- The buffer `need_mutable_data` leaves behind is writable. -/
theorem need_mutable_data_is_mutable {V : Type} (al : allocator) (a : array V) :
    (a.need_mutable_data al).1.is_mutable = true := by
  unfold array.need_mutable_data
  by_cases h : a.is_mutable = true
  · rw [if_pos h]; exact h
  · rw [if_neg h]
    unfold array.empty
    by_cases hl : a.data.length = 0
    · rw [if_pos hl]
    · rw [if_neg hl]

/-- Writing `v` at the offsets `0 .. n-1` keeps the length and leaves `v` at
every offset below `n`, the old element elsewhere. -/
theorem foldl_set_range {α : Type} (v : α) (l : List α) (n : Nat) :
    ((List.range n).foldl (fun acc i => acc.set i v) l).length = l.length ∧
    ∀ i, i < l.length →
      ((List.range n).foldl (fun acc i => acc.set i v) l)[i]?
        = if i < n then some v else l[i]? := by
  induction n with
  | zero => simp
  | succ n ih =>
    rw [List.range_succ, List.foldl_append]
    simp only [List.foldl_cons, List.foldl_nil, List.length_set]
    refine ⟨ih.1, fun i hi => ?_⟩
    rw [List.getElem?_set]
    by_cases hni : n = i
    · subst hni
      rw [if_pos rfl, if_pos (by rw [ih.1]; exact hi), if_pos (Nat.lt_succ_self _)]
    · rw [if_neg hni, ih.2 i hi]
      by_cases hlt : i < n
      · rw [if_pos hlt, if_pos (by omega)]
      · rw [if_neg hlt, if_neg (by omega)]

/-- C13 (counterexample): the default-constructed (empty) matrix reports
`has_mutable_data() == false` after `need_mutable_data()`, although its array
does report writable storage: `has_data()` is false. -/
theorem empty_matrix_need_mutable_data_has_no_mutable_data :
    ((linalg.matrix.init linalg.layout.row_major : linalg.matrix Int).need_mutable_data
        { next_ptr := 100 }).1.has_mutable_data = false ∧
    ((linalg.matrix.init linalg.layout.row_major : linalg.matrix Int).need_mutable_data
        { next_ptr := 100 }).1.x_.has_mutable_data = true := by
  decide

/-- C13 (amended): after `need_mutable_data()`, `has_mutable_data()` is true for
every buffer and for every matrix that holds data (`get_count() > 0`), and with
`allow_copy == true` the assertion `data.has_mutable_data()` of
`convert_to_daal_homogen_table` holds for every array. -/
theorem need_mutable_data_then_has_mutable_data {V R : Type}
    (create : Nat → Int → Int → Except error R) (al : allocator) (a : array V)
    (m : linalg.matrix V) (data : array V) (row_count column_count : Int)
    (hm : 0 < m.get_count) :
    (a.need_mutable_data al).1.has_mutable_data = true ∧
    (m.need_mutable_data al).1.has_mutable_data = true ∧
    ∃ res, backend.interop.convert_to_daal_homogen_table create al data row_count
      column_count true = some res := by
  refine ⟨need_mutable_data_is_mutable al a, ?_, ?_⟩
  · unfold linalg.matrix.has_mutable_data linalg.matrix.has_data
      linalg.matrix.need_mutable_data array.has_mutable_data
    simp only [Bool.and_eq_true, decide_eq_true_eq]
    exact ⟨hm, need_mutable_data_is_mutable al m.x_⟩
  · unfold backend.interop.convert_to_daal_homogen_table
    by_cases h0 : data.get_count = 0
    · rw [if_pos h0]; exact ⟨_, rfl⟩
    · rw [if_neg h0]
      simp only [if_true]
      have hmut := need_mutable_data_is_mutable al data
      rw [if_neg (not_not.mpr (by unfold array.has_mutable_data; exact hmut))]
      unfold array.get_mutable_data
      rw [if_pos hmut]
      simp only
      cases create (data.need_mutable_data al).1.data_ptr column_count row_count with
      | error err => exact ⟨_, rfl⟩
      | ok nt => exact ⟨_, rfl⟩

/-- The 2x3 matrix over a read-only array and that array itself: after
`need_mutable_data()` both report writable storage, and the conversion with
`allow_copy == true` passes its assertion. -/
theorem need_mutable_data_then_has_mutable_data_witness :
    (linalg.matrix_2x3.get_array.need_mutable_data { next_ptr := 100 }).1.has_mutable_data
      = true ∧
    (linalg.matrix_2x3.need_mutable_data { next_ptr := 100 }).1.has_mutable_data = true ∧
    ∃ res, backend.interop.convert_to_daal_homogen_table
      (fun p c r => (.ok (p, c, r) : Except error (Nat × Int × Int))) { next_ptr := 100 }
      linalg.matrix_2x3.get_array 2 3 true = some res :=
  need_mutable_data_then_has_mutable_data
    (fun p c r => (.ok (p, c, r) : Except error (Nat × Int × Int))) { next_ptr := 100 }
    linalg.matrix_2x3.get_array linalg.matrix_2x3 linalg.matrix_2x3.get_array 2 3 (by decide)

/-- The buffer returned by `array::empty` is writable. -/
theorem array_empty_is_mutable {V : Type} (al : allocator) (l : List V) :
    (array.empty al l).1.is_mutable = true := by
  unfold array.empty
  by_cases h : l.length = 0
  · rw [if_pos h]
  · rw [if_neg h]

/-- A shape that passed the assertions of its constructor has non-negative
counts. -/
theorem shape_create_eq_some (s : linalg.shape)
    (h : linalg.shape.create s.row_count s.column_count = some s) :
    0 ≤ s.row_count ∧ 0 ≤ s.column_count := by
  unfold linalg.shape.create at h
  by_cases h1 : s.row_count ≥ 0
  · by_cases h2 : s.column_count ≥ 0
    · exact ⟨h1, h2⟩
    · rw [if_neg (not_not.mpr h1), if_pos h2] at h; cases h
  · rw [if_pos h1] at h; cases h

/-- What `matrix::full(s, v)` returns for a constructed shape: a matrix of
shape `s` and default stride over a fresh array of `s.get_count()` elements,
all equal to `v`. -/
theorem matrix_full_spec {V : Type} (lyt : linalg.layout) (al : allocator) (uninit : Nat → V)
    (s : linalg.shape) (v : V)
    (hs : linalg.shape.create s.row_count s.column_count = some s) :
    ∃ m al1, linalg.matrix.full lyt al uninit s v = some (.ok (m, al1)) ∧
      m.get_shape = s ∧ m.get_layout = lyt ∧ m.get_array.get_count = s.get_count ∧
      ∀ i : Int, 0 ≤ i → i < s.get_count → m.get_linear i = some v := by
  obtain ⟨hr, hc⟩ := shape_create_eq_some s hs
  have hcount0 : 0 ≤ s.get_count := Int.mul_nonneg hr hc
  have hlen : ((List.range s.get_count.toNat).map uninit).length = s.get_count.toNat := by
    simp
  have hbase : linalg.matrix_base.create lyt s (linalg.matrix_base.get_default_stride lyt s)
      = some { lyt := lyt, shape_ := s,
               stride_ := linalg.matrix_base.get_default_stride lyt s } := by
    unfold linalg.matrix_base.create linalg.matrix_base.get_default_stride
    by_cases hl : lyt = linalg.layout.row_major
    · rw [if_pos hl, if_pos hl, if_pos (le_refl _)]
    · rw [if_neg hl, if_neg hl, if_pos (le_refl _)]
  have hxcount : s.get_count
      ≤ (array.empty al ((List.range s.get_count.toNat).map uninit)).1.get_count := by
    unfold array.get_count
    rw [array_empty_data, hlen, Int.toNat_of_nonneg hcount0]
  have hfold := foldl_set_range v ((List.range s.get_count.toNat).map uninit)
    s.get_count.toNat
  unfold linalg.matrix.full linalg.matrix.empty linalg.matrix.wrap linalg.matrix.create
  rw [hbase]
  simp only
  rw [if_pos hxcount]
  simp only
  unfold linalg.matrix.fill linalg.matrix.get_mutable_data array.get_mutable_data
  simp only
  rw [if_pos (array_empty_is_mutable al _)]
  simp only
  refine ⟨_, _, rfl, rfl, rfl, ?_, ?_⟩
  · unfold linalg.matrix.get_array array.get_count linalg.matrix_base.get_count
    simp only
    rw [array_empty_data, hfold.1, hlen, Int.toNat_of_nonneg hcount0]
  · intro i hi0 hi1
    unfold linalg.matrix.get_linear linalg.matrix_base.get_count
    simp only
    rw [if_neg (by omega), array_empty_data, hfold.2 i.toNat (by rw [hlen]; omega),
      if_pos (by omega)]

/-- C14: a zero-initialized buffer of `count > 0` elements holds `count`
elements, each the zero of its type; for a constructed shape `s` and a value
`v`, `matrix::full(s, v)`, `matrix::zeros(s)` and `matrix::ones(s)` succeed and
return a matrix of shape `s` over `s.get_count()` elements whose element at
every linear index `0 <= i < s.get_count()` is `v`, `0` and `1`. -/
theorem zeros_and_full_hold_the_filler {V : Type} [Zero V] [One V] (lyt : linalg.layout)
    (al : allocator) (uninit : Nat → V) (count : Int) (s : linalg.shape) (v : V)
    (hcount : 0 < count)
    (hs : linalg.shape.create s.row_count s.column_count = some s) :
    ((array.zeros al count : array V × allocator).1.get_count = count ∧
      ∀ i : Nat, (i : Int) < count →
        (array.zeros al count : array V × allocator).1.data[i]? = some 0) ∧
    (∃ m al1, linalg.matrix.full lyt al uninit s v = some (.ok (m, al1)) ∧
      m.get_shape = s ∧ m.get_layout = lyt ∧ m.get_array.get_count = s.get_count ∧
      ∀ i : Int, 0 ≤ i → i < s.get_count → m.get_linear i = some v) ∧
    (∃ m al1, linalg.matrix.zeros lyt al uninit s = some (.ok (m, al1)) ∧
      m.get_shape = s ∧ m.get_layout = lyt ∧ m.get_array.get_count = s.get_count ∧
      ∀ i : Int, 0 ≤ i → i < s.get_count → m.get_linear i = some 0) ∧
    (∃ m al1, linalg.matrix.ones lyt al uninit s = some (.ok (m, al1)) ∧
      m.get_shape = s ∧ m.get_layout = lyt ∧ m.get_array.get_count = s.get_count ∧
      ∀ i : Int, 0 ≤ i → i < s.get_count → m.get_linear i = some 1) := by
  refine ⟨⟨?_, ?_⟩, matrix_full_spec lyt al uninit s v hs,
    matrix_full_spec lyt al uninit s 0 hs, matrix_full_spec lyt al uninit s 1 hs⟩
  · unfold array.zeros array.get_count
    rw [array_empty_data, List.length_replicate, Int.toNat_of_nonneg hcount.le]
  · intro i hi
    unfold array.zeros
    rw [array_empty_data, List.getElem?_replicate, if_pos (by omega)]

/-- Six zero-initialized elements (row_accessor.cpp:107) and the 2x3 matrices
`full({ 2, 3 }, 7)`, `zeros({ 2, 3 })`, `ones({ 2, 3 })`. -/
theorem zeros_and_full_hold_the_filler_witness :
    (((array.zeros { next_ptr := 100 } 6 : array Int × allocator).1.get_count = 6 ∧
      ∀ i : Nat, (i : Int) < 6 →
        (array.zeros { next_ptr := 100 } 6 : array Int × allocator).1.data[i]? = some 0) ∧
    (∃ m al1, linalg.matrix.full linalg.layout.row_major { next_ptr := 100 }
        (fun k => (k : Int) + 40) { row_count := 2, column_count := 3 } 7 = some (.ok (m, al1)) ∧
      m.get_shape = { row_count := 2, column_count := 3 } ∧
      m.get_layout = linalg.layout.row_major ∧ m.get_array.get_count = 2 * 3 ∧
      ∀ i : Int, 0 ≤ i → i < 2 * 3 → m.get_linear i = some 7) ∧
    (∃ m al1, linalg.matrix.zeros linalg.layout.row_major { next_ptr := 100 }
        (fun k => (k : Int) + 40) { row_count := 2, column_count := 3 } = some (.ok (m, al1)) ∧
      m.get_shape = { row_count := 2, column_count := 3 } ∧
      m.get_layout = linalg.layout.row_major ∧ m.get_array.get_count = 2 * 3 ∧
      ∀ i : Int, 0 ≤ i → i < 2 * 3 → m.get_linear i = some 0) ∧
    (∃ m al1, linalg.matrix.ones linalg.layout.row_major { next_ptr := 100 }
        (fun k => (k : Int) + 40) { row_count := 2, column_count := 3 } = some (.ok (m, al1)) ∧
      m.get_shape = { row_count := 2, column_count := 3 } ∧
      m.get_layout = linalg.layout.row_major ∧ m.get_array.get_count = 2 * 3 ∧
      ∀ i : Int, 0 ≤ i → i < 2 * 3 → m.get_linear i = some 1)) ∧
    (array.zeros { next_ptr := 100 } 6 : array Int × allocator)
      = ({ data_ptr := 100, data := [0, 0, 0, 0, 0, 0], is_mutable := true },
         { next_ptr := 106 }) ∧
    (linalg.matrix.full linalg.layout.row_major { next_ptr := 100 }
        (fun k => (k : Int) + 40) { row_count := 2, column_count := 3 } 7).map
      (fun r => r.map fun res => res.1.get_array.data) = some (.ok [7, 7, 7, 7, 7, 7]) :=
  ⟨zeros_and_full_hold_the_filler linalg.layout.row_major { next_ptr := 100 }
      (fun k => (k : Int) + 40) 6 { row_count := 2, column_count := 3 } 7
      (by decide) (by decide),
    by decide, rfl⟩

end oneapi.dal

/-! ## Device memory and transfer -/

namespace oneapi.dal.backend

/-- A successful `sycl::malloc` makes `backend::malloc` return its pointer. -/
theorem malloc_ok (rt : sycl.runtime) (queue : sycl.queue) (size : Int)
    (alloc : sycl.usm.alloc) (h : rt.allocate size queue alloc ≠ 0) :
    malloc rt queue size alloc
      = .ok (rt.allocate size queue alloc, (sycl.malloc rt size queue alloc).2) := by
  unfold malloc
  have hp : (sycl.malloc rt size queue alloc).1 = rt.allocate size queue alloc := by
    unfold sycl.malloc; rw [if_neg h]
  simp only [hp]
  rw [if_neg h]

/-- A null result of `sycl::malloc` makes `backend::malloc` throw the error of
the allocation kind. -/
theorem malloc_null (rt : sycl.runtime) (queue : sycl.queue) (size : Int)
    (alloc : sycl.usm.alloc) (h : rt.allocate size queue alloc = 0) :
    malloc rt queue size alloc
      = .error (bad_alloc alloc) := by
  unfold malloc
  have hp : (sycl.malloc rt size queue alloc).1 = 0 := by
    unfold sycl.malloc; rw [if_pos h]
  simp only [hp]
  unfold bad_alloc
  cases alloc <;> simp

/-- The copy of a non-empty array when the allocation succeeds: a new array at
the allocated pointer, tagged with the queue, with the source elements, and
the event of the `memcpy`. -/
theorem copy_to_usm_ok {V : Type} (T : data_type) (rt : sycl.runtime) (q : sycl.queue)
    (ary : array V) (alloc : sycl.usm.alloc) (hne : ary.get_count ≠ 0)
    (h : rt.allocate (element_size T * ary.get_count) q alloc ≠ 0) :
    copy_to_usm T rt q ary alloc
      = .ok (({ data_ptr := rt.allocate (element_size T * ary.get_count) q alloc,
                data := ary.data, is_mutable := true, queue_ := some q },
              sycl.event.memcpy q (rt.allocate (element_size T * ary.get_count) q alloc)
                ary.get_data (element_size T * ary.get_count)),
             (sycl.malloc rt (element_size T * ary.get_count) q alloc).2) := by
  have hlen : ¬ ary.data.length = 0 := by
    intro h0; apply hne; unfold array.get_count; rw [h0]; rfl
  unfold copy_to_usm array_empty_usm
  rw [if_neg hlen]
  have hm := malloc_ok rt q (element_size T * ary.get_count) alloc h
  unfold array.get_count at hm ⊢
  simp only
  rw [hm]
  rfl

/-- The copy of a non-empty array when the allocation fails. -/
theorem copy_to_usm_null {V : Type} (T : data_type) (rt : sycl.runtime) (q : sycl.queue)
    (ary : array V) (alloc : sycl.usm.alloc) (hne : ary.get_count ≠ 0)
    (h : rt.allocate (element_size T * ary.get_count) q alloc = 0) :
    copy_to_usm T rt q ary alloc
      = .error (bad_alloc alloc) := by
  have hlen : ¬ ary.data.length = 0 := by
    intro h0; apply hne; unfold array.get_count; rw [h0]; rfl
  unfold copy_to_usm array_empty_usm
  rw [if_neg hlen]
  have hm := malloc_null rt q (element_size T * ary.get_count) alloc h
  unfold array.get_count at hm
  simp only
  rw [hm]

/-- After a successful `sycl::malloc` the new block has the requested kind in
the queue's context. -/
theorem pointer_type_after_malloc (rt : sycl.runtime) (q : sycl.queue) (size : Int)
    (alloc : sycl.usm.alloc) (h : rt.allocate size q alloc ≠ 0) :
    sycl.get_pointer_type (sycl.malloc rt size q alloc).2 (rt.allocate size q alloc)
      q.get_context = alloc := by
  unfold sycl.malloc sycl.get_pointer_type
  rw [if_neg h]
  simp

/-- An array that `to_device` does not return although its data is on the
device: the untagged array at address 8, which is device USM in the context
of the queue, is non-empty and is copied into the block allocated at address
500. -/
theorem to_device_copies_untagged_device_array :
    sample_untagged_device_array.get_count ≠ 0 ∧
    sycl.get_pointer_type sample_runtime sample_untagged_device_array.get_data
      sample_queue.get_context = sycl.usm.alloc.device ∧
    ∃ ary_device rt1,
      to_device data_type.float32 sample_runtime sample_queue sample_untagged_device_array
        = some (.ok ((ary_device, sycl.event.memcpy sample_queue 500 8 (4 * 2)), rt1)) ∧
      ary_device.get_data = 500 ∧
      ary_device ≠ sample_untagged_device_array :=
  ⟨by decide, rfl,
    { data_ptr := 500, data := [1, 2], is_mutable := true, queue_ := some sample_queue },
    (sycl.malloc sample_runtime (4 * 2) sample_queue sycl.usm.alloc.device).2,
    rfl, rfl, by decide⟩

/-- C15 (amended): for a non-empty array, `to_device(q, ary)` returns `ary`
itself with a default-constructed event and allocates nothing when the array
carries the queue `q` and its data is device USM; it fails its assertion when
the array carries another queue; in every other case (the array carries no
queue, wherever its data is, or its data is not device USM) it returns a newly
allocated device-USM array tagged with `q`, of the same element count and
elements, together with the event of the `memcpy` (or throws
`device_bad_alloc` when the allocator returns null). -/
theorem to_device_returns_resident_array_or_copy {V : Type} (T : data_type)
    (rt : sycl.runtime) (q : sycl.queue) (ary : array V)
    (hne : ary.get_count ≠ 0) :
    (ary.get_queue = some q → is_device_usm rt ary = true →
      to_device T rt q ary = some (.ok ((ary, sycl.event.completed), rt))) ∧
    (∀ ary_q, ary.get_queue = some ary_q → ary_q ≠ q → to_device T rt q ary = none) ∧
    ((ary.get_queue = none ∨ (ary.get_queue = some q ∧ is_device_usm rt ary = false)) →
      (rt.allocate (element_size T * ary.get_count) q sycl.usm.alloc.device ≠ 0 →
        ∃ ary_device rt1,
          to_device T rt q ary
            = some (.ok ((ary_device,
                sycl.event.memcpy q ary_device.get_data ary.get_data
                  (element_size T * ary.get_count)), rt1)) ∧
          ary_device.get_data
            = rt.allocate (element_size T * ary.get_count) q sycl.usm.alloc.device ∧
          ary_device.get_count = ary.get_count ∧ ary_device.data = ary.data ∧
          ary_device.get_queue = some q ∧ is_device_usm rt1 ary_device = true) ∧
      (rt.allocate (element_size T * ary.get_count) q sycl.usm.alloc.device = 0 →
        to_device T rt q ary = some (.error .device_bad_alloc))) := by
  have hcopy : (ary.get_queue = none ∨ (ary.get_queue = some q ∧ is_device_usm rt ary = false)) →
      to_device T rt q ary = some (copy_to_usm T rt q ary sycl.usm.alloc.device) := by
    intro hcase
    unfold to_device
    rw [if_neg hne]
    rcases hcase with hqa | ⟨hqa, hres⟩
    · rw [hqa]
    · unfold is_device_usm at hres
      rw [hqa] at hres
      simp only at hres
      unfold is_device_usm_pointer at hres
      simp only [decide_eq_false_iff_not] at hres
      rw [hqa]
      simp [hres]
  refine ⟨?_, ?_, ?_⟩
  · intro hqa hres
    unfold is_device_usm at hres
    rw [hqa] at hres
    simp only at hres
    unfold is_device_usm_pointer at hres
    simp only [decide_eq_true_eq] at hres
    unfold to_device
    rw [if_neg hne, hqa]
    simp [hres]
  · intro ary_q hqa hneq
    unfold to_device
    rw [if_neg hne, hqa]
    simp [hneq]
  · intro hcase
    constructor
    · intro halloc
      refine ⟨{ data_ptr := rt.allocate (element_size T * ary.get_count) q
                  sycl.usm.alloc.device,
                data := ary.data, is_mutable := true, queue_ := some q },
        (sycl.malloc rt (element_size T * ary.get_count) q sycl.usm.alloc.device).2,
        ?_, rfl, rfl, rfl, rfl, ?_⟩
      · rw [hcopy hcase, copy_to_usm_ok T rt q ary _ hne halloc]
        rfl
      · unfold is_device_usm is_device_usm_pointer array.get_queue array.get_data
        simp only [decide_eq_true_eq]
        exact pointer_type_after_malloc rt q _ _ halloc
    · intro halloc
      rw [hcopy hcase, copy_to_usm_null T rt q ary _ hne halloc]
      rfl

/-- A device-USM array of the queue is returned as it is; a host array of two
`float` elements is copied into the block allocated at address 500; an array
of another queue fails the assertion. -/
theorem to_device_returns_resident_array_or_copy_witness :
    to_device data_type.float32 sample_runtime sample_queue sample_device_array
      = some (.ok ((sample_device_array, sycl.event.completed), sample_runtime)) ∧
    (∃ ary_device rt1,
      to_device data_type.float32 sample_runtime sample_queue sample_host_array
        = some (.ok ((ary_device,
            sycl.event.memcpy sample_queue ary_device.get_data 20 (4 * 2)), rt1)) ∧
      ary_device.get_data = 500 ∧
      ary_device.get_count = 2 ∧ ary_device.data = [1, 2] ∧
      ary_device.get_queue = some sample_queue ∧ is_device_usm rt1 ary_device = true) ∧
    to_device data_type.float32 sample_runtime sample_queue sample_other_queue_array = none :=
  ⟨(to_device_returns_resident_array_or_copy data_type.float32 sample_runtime sample_queue
      sample_device_array (by decide)).1 rfl rfl,
   ((to_device_returns_resident_array_or_copy data_type.float32 sample_runtime sample_queue
      sample_host_array (by decide)).2.2 (Or.inl rfl)).1 (by decide),
   (to_device_returns_resident_array_or_copy data_type.float32 sample_runtime sample_queue
      sample_other_queue_array (by decide)).2.1 sample_other_queue rfl (by decide)⟩

/-- An array that `to_host` does not return although its data is on the host:
the array at address 30 carries a queue and its data is host USM, as the data
of the arrays `to_host` itself returns is; it is copied into the block
allocated at address 500. -/
theorem to_host_copies_host_usm_array :
    sycl.get_pointer_type sample_host_usm_runtime sample_host_usm_array.get_data
      sample_queue.get_context = sycl.usm.alloc.host ∧
    is_device_usm sample_host_usm_runtime sample_host_usm_array = false ∧
    ∃ ary_host rt1,
      to_host data_type.float32 sample_host_usm_runtime sample_host_usm_array
        = some (.ok ((ary_host, sycl.event.memcpy sample_queue 500 30 (4 * 2)), rt1)) ∧
      ary_host.get_data = 500 ∧
      ary_host ≠ sample_host_usm_array :=
  ⟨rfl, rfl,
    { data_ptr := 500, data := [1, 2], is_mutable := true, queue_ := some sample_queue },
    (sycl.malloc sample_host_usm_runtime (4 * 2) sample_queue sycl.usm.alloc.host).2,
    rfl, rfl, by decide⟩

/-- C16 (amended): `to_host(ary)` returns `ary` itself with a
default-constructed event and allocates nothing when the array carries no
queue; every non-empty array that carries a queue, a device-USM array and
also a host-USM or shared-USM one, is copied into a newly allocated host-USM
array of the same element count and elements (or `host_bad_alloc` is thrown
when the allocator returns null).  A device-USM array is non-empty: a
zero-count buffer has a null data pointer, which is not device USM. -/
theorem to_host_returns_host_array_or_copy {V : Type} (T : data_type) (rt : sycl.runtime)
    (ary : array V)
    (hbuf : ary.get_count = 0 → ary.get_data = 0)
    (hnull : ∀ ctx, sycl.get_pointer_type rt 0 ctx ≠ sycl.usm.alloc.device) :
    (ary.get_queue = none →
      to_host T rt ary = some (.ok ((ary, sycl.event.completed), rt))) ∧
    (is_device_usm rt ary = true →
      ∃ q, ary.get_queue = some q ∧
        (rt.allocate (element_size T * ary.get_count) q sycl.usm.alloc.host ≠ 0 →
          ∃ ary_host rt1,
            to_host T rt ary
              = some (.ok ((ary_host,
                  sycl.event.memcpy q ary_host.get_data ary.get_data
                    (element_size T * ary.get_count)), rt1)) ∧
            ary_host.get_data
              = rt.allocate (element_size T * ary.get_count) q sycl.usm.alloc.host ∧
            ary_host.get_count = ary.get_count ∧ ary_host.data = ary.data ∧
            ary_host.get_queue = some q ∧
            sycl.get_pointer_type rt1 ary_host.get_data q.get_context
              = sycl.usm.alloc.host) ∧
        (rt.allocate (element_size T * ary.get_count) q sycl.usm.alloc.host = 0 →
          to_host T rt ary = some (.error .host_bad_alloc))) ∧
    (ary.get_count ≠ 0 → ∀ q, ary.get_queue = some q →
      (rt.allocate (element_size T * ary.get_count) q sycl.usm.alloc.host ≠ 0 →
        ∃ ary_host rt1,
          to_host T rt ary
            = some (.ok ((ary_host,
                sycl.event.memcpy q ary_host.get_data ary.get_data
                  (element_size T * ary.get_count)), rt1)) ∧
          ary_host.get_data
            = rt.allocate (element_size T * ary.get_count) q sycl.usm.alloc.host ∧
          ary_host.get_count = ary.get_count ∧ ary_host.data = ary.data ∧
          ary_host.get_queue = some q ∧
          sycl.get_pointer_type rt1 ary_host.get_data q.get_context
            = sycl.usm.alloc.host) ∧
      (rt.allocate (element_size T * ary.get_count) q sycl.usm.alloc.host = 0 →
        to_host T rt ary = some (.error .host_bad_alloc))) := by
  have hcopy : ary.get_count ≠ 0 → ∀ q, ary.get_queue = some q →
      to_host T rt ary = some (copy_to_usm T rt q ary sycl.usm.alloc.host) := by
    intro hne q hqa
    unfold to_host
    rw [if_neg hne, hqa]
    simp
  have hall : ary.get_count ≠ 0 → ∀ q, ary.get_queue = some q →
      (rt.allocate (element_size T * ary.get_count) q sycl.usm.alloc.host ≠ 0 →
        ∃ ary_host rt1,
          to_host T rt ary
            = some (.ok ((ary_host,
                sycl.event.memcpy q ary_host.get_data ary.get_data
                  (element_size T * ary.get_count)), rt1)) ∧
          ary_host.get_data
            = rt.allocate (element_size T * ary.get_count) q sycl.usm.alloc.host ∧
          ary_host.get_count = ary.get_count ∧ ary_host.data = ary.data ∧
          ary_host.get_queue = some q ∧
          sycl.get_pointer_type rt1 ary_host.get_data q.get_context
            = sycl.usm.alloc.host) ∧
      (rt.allocate (element_size T * ary.get_count) q sycl.usm.alloc.host = 0 →
        to_host T rt ary = some (.error .host_bad_alloc)) := by
    intro hne q hqa
    constructor
    · intro halloc
      refine ⟨{ data_ptr := rt.allocate (element_size T * ary.get_count) q
                  sycl.usm.alloc.host,
                data := ary.data, is_mutable := true, queue_ := some q },
        (sycl.malloc rt (element_size T * ary.get_count) q sycl.usm.alloc.host).2,
        ?_, rfl, rfl, rfl, rfl, ?_⟩
      · rw [hcopy hne q hqa, copy_to_usm_ok T rt q ary _ hne halloc]
        rfl
      · exact pointer_type_after_malloc rt q _ _ halloc
    · intro halloc
      rw [hcopy hne q hqa, copy_to_usm_null T rt q ary _ hne halloc]
      rfl
  refine ⟨?_, ?_, hall⟩
  · intro hnone
    unfold to_host
    by_cases h0 : ary.get_count = 0
    · rw [if_pos h0]
    · rw [if_neg h0, hnone]
      simp
  · intro hres
    unfold is_device_usm at hres
    cases hqa : ary.get_queue with
    | none => rw [hqa] at hres; cases hres
    | some q =>
      rw [hqa] at hres
      simp only at hres
      unfold is_device_usm_pointer at hres
      simp only [decide_eq_true_eq] at hres
      have hne : ary.get_count ≠ 0 := by
        intro h0
        rw [hbuf h0] at hres
        exact hnull _ hres
      exact ⟨q, rfl, hall hne q hqa⟩

/-- An array without a queue is returned as it is; the device-USM array at
address 8 is copied into the block allocated at address 500, and so is the
host-USM array at address 30, which carries a queue. -/
theorem to_host_returns_host_array_or_copy_witness :
    to_host data_type.float32 sample_runtime sample_host_array
      = some (.ok ((sample_host_array, sycl.event.completed), sample_runtime)) ∧
    (∃ q, sample_device_array.get_queue = some q ∧
      (sample_runtime.allocate (4 * 2) q sycl.usm.alloc.host ≠ 0 →
        ∃ ary_host rt1,
          to_host data_type.float32 sample_runtime sample_device_array
            = some (.ok ((ary_host,
                sycl.event.memcpy q ary_host.get_data 8 (4 * 2)), rt1)) ∧
          ary_host.get_data = 500 ∧
          ary_host.get_count = 2 ∧ ary_host.data = [1, 2] ∧
          ary_host.get_queue = some q ∧
          sycl.get_pointer_type rt1 ary_host.get_data q.get_context
            = sycl.usm.alloc.host) ∧
      (sample_runtime.allocate (4 * 2) q sycl.usm.alloc.host = 0 →
        to_host data_type.float32 sample_runtime sample_device_array
          = some (.error .host_bad_alloc))) ∧
    (∃ ary_host rt1,
      to_host data_type.float32 sample_host_usm_runtime sample_host_usm_array
        = some (.ok ((ary_host,
            sycl.event.memcpy sample_queue ary_host.get_data 30 (4 * 2)), rt1)) ∧
      ary_host.get_data = 500 ∧
      ary_host.get_count = 2 ∧ ary_host.data = [1, 2] ∧
      ary_host.get_queue = some sample_queue ∧
      sycl.get_pointer_type rt1 ary_host.get_data sample_queue.get_context
        = sycl.usm.alloc.host) :=
  ⟨(to_host_returns_host_array_or_copy data_type.float32 sample_runtime sample_host_array
      (by decide)
      (fun _ h => by simp [sycl.get_pointer_type, sample_runtime] at h)).1 rfl,
   (to_host_returns_host_array_or_copy data_type.float32 sample_runtime sample_device_array
      (by decide)
      (fun _ h => by simp [sycl.get_pointer_type, sample_runtime] at h)).2.1 rfl,
   ((to_host_returns_host_array_or_copy data_type.float32 sample_host_usm_runtime
      sample_host_usm_array (by decide)
      (fun _ h => by simp [sycl.get_pointer_type, sample_host_usm_runtime] at h)).2.2
      (by decide) sample_queue rfl).1 (by decide)⟩

/-- C17: for an empty array, whatever queue it carries and whatever the kind of
its storage, `to_device(q, ary)` and `to_host(ary)` both return the array itself
with a default-constructed event, and the runtime is left as it was. -/
theorem empty_array_is_returned_unchanged {V : Type} (T : data_type) (rt : sycl.runtime)
    (q : sycl.queue) (ary : array V) (h : ary.get_count = 0) :
    to_device T rt q ary = some (.ok ((ary, sycl.event.completed), rt)) ∧
    to_host T rt ary = some (.ok ((ary, sycl.event.completed), rt)) := by
  unfold to_device to_host
  rw [if_pos h, if_pos h]
  exact ⟨rfl, rfl⟩

/-- An empty array tagged with another queue than the one passed to
`to_device`. -/
theorem empty_array_is_returned_unchanged_witness :
    to_device data_type.float32 sample_runtime sample_queue
        ({ data_ptr := 0, data := [], is_mutable := true,
           queue_ := some { context := 2, device := 3 } } : array Int)
      = some (.ok ((({ data_ptr := 0, data := [], is_mutable := true,
                       queue_ := some { context := 2, device := 3 } } : array Int),
                    sycl.event.completed), sample_runtime)) ∧
    to_host data_type.float32 sample_runtime
        ({ data_ptr := 0, data := [], is_mutable := true,
           queue_ := some { context := 2, device := 3 } } : array Int)
      = some (.ok ((({ data_ptr := 0, data := [], is_mutable := true,
                       queue_ := some { context := 2, device := 3 } } : array Int),
                    sycl.event.completed), sample_runtime)) :=
  empty_array_is_returned_unchanged data_type.float32 sample_runtime sample_queue
    { data_ptr := 0, data := [], is_mutable := true,
      queue_ := some { context := 2, device := 3 } } rfl

/-- C18: `malloc(queue, size, alloc)` never returns null: when the allocator
returns null it throws `host_bad_alloc` for `host` and `shared`,
`device_bad_alloc` for `device` (also when a host allocation of that size would
succeed) and `invalid_argument` for any other kind; when the allocator returns
a non-null pointer that pointer is returned. -/
theorem malloc_never_returns_null (rt : sycl.runtime) (queue : sycl.queue) (size : Int)
    (alloc : sycl.usm.alloc) :
    (rt.allocate size queue alloc = 0 →
      ((alloc = sycl.usm.alloc.host ∨ alloc = sycl.usm.alloc.shared) →
        malloc rt queue size alloc = .error .host_bad_alloc) ∧
      (alloc = sycl.usm.alloc.device →
        malloc rt queue size alloc = .error .device_bad_alloc) ∧
      (alloc ≠ sycl.usm.alloc.host → alloc ≠ sycl.usm.alloc.shared →
        alloc ≠ sycl.usm.alloc.device →
        malloc rt queue size alloc
          = .error (.invalid_argument .unknown_usm_pointer_type))) ∧
    (rt.allocate size queue alloc ≠ 0 →
      ∃ rt1, malloc rt queue size alloc = .ok (rt.allocate size queue alloc, rt1)) ∧
    (∀ p rt1, malloc rt queue size alloc = .ok (p, rt1) → p ≠ 0) ∧
    (rt.allocate size queue sycl.usm.alloc.device = 0 →
      rt.allocate size queue sycl.usm.alloc.host ≠ 0 →
      malloc rt queue size sycl.usm.alloc.device = .error .device_bad_alloc) := by
  refine ⟨?_, ?_, ?_, ?_⟩
  · intro h
    rw [malloc_null rt queue size alloc h]
    unfold bad_alloc
    refine ⟨?_, ?_, ?_⟩
    · intro hk
      rw [if_pos (by tauto)]
    · intro hk
      rw [hk]; rfl
    · intro h1 h2 h3
      rw [if_neg (by tauto), if_neg h3]
  · intro h
    exact ⟨_, malloc_ok rt queue size alloc h⟩
  · intro p rt1 hp
    by_cases h : rt.allocate size queue alloc = 0
    · rw [malloc_null rt queue size alloc h] at hp
      cases hp
    · rw [malloc_ok rt queue size alloc h] at hp
      cases hp
      exact h
  · intro h _
    rw [malloc_null rt queue size sycl.usm.alloc.device h]
    rfl

/-- A null allocation of device memory is reported as `device_bad_alloc`, a
successful one returns the allocator's pointer. -/
theorem malloc_never_returns_null_witness :
    malloc { allocate := fun _ _ _ => 0, pointer_type := fun _ _ => sycl.usm.alloc.unknown }
        sample_queue 16 sycl.usm.alloc.device = .error .device_bad_alloc ∧
    ∃ rt1, malloc sample_runtime sample_queue 16 sycl.usm.alloc.device = .ok (500, rt1) :=
  ⟨((malloc_never_returns_null
      { allocate := fun _ _ _ => 0, pointer_type := fun _ _ => sycl.usm.alloc.unknown }
      sample_queue 16 sycl.usm.alloc.device).1 rfl).2.1 rfl,
   (malloc_never_returns_null sample_runtime sample_queue 16 sycl.usm.alloc.device).2.1
      (by decide)⟩

/-! ## Integer helpers -/

/-- Every integer lies below some power of two. -/
theorem exists_two_pow_ge (x : Int) : ∃ k : Nat, x ≤ 2 ^ k := by
  refine ⟨x.toNat, ?_⟩
  have h1 : x ≤ (x.toNat : Int) := Int.self_le_toNat x
  have h2 : ((x.toNat : Nat) : Int) < 2 ^ x.toNat := by
    exact_mod_cast Nat.lt_two_pow x.toNat
  omega

/-- The doubling loop of `up_pow2`, started at `2 ^ i` below the first power of
two `2 ^ k` that reaches `x`, stops at `2 ^ k` after `k - i` doublings, provided
the powers of two below `2 * x` are representable. -/
theorem up_pow2_loop_reaches (wrap : Int → Int) (x : Int) (k : Nat)
    (hk : x ≤ 2 ^ k) (hmin : ∀ j : Nat, j < k → (2 : Int) ^ j < x)
    (hw : ∀ j : Nat, (2 : Int) ^ j < 2 * x → wrap (2 ^ j) = 2 ^ j) :
    ∀ d i : Nat, i + d = k → ∀ fuel, d < fuel →
      up_pow2_loop wrap fuel x (2 ^ i) = some (2 ^ k) := by
  intro d
  induction d with
  | zero =>
    intro i hi fuel hfuel
    obtain ⟨f, rfl⟩ : ∃ f, fuel = f + 1 := ⟨fuel - 1, by omega⟩
    have hik : i = k := by omega
    subst hik
    unfold up_pow2_loop
    rw [if_neg (by omega)]
  | succ d ih =>
    intro i hi fuel hfuel
    obtain ⟨f, rfl⟩ : ∃ f, fuel = f + 1 := ⟨fuel - 1, by omega⟩
    have hlt : (2 : Int) ^ i < x := hmin i (by omega)
    unfold up_pow2_loop
    rw [if_pos hlt]
    have hstep : (2 : Int) ^ i * 2 = 2 ^ (i + 1) := by rw [pow_succ]
    rw [hstep, hw (i + 1) (by rw [← hstep]; omega)]
    exact ih (i + 1) (by omega) f (by omega)

/-- C19 (the code at the failing inputs): `down_pow2(16)` is `8`, not `16`, and
`down_pow2(3)` is `1`, not `2`, for `std::int64_t` and for ideal integers
alike; `down_pow2(10)` is `8` as documented. -/
theorem down_pow2_of_16_is_8 :
    down_pow2 wrap_int64 64 16 = some 8 ∧ down_pow2 (fun v => v) 64 16 = some 8 ∧
    down_pow2 wrap_int64 64 3 = some 1 ∧ down_pow2 (fun v => v) 64 3 = some 1 ∧
    down_pow2 wrap_int64 64 10 = some 8 := by
  decide

/-- C20: for `x > 0` such that the powers of two below `2 * x` (the result
among them) are representable in `Integer`, `up_pow2(x)` returns, after `k`
doublings, the power of two `p = 2 ^ k` with `p / 2 < x <= p`; it is the
smallest power of two not smaller than `x`, and it is `x` itself when `x` is a
power of two. -/
theorem up_pow2_is_smallest_power_not_smaller (wrap : Int → Int) (x : Int) (hx : 0 < x)
    (hw : ∀ j : Nat, (2 : Int) ^ j < 2 * x → wrap (2 ^ j) = 2 ^ j) :
    ∃ k : Nat, (∀ fuel, k < fuel → up_pow2 wrap fuel x = some (2 ^ k)) ∧
      (2 : Int) ^ k / 2 < x ∧ x ≤ 2 ^ k ∧
      (∀ j : Nat, x ≤ 2 ^ j → (2 : Int) ^ k ≤ 2 ^ j) ∧
      ((∃ j : Nat, x = 2 ^ j) → (2 : Int) ^ k = x) := by
  obtain ⟨k, hk, hmin⟩ : ∃ k : Nat, x ≤ 2 ^ k ∧ ∀ j : Nat, j < k → (2 : Int) ^ j < x :=
    ⟨Nat.find (exists_two_pow_ge x), Nat.find_spec (exists_two_pow_ge x),
      fun j hj => not_le.mp (Nat.find_min (exists_two_pow_ge x) hj)⟩
  have hleast : ∀ j : Nat, x ≤ 2 ^ j → k ≤ j := by
    intro j hj
    by_contra hlt
    exact absurd hj (not_le.mpr (hmin j (by omega)))
  refine ⟨k, ?_, ?_, hk, ?_, ?_⟩
  · intro fuel hfuel
    unfold up_pow2
    rw [if_neg (not_not.mpr hx)]
    have h := up_pow2_loop_reaches wrap x k hk hmin hw k 0 (by omega) fuel hfuel
    simpa using h
  · by_cases h0 : k = 0
    · rw [h0]; simpa using hx
    · obtain ⟨j, hj⟩ : ∃ j, k = j + 1 := ⟨k - 1, by omega⟩
      have hlt := hmin j (by omega)
      rw [hj, pow_succ]
      simpa using hlt
  · intro j hj
    exact pow_le_pow_right₀ (by norm_num) (hleast j hj)
  · rintro ⟨j, hj⟩
    have h1 : k ≤ j := hleast j (by rw [hj])
    have h2 : j ≤ k := by
      rw [hj] at hk
      exact (pow_le_pow_iff_right₀ (by norm_num)).mp hk
    rw [hj, Nat.le_antisymm h1 h2]

/-- The documented examples `up_pow2(10) == 16` and `up_pow2(16) == 16`, for
ideal integers and for `std::int64_t`. -/
theorem up_pow2_is_smallest_power_not_smaller_witness :
    (∃ k : Nat, (∀ fuel, k < fuel → up_pow2 (fun v => v) fuel 10 = some (2 ^ k)) ∧
      (2 : Int) ^ k / 2 < 10 ∧ (10 : Int) ≤ 2 ^ k ∧
      (∀ j : Nat, (10 : Int) ≤ 2 ^ j → (2 : Int) ^ k ≤ 2 ^ j) ∧
      ((∃ j : Nat, (10 : Int) = 2 ^ j) → (2 : Int) ^ k = 10)) ∧
    up_pow2 wrap_int64 64 10 = some 16 ∧ up_pow2 wrap_int64 64 16 = some 16 ∧
    up_pow2 (fun v => v) 64 10 = some 16 ∧ up_pow2 (fun v => v) 64 16 = some 16 :=
  ⟨up_pow2_is_smallest_power_not_smaller (fun v => v) 10 (by decide) (fun _ _ => rfl),
    by decide, by decide, by decide, by decide⟩

/-- The reduction to `std::int64_t` leaves every representable value as it
is. -/
theorem wrap_int64_of_fits (v : Int) (h0 : -(2 ^ 63) ≤ v) (h1 : v < 2 ^ 63) :
    wrap_int64 v = v := by
  unfold wrap_int64
  rw [Int.emod_eq_of_lt (by omega) (by omega)]
  omega

/-- What `down_multiple` returns when the values between `0` and `x` are
representable. -/
theorem down_multiple_eq (wrap : Int → Int) (x multiple : Int)
    (hx : 0 < x) (hm : 0 < multiple)
    (hw : ∀ v, 0 ≤ v → v ≤ x → wrap v = v) :
    down_multiple wrap x multiple = some (x / multiple * multiple) := by
  have hq0 : 0 ≤ x / multiple := Int.ediv_nonneg hx.le hm.le
  have hqx : x / multiple * multiple ≤ x := Int.ediv_mul_le x (ne_of_gt hm)
  have hq1 : x / multiple ≤ x := by
    have h1 : x / multiple * 1 ≤ x / multiple * multiple :=
      Int.mul_le_mul_of_nonneg_left (by omega) hq0
    omega
  unfold down_multiple
  rw [if_neg (not_not.mpr hx), if_neg (not_not.mpr hm), hw _ hq0 hq1,
    hw _ (Int.mul_nonneg hq0 hm.le) hqx]

/-- C21: for `x > 0` and `multiple > 0` (the values up to `x` being
representable), `down_multiple(x, multiple)` is a multiple of `multiple`, is
`<= x`, leaves `x` minus it `< multiple`, equals `x` exactly when `x` is a
multiple, and no multiple of `multiple` that is `<= x` is larger. -/
theorem down_multiple_is_largest_multiple_not_larger (wrap : Int → Int) (x multiple : Int)
    (hx : 0 < x) (hm : 0 < multiple)
    (hw : ∀ v, 0 ≤ v → v ≤ x → wrap v = v) :
    ∃ r, down_multiple wrap x multiple = some r ∧
      multiple ∣ r ∧ r ≤ x ∧ x - r < multiple ∧ (r = x ↔ multiple ∣ x) ∧
      ∀ c, multiple ∣ c → c ≤ x → c ≤ r := by
  refine ⟨x / multiple * multiple, down_multiple_eq wrap x multiple hx hm hw,
    Dvd.intro_left _ rfl, Int.ediv_mul_le x (ne_of_gt hm), ?_, ?_, ?_⟩
  · have h1 := Int.emod_add_ediv x multiple
    have h2 := Int.emod_lt_of_pos x hm
    have h3 : multiple * (x / multiple) = x / multiple * multiple := Int.mul_comm _ _
    omega
  · constructor
    · intro h
      exact Dvd.intro_left (x / multiple) h
    · intro h
      exact Int.ediv_mul_cancel h
  · rintro c ⟨d, rfl⟩ hc
    have hd : d ≤ x / multiple := by
      rw [Int.le_ediv_iff_mul_le hm, Int.mul_comm]
      exact hc
    rw [Int.mul_comm multiple d]
    exact Int.mul_le_mul_of_nonneg_right hd hm.le

/-- The documented examples `down_multiple(10, 4) == 8` and
`down_multiple(10, 5) == 10`. -/
theorem down_multiple_is_largest_multiple_not_larger_witness :
    (∃ r, down_multiple (fun v => v) 10 4 = some r ∧
      (4 : Int) ∣ r ∧ r ≤ 10 ∧ 10 - r < 4 ∧ (r = 10 ↔ (4 : Int) ∣ 10) ∧
      ∀ c, (4 : Int) ∣ c → c ≤ 10 → c ≤ r) ∧
    down_multiple wrap_int64 10 4 = some 8 ∧ down_multiple wrap_int64 10 5 = some 10 ∧
    down_multiple (fun v => v) 10 4 = some 8 ∧ down_multiple (fun v => v) 10 5 = some 10 :=
  ⟨down_multiple_is_largest_multiple_not_larger (fun v => v) 10 4 (by decide) (by decide)
      (fun _ _ _ => rfl),
    by decide, by decide, by decide, by decide⟩

/-- What `up_multiple` returns when `x`, `multiple` and the sum are
representable: the smallest multiple of `multiple` not smaller than `x`. -/
theorem up_multiple_spec (wrap : Int → Int) (x multiple : Int)
    (hx : 0 < x) (hm : 0 < multiple)
    (hw : ∀ v, 0 ≤ v → (v ≤ x ∨ v ≤ multiple) → wrap v = v)
    (hsum : wrap (x / multiple * multiple + (if x % multiple ≠ 0 then multiple else 0))
      = x / multiple * multiple + (if x % multiple ≠ 0 then multiple else 0)) :
    ∃ r, up_multiple wrap x multiple = some r ∧
      r = x / multiple * multiple + (if x % multiple ≠ 0 then multiple else 0) ∧
      multiple ∣ r ∧ x ≤ r ∧ r - x < multiple ∧ (r = x ↔ multiple ∣ x) ∧
      ∀ c, multiple ∣ c → x ≤ c → r ≤ c := by
  have hdown := down_multiple_eq wrap x multiple hx hm (fun v h0 h1 => hw v h0 (Or.inl h1))
  have hmod0 : 0 ≤ x % multiple := Int.emod_nonneg x (ne_of_gt hm)
  have hmodlt : x % multiple < multiple := Int.emod_lt_of_pos x hm
  have hdecomp := Int.emod_add_ediv x multiple
  have hcomm : multiple * (x / multiple) = x / multiple * multiple := Int.mul_comm _ _
  have hz : wrap (multiple * (if wrap (x % multiple) ≠ 0 then 1 else 0))
      = if x % multiple ≠ 0 then multiple else 0 := by
    rw [hw _ hmod0 (Or.inr hmodlt.le)]
    by_cases h : x % multiple ≠ 0
    · rw [if_pos h, if_pos h, Int.mul_one, hw _ hm.le (Or.inr (le_refl _))]
    · rw [if_neg h, if_neg h, Int.mul_zero, hw _ (le_refl _) (Or.inl hx.le)]
  refine ⟨x / multiple * multiple + (if x % multiple ≠ 0 then multiple else 0), ?_, rfl,
    ?_, ?_, ?_, ?_, ?_⟩
  · unfold up_multiple
    rw [if_neg (not_not.mpr hx), if_neg (not_not.mpr hm), hdown]
    simp only
    rw [hz, if_neg (not_not.mpr hsum), hsum]
  · by_cases h : x % multiple ≠ 0
    · rw [if_pos h]
      exact Dvd.intro_left (x / multiple + 1) (by ring)
    · rw [if_neg h, Int.add_zero]
      exact Dvd.intro_left _ rfl
  · by_cases h : x % multiple ≠ 0
    · rw [if_pos h]; omega
    · rw [if_neg h]; omega
  · by_cases h : x % multiple ≠ 0
    · rw [if_pos h]; omega
    · rw [if_neg h]; omega
  · by_cases h : x % multiple ≠ 0
    · rw [if_pos h]
      constructor
      · intro h1; omega
      · intro h1; exact absurd (Int.emod_eq_zero_of_dvd h1) h
    · rw [if_neg h]
      constructor
      · intro _; exact Int.dvd_of_emod_eq_zero (not_not.mp h)
      · intro _; omega
  · rintro c ⟨d, rfl⟩ hc
    by_cases h : x % multiple ≠ 0
    · rw [if_pos h]
      have hd : x / multiple + 1 ≤ d := by
        by_contra hlt
        have hd1 : d ≤ x / multiple := by omega
        have h2 : multiple * d ≤ multiple * (x / multiple) :=
          Int.mul_le_mul_of_nonneg_left hd1 hm.le
        omega
      have h3 : multiple * (x / multiple + 1) ≤ multiple * d :=
        Int.mul_le_mul_of_nonneg_left hd hm.le
      have h4 : multiple * (x / multiple + 1) = x / multiple * multiple + multiple := by ring
      omega
    · rw [if_neg h]; omega

/-- C22: for `x > 0` and `multiple > 0` with `x`, `multiple` and the sum
representable, `up_multiple(x, multiple)` is a multiple of `multiple`, is
`>= x`, exceeds `x` by less than `multiple`, equals `x` exactly when `x` is a
multiple, and no multiple of `multiple` that is `>= x` is smaller; so for
positive sizes that pass `integral_cast` and whose rounded sum fits
`std::int64_t`, `make_multiple_nd_range_1d` returns the local size and a global
size that is a multiple of it and at least the requested one. -/
theorem up_multiple_is_smallest_multiple_not_smaller (wrap : Int → Int) (x multiple : Int)
    (integral_cast : Int → Except error Int) (global_size local_size : Int)
    (hx : 0 < x) (hm : 0 < multiple)
    (hw : ∀ v, 0 ≤ v → (v ≤ x ∨ v ≤ multiple) → wrap v = v)
    (hsum : wrap (x / multiple * multiple + (if x % multiple ≠ 0 then multiple else 0))
      = x / multiple * multiple + (if x % multiple ≠ 0 then multiple else 0))
    (hg : 0 < global_size) (hl : 0 < local_size)
    (hcg : integral_cast global_size = .ok global_size)
    (hcl : integral_cast local_size = .ok local_size)
    (hgmax : global_size ≤ int64_max) (hlmax : local_size ≤ int64_max)
    (hfit : global_size / local_size * local_size
      + (if global_size % local_size ≠ 0 then local_size else 0) ≤ int64_max) :
    (∃ r, up_multiple wrap x multiple = some r ∧
      multiple ∣ r ∧ x ≤ r ∧ r - x < multiple ∧ (r = x ↔ multiple ∣ x) ∧
      ∀ c, multiple ∣ c → x ≤ c → r ≤ c) ∧
    ∃ global, make_multiple_nd_range_1d integral_cast global_size local_size
        = some (.ok (global, local_size)) ∧
      local_size ∣ global ∧ global_size ≤ global ∧ global - global_size < local_size := by
  constructor
  · obtain ⟨r, hr, -, h1, h2, h3, h4, h5⟩ := up_multiple_spec wrap x multiple hx hm hw hsum
    exact ⟨r, hr, h1, h2, h3, h4, h5⟩
  · have hmax : int64_max = 2 ^ 63 - 1 := rfl
    have hq0 : 0 ≤ global_size / local_size * local_size :=
      Int.mul_nonneg (Int.ediv_nonneg hg.le hl.le) hl.le
    have hsum0 : 0 ≤ global_size / local_size * local_size
        + (if global_size % local_size ≠ 0 then local_size else 0) := by
      by_cases h : global_size % local_size ≠ 0
      · rw [if_pos h]; omega
      · rw [if_neg h]; omega
    obtain ⟨r, hr, -, h1, h2, h3, -, -⟩ := up_multiple_spec wrap_int64 global_size local_size
      hg hl
      (fun v h0 h1 => wrap_int64_of_fits v (by omega) (by rcases h1 with h1 | h1 <;> omega))
      (wrap_int64_of_fits _ (by omega) (by omega))
    refine ⟨r, ?_, h1, h2, h3⟩
    unfold make_multiple_nd_range_1d
    rw [hcg, hcl]
    simp only
    rw [hr]

/-- The documented examples `up_multiple(10, 4) == 12` and
`up_multiple(10, 5) == 10`, and the range `{ 12, 4 }` made for a global size of
10 and a local size of 4. -/
theorem up_multiple_is_smallest_multiple_not_smaller_witness :
    ((∃ r, up_multiple (fun v => v) 10 4 = some r ∧
      (4 : Int) ∣ r ∧ 10 ≤ r ∧ r - 10 < 4 ∧ (r = 10 ↔ (4 : Int) ∣ 10) ∧
      ∀ c, (4 : Int) ∣ c → 10 ≤ c → r ≤ c) ∧
    ∃ global, make_multiple_nd_range_1d (fun v => .ok v) 10 4 = some (.ok (global, 4)) ∧
      (4 : Int) ∣ global ∧ 10 ≤ global ∧ global - 10 < 4) ∧
    up_multiple wrap_int64 10 4 = some 12 ∧ up_multiple wrap_int64 10 5 = some 10 ∧
    up_multiple (fun v => v) 10 4 = some 12 ∧ up_multiple (fun v => v) 10 5 = some 10 ∧
    make_multiple_nd_range_1d (fun v => .ok v) 10 4 = some (.ok (12, 4)) :=
  ⟨up_multiple_is_smallest_multiple_not_smaller (fun v => v) 10 4 (fun v => .ok v) 10 4
      (by decide) (by decide) (fun _ _ _ => rfl) rfl (by decide) (by decide) rfl rfl
      (by decide) (by decide) (by decide),
    by decide, by decide, by decide, by decide, rfl⟩

/-- The loop of `down_pow2` on `x` is the loop of `up_pow2` on `x / 2`. -/
theorem down_pow2_loop_eq_up_pow2_loop (wrap : Int → Int) (x : Int) :
    ∀ (fuel : Nat) (power : Int),
      down_pow2_loop wrap fuel x power = up_pow2_loop wrap fuel (x / 2) power := by
  intro fuel
  induction fuel with
  | zero => intro power; rfl
  | succ f ih =>
    intro power
    unfold down_pow2_loop up_pow2_loop
    by_cases h : power < x / 2
    · rw [if_pos h, if_pos h]; exact ih _
    · rw [if_neg h, if_neg h]

/-- The first power of two that reaches a bound. -/
theorem exists_least_two_pow_ge (x : Int) :
    ∃ k : Nat, x ≤ 2 ^ k ∧ (∀ j : Nat, j < k → (2 : Int) ^ j < x) ∧
      ∀ j : Nat, x ≤ 2 ^ j → k ≤ j := by
  refine ⟨Nat.find (exists_two_pow_ge x), Nat.find_spec (exists_two_pow_ge x),
    fun j hj => not_le.mp (Nat.find_min (exists_two_pow_ge x) hj),
    fun j hj => Nat.find_min' (exists_two_pow_ge x) hj⟩

/-- C28: for `x > 0` (the powers of two up to `x` being representable) the loop
of `down_pow2` returns the power of two `p = 2 ^ k` that is the smallest one
not smaller than `x / 2`; it satisfies `p <= x <= 2 * p + 1`;
`down_pow2(1) = 1`, and for `x >= 2` `down_pow2(x)` is `up_pow2(x / 2)`. -/
theorem down_pow2_is_up_pow2_of_half (wrap : Int → Int) (x : Int) (hx : 0 < x)
    (hw : ∀ j : Nat, (2 : Int) ^ j ≤ x → wrap (2 ^ j) = 2 ^ j) :
    ∃ k : Nat, (∀ fuel, k < fuel → down_pow2 wrap fuel x = some (2 ^ k)) ∧
      (2 : Int) ^ k ≤ x ∧ x ≤ 2 * 2 ^ k + 1 ∧
      x / 2 ≤ 2 ^ k ∧ (∀ j : Nat, x / 2 ≤ 2 ^ j → (2 : Int) ^ k ≤ 2 ^ j) ∧
      (x = 1 → ∀ fuel, 0 < fuel → down_pow2 wrap fuel x = some 1) ∧
      (2 ≤ x → ∀ fuel, down_pow2 wrap fuel x = up_pow2 wrap fuel (x / 2)) := by
  obtain ⟨k, hk, hmin, hleast⟩ := exists_least_two_pow_ge (x / 2)
  have hrun : ∀ fuel, k < fuel → down_pow2 wrap fuel x = some (2 ^ k) := by
    intro fuel hfuel
    unfold down_pow2
    rw [if_neg (not_not.mpr hx), down_pow2_loop_eq_up_pow2_loop]
    have h := up_pow2_loop_reaches wrap (x / 2) k hk hmin
      (fun j hj => hw j (by omega)) k 0 (by omega) fuel hfuel
    simpa using h
  refine ⟨k, hrun, ?_, by omega, hk, ?_, ?_, ?_⟩
  · by_cases h0 : k = 0
    · rw [h0]; simpa using hx
    · obtain ⟨j, hj⟩ : ∃ j, k = j + 1 := ⟨k - 1, by omega⟩
      have hlt := hmin j (by omega)
      rw [hj, pow_succ]
      omega
  · intro j hj
    exact pow_le_pow_right₀ (by norm_num) (hleast j hj)
  · intro h1 fuel hfuel
    have hk0 : k = 0 := by
      have := hleast 0 (by rw [h1]; decide)
      omega
    have h := hrun fuel (by omega)
    rw [hk0] at h
    simpa using h
  · intro h2 fuel
    unfold down_pow2 up_pow2
    rw [if_neg (not_not.mpr hx), if_neg (not_not.mpr (by omega : x / 2 > 0))]
    exact down_pow2_loop_eq_up_pow2_loop wrap x fuel 1

/-- The values `down_pow2(1) = 1`, `down_pow2(6) = up_pow2(3) = 4` and
`down_pow2(16) = up_pow2(8) = 8`. -/
theorem down_pow2_is_up_pow2_of_half_witness :
    (∃ k : Nat, (∀ fuel, k < fuel → down_pow2 (fun v => v) fuel 6 = some (2 ^ k)) ∧
      (2 : Int) ^ k ≤ 6 ∧ (6 : Int) ≤ 2 * 2 ^ k + 1 ∧
      (6 : Int) / 2 ≤ 2 ^ k ∧ (∀ j : Nat, (6 : Int) / 2 ≤ 2 ^ j → (2 : Int) ^ k ≤ 2 ^ j) ∧
      ((6 : Int) = 1 → ∀ fuel, 0 < fuel → down_pow2 (fun v => v) fuel 6 = some 1) ∧
      ((2 : Int) ≤ 6 → ∀ fuel,
        down_pow2 (fun v => v) fuel 6 = up_pow2 (fun v => v) fuel ((6 : Int) / 2))) ∧
    down_pow2 wrap_int64 64 1 = some 1 ∧
    down_pow2 wrap_int64 64 6 = some 4 ∧ up_pow2 wrap_int64 64 3 = some 4 ∧
    down_pow2 wrap_int64 64 16 = some 8 ∧ up_pow2 wrap_int64 64 8 = some 8 :=
  ⟨down_pow2_is_up_pow2_of_half (fun v => v) 6 (by decide) (fun _ _ => rfl),
    by decide, by decide, by decide, by decide, by decide⟩

/-- While the powers of two below `2 * x` are representable, the loop of
`up_pow2` runs as it does on ideal integers, whatever the fuel. -/
theorem up_pow2_loop_wrap_irrelevant (wrap : Int → Int) (x : Int)
    (hw : ∀ j : Nat, (2 : Int) ^ j < 2 * x → wrap (2 ^ j) = 2 ^ j) :
    ∀ (fuel i : Nat),
      up_pow2_loop wrap fuel x (2 ^ i) = up_pow2_loop (fun v => v) fuel x (2 ^ i) := by
  intro fuel
  induction fuel with
  | zero => intro i; rfl
  | succ f ih =>
    intro i
    unfold up_pow2_loop
    by_cases h : (2 : Int) ^ i < x
    · have hstep : (2 : Int) ^ i * 2 = 2 ^ (i + 1) := by rw [pow_succ]
      rw [if_pos h, if_pos h, hstep, hw (i + 1) (by rw [← hstep]; omega)]
      exact ih (i + 1)
    · rw [if_neg h, if_neg h]

/-- Once `power` is `0` the loop of `up_pow2` on a positive `x` never stops. -/
theorem up_pow2_loop_zero (x : Int) (hx : 0 < x) :
    ∀ fuel : Nat, up_pow2_loop wrap_int64 fuel x 0 = none := by
  intro fuel
  induction fuel with
  | zero => rfl
  | succ f ih =>
    unfold up_pow2_loop
    rw [if_pos hx]
    have h0 : wrap_int64 (0 * 2) = 0 := by decide
    rw [h0]
    exact ih

/-- For `x > 2 ^ 62` the loop of `up_pow2` over `std::int64_t`, started at
`2 ^ i` with `i <= 62`, is running with `power = 0` after `64 - i` doublings. -/
theorem up_pow2_loop_overflow (x : Int) (hx : (2 : Int) ^ 62 < x) :
    ∀ d i : Nat, i + d = 62 → ∀ fuel : Nat,
      up_pow2_loop wrap_int64 (fuel + (d + 2)) x (2 ^ i) = up_pow2_loop wrap_int64 fuel x 0 := by
  intro d
  induction d with
  | zero =>
    intro i hi fuel
    have hi62 : i = 62 := by omega
    subst hi62
    have h1 : wrap_int64 ((2 : Int) ^ 62 * 2) = -(2 ^ 63) := by decide
    have h2 : wrap_int64 (-(2 ^ 63) * 2) = 0 := by decide
    have hneg : -(2 ^ 63 : Int) < x := by omega
    show up_pow2_loop wrap_int64 (fuel + 1 + 1) x (2 ^ 62) = _
    rw [up_pow2_loop, if_pos hx, h1, up_pow2_loop, if_pos hneg, h2]
  | succ d ih =>
    intro i hi fuel
    have hlt : (2 : Int) ^ i < x := by
      have h1 : (2 : Int) ^ i ≤ 2 ^ 62 := pow_le_pow_right₀ (by norm_num) (by omega)
      omega
    have hstep : (2 : Int) ^ i * 2 = 2 ^ (i + 1) := by rw [pow_succ]
    have hfit : wrap_int64 ((2 : Int) ^ (i + 1)) = 2 ^ (i + 1) := by
      have h1 : (2 : Int) ^ (i + 1) ≤ 2 ^ 62 := pow_le_pow_right₀ (by norm_num) (by omega)
      have h2 : (0 : Int) < 2 ^ (i + 1) := pow_pos (by norm_num) _
      exact wrap_int64_of_fits _ (by omega) (by omega)
    show up_pow2_loop wrap_int64 (fuel + (d + 2) + 1) x (2 ^ i) = _
    rw [up_pow2_loop, if_pos hlt, hstep, hfit]
    exact ih (i + 1) (by omega) fuel

/-- C30: over `std::int64_t`, for `0 < x <= 2^62` the loop of `up_pow2` stops
after `k <= 62` doublings at `2 ^ k <= 2 ^ 62`, no product `power * 2`
exceeds the largest `std::int64_t`, and the run is the one on ideal integers;
for `2^62 < x <= 2^63 - 1` the doubling of `2 ^ 62` overflows, under
wrap-around `power` is `0` after 64 doublings, and the loop never stops. -/
theorem up_pow2_int64_terminates_or_overflows (x : Int) :
    (0 < x → x ≤ 2 ^ 62 →
      ∃ k : Nat, k ≤ 62 ∧
        (∀ fuel, k < fuel → up_pow2 wrap_int64 fuel x = some (2 ^ k)) ∧
        (2 : Int) ^ k ≤ 2 ^ 62 ∧
        (∀ j : Nat, j < k → (2 : Int) ^ j < x ∧ (2 : Int) ^ j * 2 ≤ int64_max ∧
          wrap_int64 (2 ^ j * 2) = 2 ^ j * 2) ∧
        ∀ fuel, up_pow2 wrap_int64 fuel x = up_pow2 (fun v => v) fuel x) ∧
    ((2 : Int) ^ 62 < x → x ≤ 2 ^ 63 - 1 →
      (∀ fuel, up_pow2 wrap_int64 fuel x = none) ∧
      int64_max < (2 : Int) ^ 62 * 2 ∧
      wrap_int64 ((2 : Int) ^ 62 * 2) = -(2 ^ 63) ∧ wrap_int64 (-(2 ^ 63) * 2) = 0 ∧
      wrap_int64 (0 * 2) = 0 ∧
      ∀ fuel, up_pow2_loop wrap_int64 (fuel + 64) x 1 = up_pow2_loop wrap_int64 fuel x 0) := by
  constructor
  · intro hx hmax
    obtain ⟨k, hk, hmin, hleast⟩ := exists_least_two_pow_ge x
    have hk62 : k ≤ 62 := hleast 62 hmax
    have hpow : (2 : Int) ^ k ≤ 2 ^ 62 := pow_le_pow_right₀ (by norm_num) hk62
    have hw : ∀ j : Nat, (2 : Int) ^ j < 2 * x → wrap_int64 (2 ^ j) = 2 ^ j := by
      intro j hj
      have h2 : (0 : Int) < 2 ^ j := pow_pos (by norm_num) _
      exact wrap_int64_of_fits _ (by omega) (by omega)
    refine ⟨k, hk62, ?_, hpow, ?_, ?_⟩
    · intro fuel hfuel
      unfold up_pow2
      rw [if_neg (not_not.mpr hx)]
      have h := up_pow2_loop_reaches wrap_int64 x k hk hmin hw k 0 (by omega) fuel hfuel
      simpa using h
    · intro j hj
      have hlt := hmin j hj
      have hstep : (2 : Int) ^ j * 2 = 2 ^ (j + 1) := by rw [pow_succ]
      have hle : (2 : Int) ^ (j + 1) ≤ 2 ^ 62 := pow_le_pow_right₀ (by norm_num) (by omega)
      have hmax64 : int64_max = 2 ^ 63 - 1 := rfl
      refine ⟨hlt, by omega, ?_⟩
      rw [hstep]
      exact hw (j + 1) (by rw [← hstep]; omega)
    · intro fuel
      unfold up_pow2
      rw [if_neg (not_not.mpr hx), if_neg (not_not.mpr hx)]
      have h := up_pow2_loop_wrap_irrelevant wrap_int64 x hw fuel 0
      simpa using h
  · intro hx hmax
    have hpos : 0 < x := by
      have h2 : (0 : Int) < 2 ^ 62 := by norm_num
      omega
    have hrun : ∀ fuel, up_pow2_loop wrap_int64 (fuel + 64) x 1
        = up_pow2_loop wrap_int64 fuel x 0 := by
      intro fuel
      have h := up_pow2_loop_overflow x hx 62 0 (by omega) fuel
      simpa using h
    have hmono : ∀ (fuel : Nat) (p : Int), up_pow2_loop wrap_int64 (fuel + 1) x p = none →
        up_pow2_loop wrap_int64 fuel x p = none := by
      intro fuel
      induction fuel with
      | zero => intro p _; rfl
      | succ f ih =>
        intro p h
        rw [up_pow2_loop] at h ⊢
        by_cases hp : p < x
        · rw [if_pos hp] at h ⊢; exact ih _ h
        · rw [if_neg hp] at h; cases h
    have hdown : ∀ (n fuel : Nat) (p : Int), up_pow2_loop wrap_int64 (fuel + n) x p = none →
        up_pow2_loop wrap_int64 fuel x p = none := by
      intro n
      induction n with
      | zero => intro fuel p h; exact h
      | succ n ih => intro fuel p h; exact ih fuel p (hmono _ p h)
    refine ⟨?_, by decide, by decide, by decide, by decide, hrun⟩
    intro fuel
    unfold up_pow2
    rw [if_neg (not_not.mpr hpos)]
    apply hdown 64
    rw [hrun fuel]
    exact up_pow2_loop_zero x hpos fuel

/-- The bounds of the two ranges: `x = 2^62` stops at `2^62` after 62
doublings, `x = 2^62 + 1` never stops. -/
theorem up_pow2_int64_terminates_or_overflows_witness :
    (∃ k : Nat, k ≤ 62 ∧
      (∀ fuel, k < fuel → up_pow2 wrap_int64 fuel (2 ^ 62) = some (2 ^ k)) ∧
      (2 : Int) ^ k ≤ 2 ^ 62 ∧
      (∀ j : Nat, j < k → (2 : Int) ^ j < 2 ^ 62 ∧ (2 : Int) ^ j * 2 ≤ int64_max ∧
        wrap_int64 (2 ^ j * 2) = 2 ^ j * 2) ∧
      ∀ fuel, up_pow2 wrap_int64 fuel (2 ^ 62) = up_pow2 (fun v => v) fuel (2 ^ 62)) ∧
    ((∀ fuel, up_pow2 wrap_int64 fuel (2 ^ 62 + 1) = none) ∧
      int64_max < (2 : Int) ^ 62 * 2 ∧
      wrap_int64 ((2 : Int) ^ 62 * 2) = -(2 ^ 63) ∧ wrap_int64 (-(2 ^ 63) * 2) = 0 ∧
      wrap_int64 (0 * 2) = 0 ∧
      ∀ fuel, up_pow2_loop wrap_int64 (fuel + 64) (2 ^ 62 + 1) 1
        = up_pow2_loop wrap_int64 fuel (2 ^ 62 + 1) 0) ∧
    up_pow2 wrap_int64 64 (2 ^ 62) = some (2 ^ 62) ∧
    up_pow2 wrap_int64 200 (2 ^ 62 + 1) = none :=
  ⟨(up_pow2_int64_terminates_or_overflows (2 ^ 62)).1 (by decide) (by decide),
   (up_pow2_int64_terminates_or_overflows (2 ^ 62 + 1)).2 (by decide) (by decide),
   by decide, by decide⟩

end oneapi.dal.backend

/-! ## Default stride -/

namespace oneapi.dal.linalg

/-- Two pairs `(a, b)`, `(a1, b1)` with `0 <= b, b1 < c` and the same value
`a * c + b` are equal. -/
theorem mixed_radix_injective (c a b a1 b1 : Int) (hb0 : 0 ≤ b) (hb1 : b < c)
    (hc0 : 0 ≤ b1) (hc1 : b1 < c) (h : a * c + b = a1 * c + b1) : a = a1 ∧ b = b1 := by
  have hc : 0 ≤ c := by omega
  have ha : a = a1 := by
    by_contra hne
    rcases lt_or_gt_of_ne hne with hlt | hgt
    · have h1 := Int.mul_le_mul_of_nonneg_right (by omega : 1 ≤ a1 - a) hc
      have h2 : (a1 - a) * c = a1 * c - a * c := by ring
      omega
    · have h1 := Int.mul_le_mul_of_nonneg_right (by omega : 1 ≤ a - a1) hc
      have h2 : (a - a1) * c = a * c - a1 * c := by ring
      omega
  subst ha
  exact ⟨rfl, by omega⟩

/-- Every `k` with `0 <= k < r * c` is `a * c + b` for some `0 <= a < r` and
`0 <= b < c`. -/
theorem mixed_radix_surjective (r c k : Int) (hc : 0 ≤ c) (hk0 : 0 ≤ k)
    (hk1 : k < r * c) :
    ∃ a b, 0 ≤ a ∧ a < r ∧ 0 ≤ b ∧ b < c ∧ a * c + b = k := by
  have hcpos : 0 < c := by
    by_contra hn
    have h0 : c = 0 := by omega
    rw [h0, Int.mul_zero] at hk1
    omega
  refine ⟨k / c, k % c, Int.ediv_nonneg hk0 hc, Int.ediv_lt_of_lt_mul hcpos hk1,
    Int.emod_nonneg k (ne_of_gt hcpos), Int.emod_lt_of_pos k hcpos, ?_⟩
  have h := Int.ediv_add_emod k c
  have h2 : c * (k / c) = k / c * c := Int.mul_comm _ _
  omega

/-- An in-bounds cell of `a * c + b` form lies below `r * c`. -/
theorem mixed_radix_lt (r c a b : Int) (ha0 : 0 ≤ a) (ha1 : a < r) (hb0 : 0 ≤ b)
    (hb1 : b < c) : 0 ≤ a * c + b ∧ a * c + b < r * c := by
  have hc : 0 ≤ c := by omega
  have h1 := Int.mul_le_mul_of_nonneg_right (by omega : a + 1 ≤ r) hc
  have h2 : (a + 1) * c = a * c + c := by ring
  have h3 := Int.mul_nonneg ha0 hc
  omega

/-- The linear index of an in-bounds cell of a descriptor. -/
theorem get_linear_index_in_bounds (m : matrix_base) (i j : Int)
    (hi0 : 0 ≤ i) (hi1 : i < m.get_row_count) (hj0 : 0 ≤ j) (hj1 : j < m.get_column_count) :
    m.get_linear_index i j
      = some (if m.lyt = layout.row_major then i * m.get_stride + j
              else j * m.get_stride + i) := by
  unfold matrix_base.get_linear_index
  rw [if_neg (not_not.mpr ⟨hi0, hi1⟩), if_neg (not_not.mpr ⟨hj0, hj1⟩)]
  by_cases hl : m.lyt = layout.row_major
  · rw [if_pos hl, if_pos hl]
  · rw [if_neg hl, if_neg hl]

/-- C29: for a constructed matrix with the default stride, `get_linear_index`
maps the in-bounds pairs one-to-one onto `0 .. get_count() - 1`: every index
is non-negative and below `get_count()`, distinct pairs get distinct indices,
every such index is taken; hence `get(i, j)` reads inside the wrapped array and
`set(i, j)` never writes outside it (it writes cell `k` when the array is
writable). -/
theorem default_stride_linear_index_is_bijection {V : Type} (m : matrix V) (v : V)
    (hs : shape.create m.get_row_count m.get_column_count = some m.get_shape)
    (hm : matrix.create m.lyt m.x_ m.shape_ m.stride_ = some m)
    (hd : m.get_stride = matrix_base.get_default_stride m.lyt m.shape_) :
    (∀ i j : Int, 0 ≤ i → i < m.get_row_count → 0 ≤ j → j < m.get_column_count →
      ∃ k, m.get_linear_index i j = some k ∧ 0 ≤ k ∧ k < m.get_count ∧
        k < m.get_array.get_count ∧
        (∃ a, m.get i j = some a) ∧
        (∃ r, m.set i j v = some r) ∧
        (m.get_array.has_mutable_data = true →
          ∃ m1, m.set i j v = some (.ok m1) ∧
            m1.get_array.data = m.get_array.data.set k.toNat v)) ∧
    (∀ i j i1 j1 : Int, 0 ≤ i → i < m.get_row_count → 0 ≤ j → j < m.get_column_count →
      0 ≤ i1 → i1 < m.get_row_count → 0 ≤ j1 → j1 < m.get_column_count →
      m.get_linear_index i j = m.get_linear_index i1 j1 → i = i1 ∧ j = j1) ∧
    (∀ k : Int, 0 ≤ k → k < m.get_count →
      ∃ i j : Int, 0 ≤ i ∧ i < m.get_row_count ∧ 0 ≤ j ∧ j < m.get_column_count ∧
        m.get_linear_index i j = some k) := by
  obtain ⟨-, -, -, -, -, hcount⟩ := matrix_create_eq_some _ _ _ _ m hm
  have hsh : 0 ≤ m.shape_.row_count ∧ 0 ≤ m.shape_.column_count :=
    shape_create_eq_some m.shape_ hs
  have hcount1 : m.get_row_count * m.get_column_count ≤ m.x_.get_count := hcount
  have hrc : m.get_row_count = m.shape_.row_count := rfl
  have hcc : m.get_column_count = m.shape_.column_count := rfl
  have hgc : m.get_count = m.get_row_count * m.get_column_count := rfl
  have hstride : m.get_stride
      = if m.lyt = layout.row_major then m.get_column_count else m.get_row_count := by
    rw [hd]; rfl
  have hidx : ∀ i j : Int, 0 ≤ i → i < m.get_row_count → 0 ≤ j → j < m.get_column_count →
      ∃ k, m.get_linear_index i j = some k ∧ 0 ≤ k ∧ k < m.get_count ∧
        (m.lyt = layout.row_major → k = i * m.get_column_count + j) ∧
        (m.lyt ≠ layout.row_major → k = j * m.get_row_count + i) := by
    intro i j hi0 hi1 hj0 hj1
    have h := get_linear_index_in_bounds m.tomatrix_base i j hi0 hi1 hj0 hj1
    by_cases hl : m.lyt = layout.row_major
    · rw [if_pos hl, hstride, if_pos hl] at h
      have hb := mixed_radix_lt m.get_row_count m.get_column_count i j hi0 hi1 hj0 hj1
      exact ⟨_, h, hb.1, by rw [hgc]; exact hb.2, fun _ => rfl, fun hn => absurd hl hn⟩
    · rw [if_neg hl, hstride, if_neg hl] at h
      have hb := mixed_radix_lt m.get_column_count m.get_row_count j i hj0 hj1 hi0 hi1
      exact ⟨_, h, hb.1,
        by rw [hgc, Int.mul_comm m.get_row_count m.get_column_count]; exact hb.2,
        fun hy => absurd hy hl, fun _ => rfl⟩
  refine ⟨?_, ?_, ?_⟩
  · intro i j hi0 hi1 hj0 hj1
    obtain ⟨k, hk, hk0, hk1, -, -⟩ := hidx i j hi0 hi1 hj0 hj1
    have hkx : k < m.x_.get_count := by omega
    have hklen : k.toNat < m.x_.data.length := by
      unfold array.get_count at hkx; omega
    refine ⟨k, hk, hk0, hk1, hkx, ?_, ?_, ?_⟩
    · unfold matrix.get
      rw [hk]
      unfold matrix.get_linear
      simp only
      rw [if_neg (by omega)]
      exact ⟨_, List.getElem?_eq_getElem hklen⟩
    · unfold matrix.set
      cases hmut : m.x_.get_mutable_data with
      | error err => exact ⟨_, rfl⟩
      | ok p =>
        simp only
        rw [hk]
        simp only
        rw [if_neg (by unfold array.get_count at hkx; omega)]
        exact ⟨_, rfl⟩
    · intro hmut
      unfold matrix.set array.get_mutable_data
      have hmut1 : m.x_.is_mutable = true := hmut
      rw [if_pos hmut1]
      simp only
      rw [hk]
      simp only
      rw [if_neg (by unfold array.get_count at hkx; omega)]
      exact ⟨_, rfl, rfl⟩
  · intro i j i1 j1 hi0 hi1 hj0 hj1 hi10 hi11 hj10 hj11 heq
    obtain ⟨k, hk, -, -, hrow, hcol⟩ := hidx i j hi0 hi1 hj0 hj1
    obtain ⟨k1, hk1, -, -, hrow1, hcol1⟩ := hidx i1 j1 hi10 hi11 hj10 hj11
    rw [hk, hk1] at heq
    have hkk : k = k1 := Option.some.inj heq
    by_cases hl : m.lyt = layout.row_major
    · have h := mixed_radix_injective m.get_column_count i j i1 j1 hj0 hj1 hj10 hj11
        (by rw [← hrow hl, ← hrow1 hl]; exact hkk)
      exact h
    · have h := mixed_radix_injective m.get_row_count j i j1 i1 hi0 hi1 hi10 hi11
        (by rw [← hcol hl, ← hcol1 hl]; exact hkk)
      exact ⟨h.2, h.1⟩
  · intro k hk0 hk1
    rw [hgc] at hk1
    by_cases hl : m.lyt = layout.row_major
    · obtain ⟨a, b, ha0, ha1, hb0, hb1, hab⟩ :=
        mixed_radix_surjective m.get_row_count m.get_column_count k (by rw [hcc]; exact hsh.2)
          hk0 hk1
      obtain ⟨k2, hk2, -, -, hrow, -⟩ := hidx a b ha0 ha1 hb0 hb1
      refine ⟨a, b, ha0, ha1, hb0, hb1, ?_⟩
      rw [hk2, hrow hl, hab]
    · obtain ⟨a, b, ha0, ha1, hb0, hb1, hab⟩ :=
        mixed_radix_surjective m.get_column_count m.get_row_count k (by rw [hrc]; exact hsh.1)
          hk0 (by rw [Int.mul_comm m.get_column_count m.get_row_count]; exact hk1)
      obtain ⟨k2, hk2, -, -, -, hcol⟩ := hidx b a hb0 hb1 ha0 ha1
      refine ⟨b, a, hb0, hb1, ha0, ha1, ?_⟩
      rw [hk2, hcol hl, hab]

/-- The 2x3 row-major matrix over `[1, 2, 3, 4, 5, 6]`: cell `(1, 2)` has index
5 and holds 6. -/
theorem default_stride_linear_index_is_bijection_witness :
    ((∀ i j : Int, 0 ≤ i → i < 2 → 0 ≤ j → j < 3 →
      ∃ k, matrix_2x3.get_linear_index i j = some k ∧ 0 ≤ k ∧ k < 2 * 3 ∧
        k < matrix_2x3.get_array.get_count ∧
        (∃ a, matrix_2x3.get i j = some a) ∧
        (∃ r, matrix_2x3.set i j 9 = some r) ∧
        (matrix_2x3.get_array.has_mutable_data = true →
          ∃ m1, matrix_2x3.set i j 9 = some (.ok m1) ∧
            m1.get_array.data = matrix_2x3.get_array.data.set k.toNat 9)) ∧
    (∀ i j i1 j1 : Int, 0 ≤ i → i < 2 → 0 ≤ j → j < 3 →
      0 ≤ i1 → i1 < 2 → 0 ≤ j1 → j1 < 3 →
      matrix_2x3.get_linear_index i j = matrix_2x3.get_linear_index i1 j1 →
      i = i1 ∧ j = j1) ∧
    (∀ k : Int, 0 ≤ k → k < 2 * 3 →
      ∃ i j : Int, 0 ≤ i ∧ i < 2 ∧ 0 ≤ j ∧ j < 3 ∧
        matrix_2x3.get_linear_index i j = some k)) ∧
    matrix_2x3.get_linear_index 1 2 = some 5 ∧ matrix_2x3.get 1 2 = some 6 ∧
    matrix_2x3.set 1 2 9 = some (.error .immutable_buffer_error) :=
  ⟨default_stride_linear_index_is_bijection matrix_2x3 9 (by decide) (by decide) (by decide),
    by decide, by decide, rfl⟩

end oneapi.dal.linalg

/-! ## Two-class label conversion -/

namespace oneapi.dal.svm.backend

/-- Element `j` of `written_upto`. -/
theorem written_upto_getElem? {V : Type} (eq : V → V → Bool) (l : List V) (first : V)
    (inl : binary_label_t V) (w j : Nat) :
    (written_upto eq l first inl w)[j]?
      = if j < l.length then
          some (if j < w then (l[j]?).map (converted_label eq first inl j) else none)
        else none := by
  unfold written_upto
  rw [List.getElem?_map]
  by_cases hj : j < l.length
  · rw [List.getElem?_range hj, if_pos hj]; rfl
  · rw [if_neg hj, List.getElem?_eq_none (by simpa using hj)]; rfl

/-- The fresh array has as many elements as the input. -/
theorem written_upto_length {V : Type} (eq : V → V → Bool) (l : List V) (first : V)
    (inl : binary_label_t V) (w : Nat) :
    (written_upto eq l first inl w).length = l.length := by
  unfold written_upto; simp

/-- Nothing is written at the start. -/
theorem written_upto_zero {V : Type} (eq : V → V → Bool) (l : List V) (first : V)
    (inl : binary_label_t V) :
    written_upto eq l first inl 0 = List.replicate l.length none := by
  apply List.ext_getElem?
  intro j
  rw [written_upto_getElem?, List.getElem?_replicate]
  by_cases hj : j < l.length
  · rw [if_pos hj, if_pos hj, if_neg (Nat.not_lt_zero j)]
  · rw [if_neg hj, if_neg hj]

/-- When every position has been written the array holds the converted
labels. -/
theorem written_upto_full {V : Type} (eq : V → V → Bool) (l : List V) (first : V)
    (inl : binary_label_t V) :
    written_upto eq l first inl l.length = (converted_labels eq first inl l).map some := by
  apply List.ext_getElem?
  intro j
  unfold converted_labels
  rw [written_upto_getElem?, List.getElem?_map, List.getElem?_mapIdx]
  by_cases hj : j < l.length
  · rw [if_pos hj, if_pos hj, List.getElem?_eq_getElem hj]; rfl
  · rw [if_neg hj, List.getElem?_eq_none (by omega)]; rfl

/-- Writing the converted label of position `m <= w` moves the written prefix
to `max w (m + 1)`. -/
theorem written_upto_set {V : Type} (eq : V → V → Bool) (l : List V) (first : V)
    (inl : binary_label_t V) (w m : Nat) (a : V) (hm : m < l.length) (hmw : m ≤ w)
    (ha : l[m]? = some a) :
    (written_upto eq l first inl w).set m (some (converted_label eq first inl m a))
      = written_upto eq l first inl (max w (m + 1)) := by
  apply List.ext_getElem?
  intro j
  rw [List.getElem?_set, written_upto_getElem?, written_upto_getElem?, written_upto_length]
  by_cases hmj : m = j
  · subst hmj
    rw [if_pos rfl, if_pos hm, if_pos hm, if_pos (by omega), ha]; rfl
  · rw [if_neg hmj]
    by_cases hj : j < l.length
    · rw [if_pos hj, if_pos hj]
      by_cases hjw : j < w
      · rw [if_pos hjw, if_pos (by omega)]
      · rw [if_neg hjw, if_neg (by omega)]
    · rw [if_neg hj, if_neg hj]

/-- An index that holds an element lies inside the list. -/
theorem lt_length_of_getElem? {V : Type} (l : List V) (j : Nat) (x : V)
    (h : l[j]? = some x) : j < l.length := by
  by_contra hc
  rw [List.getElem?_eq_none (by omega)] at h
  cases h

/-- The first loop, entered at `i = m >= 1` after the positions below `m` have
been written, the labels at `1 .. m - 1` comparing equal to the first label:
it either runs to the end over such labels only, or stops at the first index
`k` whose label `s` does not compare equal to the first label, with
`value_second_class_label = s` and position `k` written. -/
theorem first_loop_spec {V : Type} (eq : V → V → Bool) (l : List V)
    (inl : binary_label_t V) (first s0 : V) :
    ∀ (fuel m : Nat), 1 ≤ m → m ≤ l.length → l.length - m < fuel →
      (∀ j a, 1 ≤ j → j < m → l[j]? = some a → eq a first = true) →
      ∃ st, convert_labels_first_loop eq l l.length inl first fuel
          { i := m, value_second_class_label := s0,
            new_label_data := written_upto eq l first inl m } = .returned st ∧
        ((st = { i := l.length, value_second_class_label := s0,
                 new_label_data := written_upto eq l first inl l.length } ∧
            ∀ j a, 1 ≤ j → l[j]? = some a → eq a first = true) ∨
          ∃ k s, m ≤ k ∧ k < l.length ∧ l[k]? = some s ∧ eq s first = false ∧
            (∀ j a, 1 ≤ j → j < k → l[j]? = some a → eq a first = true) ∧
            st = { i := k, value_second_class_label := s,
                   new_label_data := written_upto eq l first inl (k + 1) }) := by
  intro fuel
  induction fuel with
  | zero => intro m _ _ hfuel _; omega
  | succ f ih =>
    intro m hm1 hm hfuel hprev
    unfold convert_labels_first_loop
    by_cases hlt : m < l.length
    · have ha : l[m]? = some l[m] := List.getElem?_eq_getElem hlt
      have hset := written_upto_set eq l first inl m m l[m] hlt (le_refl m) ha
      rw [Nat.max_eq_right (Nat.le_succ m)] at hset
      simp only [if_pos hlt, ha, written_upto_length]
      by_cases hfirst : eq l[m] first = true
      · have hconv : converted_label eq first inl m l[m] = inl.first := by
          unfold converted_label; rw [if_pos (Or.inr hfirst)]
        rw [hconv] at hset
        simp only [if_pos hfirst, hset]
        have hprev1 : ∀ j a, 1 ≤ j → j < m + 1 → l[j]? = some a → eq a first = true := by
          intro j a hj1 hj hja
          by_cases hjm : j = m
          · rw [hjm, ha] at hja
            rw [← Option.some.inj hja]; exact hfirst
          · exact hprev j a hj1 (by omega) hja
        obtain ⟨st, hst, hcases⟩ := ih (m + 1) (by omega) (by omega) (by omega) hprev1
        refine ⟨st, hst, ?_⟩
        rcases hcases with hA | ⟨k, s, hk1, hk2, hk3, hk4, hk5, hk6⟩
        · exact Or.inl hA
        · exact Or.inr ⟨k, s, by omega, hk2, hk3, hk4, hk5, hk6⟩
      · have hconv : converted_label eq first inl m l[m] = inl.second := by
          unfold converted_label
          rw [if_neg (fun h => h.elim (fun h0 => by omega) hfirst)]
        rw [hconv] at hset
        simp only [if_neg hfirst, hset]
        exact ⟨_, rfl, Or.inr ⟨m, l[m], le_refl m, hlt, ha,
          Bool.eq_false_iff.mpr hfirst, hprev, rfl⟩⟩
    · have hmn : m = l.length := by omega
      simp only [if_neg hlt]
      refine ⟨_, rfl, Or.inl ⟨?_, ?_⟩⟩
      · rw [hmn]
      · intro j a hj1 hja
        exact hprev j a hj1 (by have := lt_length_of_getElem? l j a hja; omega) hja

/-- The second loop, entered at `i = m >= 1` with the positions below `w`
(`m <= w <= m + 1`) written: it runs to the end when every remaining label
compares equal to the first or to the second class label, and throws
otherwise. -/
theorem second_loop_spec {V : Type} (eq : V → V → Bool) (l : List V)
    (inl : binary_label_t V) (first s : V) :
    ∀ (fuel m w : Nat), 1 ≤ m → m ≤ l.length → m ≤ w → w ≤ m + 1 → w ≤ l.length →
      l.length - m < fuel →
      ((∀ j a, m ≤ j → l[j]? = some a → eq a first = true ∨ eq a s = true) →
        convert_labels_second_loop eq l l.length inl first fuel
            { i := m, value_second_class_label := s,
              new_label_data := written_upto eq l first inl w }
          = .returned { i := l.length, value_second_class_label := s,
                        new_label_data := written_upto eq l first inl l.length }) ∧
      (¬ (∀ j a, m ≤ j → l[j]? = some a → eq a first = true ∨ eq a s = true) →
        convert_labels_second_loop eq l l.length inl first fuel
            { i := m, value_second_class_label := s,
              new_label_data := written_upto eq l first inl w }
          = .thrown (.invalid_argument
              .input_labels_contain_wrong_unique_values_count_expect_two)) := by
  intro fuel
  induction fuel with
  | zero => intro m w _ _ _ _ _ hfuel; omega
  | succ f ih =>
    intro m w hm1 hm hmw hwm hwn hfuel
    unfold convert_labels_second_loop
    by_cases hlt : m < l.length
    · have ha : l[m]? = some l[m] := List.getElem?_eq_getElem hlt
      have hmax : max w (m + 1) = m + 1 := by omega
      have hset := written_upto_set eq l first inl w m l[m] hlt hmw ha
      rw [hmax] at hset
      have hsplit : (∀ j a, m ≤ j → l[j]? = some a → eq a first = true ∨ eq a s = true) ↔
          ((eq l[m] first = true ∨ eq l[m] s = true) ∧
            ∀ j a, m + 1 ≤ j → l[j]? = some a → eq a first = true ∨ eq a s = true) := by
        constructor
        · intro h
          exact ⟨h m l[m] (le_refl m) ha, fun j a hj1 hja => h j a (by omega) hja⟩
        · rintro ⟨h0, h1⟩ j a hj1 hja
          by_cases hjm : j = m
          · rw [hjm, ha] at hja
            rw [← Option.some.inj hja]; exact h0
          · exact h1 j a (by omega) hja
      simp only [if_pos hlt, ha, written_upto_length]
      by_cases hfirst : eq l[m] first = true
      · have hconv : converted_label eq first inl m l[m] = inl.first := by
          unfold converted_label; rw [if_pos (Or.inr hfirst)]
        rw [hconv] at hset
        simp only [if_pos hfirst, hset]
        obtain ⟨ih1, ih2⟩ := ih (m + 1) (m + 1) (by omega) (by omega) (le_refl _) (by omega)
          (by omega) (by omega)
        rw [hsplit]
        exact ⟨fun h => ih1 h.2, fun h => ih2 (fun h2 => h ⟨Or.inl hfirst, h2⟩)⟩
      · have hconv : converted_label eq first inl m l[m] = inl.second := by
          unfold converted_label
          rw [if_neg (fun h => h.elim (fun h0 => by omega) hfirst)]
        rw [hconv] at hset
        by_cases hsec : eq l[m] s = true
        · simp only [if_neg hfirst, if_pos hsec, hset]
          obtain ⟨ih1, ih2⟩ := ih (m + 1) (m + 1) (by omega) (by omega) (le_refl _) (by omega)
            (by omega) (by omega)
          rw [hsplit]
          exact ⟨fun h => ih1 h.2, fun h => ih2 (fun h2 => h ⟨Or.inr hsec, h2⟩)⟩
        · simp only [if_neg hfirst, if_neg hsec]
          rw [hsplit]
          refine ⟨fun h => ?_, fun _ => trivial⟩
          rcases h.1 with h1 | h1
          · exact absurd h1 hfirst
          · exact absurd h1 hsec
    · have hmn : m = l.length := by omega
      have hwn1 : w = l.length := by omega
      simp only [if_neg hlt]
      refine ⟨fun _ => ?_, fun h => ?_⟩
      · rw [hmn, hwn1]
      · exact absurd (fun j a hj1 hja => by
          have := lt_length_of_getElem? l j a hja; omega) h

/-- Once every position has been written, nothing of the uninitialised
contents of the fresh array is left. -/
theorem zipWith_getD_written {V : Type} :
    ∀ (c old : List V), old.length = c.length →
      List.zipWith (fun (written : Option V) (o : V) => written.getD o)
        (c.map some) old = c := by
  intro c
  induction c with
  | nil => intro old _; simp
  | cons a t ih =>
    intro old hlen
    cases old with
    | nil => simp at hlen
    | cons b u =>
      simp only [List.map_cons, List.zipWith_cons_cons, Option.getD_some]
      rw [ih u (by simpa using hlen)]

/-- The converted labels are as many as the labels. -/
theorem converted_labels_length {V : Type} (eq : V → V → Bool) (first : V)
    (inl : binary_label_t V) (l : List V) :
    (converted_labels eq first inl l).length = l.length := by
  unfold converted_labels; exact List.length_mapIdx

/-- Element `j` of the converted labels. -/
theorem converted_labels_getElem? {V : Type} (eq : V → V → Bool) (first : V)
    (inl : binary_label_t V) (l : List V) (j : Nat) :
    (converted_labels eq first inl l)[j]? = (l[j]?).map (converted_label eq first inl j) := by
  unfold converted_labels; exact List.getElem?_mapIdx

/-- The state in which the first loop is entered: position 0 written. -/
theorem fresh_set_zero {V : Type} (eq : V → V → Bool) (l : List V) (first : V)
    (inl : binary_label_t V) (hn : 0 < l.length) (h0 : l[0]? = some first) :
    (List.replicate l.length (none : Option V)).set 0 (some inl.first)
      = written_upto eq l first inl 1 := by
  have hconv : converted_label eq first inl 0 first = inl.first := by
    unfold converted_label; rw [if_pos (Or.inl rfl)]
  have hset := written_upto_set eq l first inl 0 0 first hn (le_refl 0) h0
  rw [hconv, written_upto_zero] at hset
  exact hset

/-- What a call of `convert_labels` on an array of at least two labels does,
given enough fuel for the two loops, whatever the comparison `eq` is.  With
`first` and `second` the labels at index 0 and 1: either all labels after the
first compare equal to `first`, and the call throws the
only-one-unique-value error if `first == second` and returns otherwise; or
there is a least index `k >= 1` with a label `s` that does not compare equal
to `first`: then the call throws the only-one-unique-value error if
`first == s`, returns the converted labels and reports `(first, s)` if every
label from `k` on compares equal to `first` or to `s`, and throws the
wrong-unique-values-count error otherwise. -/
theorem convert_labels_cases {V : Type} (eq : V → V → Bool) (fuel : Nat) (al : allocator)
    (uninit : Nat → V) (arr_label : array V) (inl outl : binary_label_t V) (first second : V)
    (hn : 2 ≤ arr_label.data.length) (hfuel : arr_label.data.length ≤ fuel)
    (h0 : arr_label.data[0]? = some first) (h1 : arr_label.data[1]? = some second) :
    ((∀ j a, 1 ≤ j → arr_label.data[j]? = some a → eq a first = true) ∧
      ((eq first second = true ∧
          convert_labels eq fuel al uninit arr_label inl outl
            = { result := .thrown (.invalid_argument
                  .input_labels_contain_only_one_unique_value_expect_two)
                arr_label := arr_label
                out_binary_labels := outl
                new_label_data :=
                  written_upto eq arr_label.data first inl arr_label.data.length
                al := (array.empty al ((List.range arr_label.data.length).map uninit)).2 }) ∨
        (eq first second = false ∧
          convert_labels eq fuel al uninit arr_label inl outl
            = { result := .returned
                  { (array.empty al ((List.range arr_label.data.length).map uninit)).1 with
                    data := converted_labels eq first inl arr_label.data }
                arr_label := arr_label
                out_binary_labels := { first := first, second := second }
                new_label_data :=
                  written_upto eq arr_label.data first inl arr_label.data.length
                al := (array.empty al ((List.range arr_label.data.length).map uninit)).2 }))) ∨
    ∃ k s, 1 ≤ k ∧ k < arr_label.data.length ∧ arr_label.data[k]? = some s ∧
      eq s first = false ∧
      (∀ j a, 1 ≤ j → j < k → arr_label.data[j]? = some a → eq a first = true) ∧
      ((eq first s = true ∧
          convert_labels eq fuel al uninit arr_label inl outl
            = { result := .thrown (.invalid_argument
                  .input_labels_contain_only_one_unique_value_expect_two)
                arr_label := arr_label
                out_binary_labels := outl
                new_label_data := written_upto eq arr_label.data first inl (k + 1)
                al := (array.empty al ((List.range arr_label.data.length).map uninit)).2 }) ∨
        (eq first s = false ∧
          (∀ j a, k ≤ j → arr_label.data[j]? = some a → eq a first = true ∨ eq a s = true) ∧
          convert_labels eq fuel al uninit arr_label inl outl
            = { result := .returned
                  { (array.empty al ((List.range arr_label.data.length).map uninit)).1 with
                    data := converted_labels eq first inl arr_label.data }
                arr_label := arr_label
                out_binary_labels := { first := first, second := s }
                new_label_data :=
                  written_upto eq arr_label.data first inl arr_label.data.length
                al := (array.empty al ((List.range arr_label.data.length).map uninit)).2 }) ∨
        (eq first s = false ∧
          ¬ (∀ j a, k ≤ j → arr_label.data[j]? = some a →
            eq a first = true ∨ eq a s = true) ∧
          convert_labels eq fuel al uninit arr_label inl outl
            = { result := .thrown (.invalid_argument
                  .input_labels_contain_wrong_unique_values_count_expect_two)
                arr_label := arr_label
                out_binary_labels := outl
                new_label_data := written_upto eq arr_label.data first inl (k + 1)
                al := (array.empty al ((List.range arr_label.data.length).map uninit)).2 })) := by
  have hmut : (array.empty al ((List.range arr_label.data.length).map uninit)).1.get_mutable_data
      = .ok (array.empty al ((List.range arr_label.data.length).map uninit)).1.data_ptr := by
    unfold array.get_mutable_data
    rw [array_empty_is_mutable]; rfl
  have hfresh := fresh_set_zero eq arr_label.data first inl (by omega) h0
  have hprev1 : ∀ j a, 1 ≤ j → j < 1 → arr_label.data[j]? = some a → eq a first = true := by
    intro j a hj1 hj; omega
  obtain ⟨st1, hst1, hcases⟩ := first_loop_spec eq arr_label.data inl first second
    fuel 1 (le_refl 1) (by omega) (by omega) hprev1
  have hunfold : convert_labels eq fuel al uninit arr_label inl outl
      = (if eq first st1.value_second_class_label = true then
            ({ result := .thrown (.invalid_argument
                .input_labels_contain_only_one_unique_value_expect_two)
               arr_label := arr_label
               out_binary_labels := outl
               new_label_data := st1.new_label_data
               al := (array.empty al ((List.range arr_label.data.length).map uninit)).2 } :
              convert_labels_run V)
          else
            match convert_labels_second_loop eq arr_label.data arr_label.data.length inl
                first fuel st1 with
            | .returned st2 =>
              { result := .returned
                  { (array.empty al ((List.range arr_label.data.length).map uninit)).1 with
                    data := List.zipWith (fun written old => written.getD old)
                      st2.new_label_data
                      (array.empty al ((List.range arr_label.data.length).map uninit)).1.data }
                arr_label := arr_label
                out_binary_labels := { first := first, second := st2.value_second_class_label }
                new_label_data := st2.new_label_data
                al := (array.empty al ((List.range arr_label.data.length).map uninit)).2 }
            | .thrown err =>
              { result := .thrown err
                arr_label := arr_label
                out_binary_labels := outl
                new_label_data := st1.new_label_data
                al := (array.empty al ((List.range arr_label.data.length).map uninit)).2 }
            | .out_of_bounds =>
              { result := .out_of_bounds
                arr_label := arr_label
                out_binary_labels := outl
                new_label_data := st1.new_label_data
                al := (array.empty al ((List.range arr_label.data.length).map uninit)).2 }
            | .out_of_fuel =>
              { result := .out_of_fuel
                arr_label := arr_label
                out_binary_labels := outl
                new_label_data := st1.new_label_data
                al := (array.empty al ((List.range arr_label.data.length).map uninit)).2 }) := by
    unfold convert_labels
    simp only [hmut, h0, h1, List.length_replicate, hfresh, hst1]
    rw [if_pos (by omega)]
  have hzip : List.zipWith (fun (written : Option V) (old : V) => written.getD old)
      ((converted_labels eq first inl arr_label.data).map some)
      (array.empty al ((List.range arr_label.data.length).map uninit)).1.data
        = converted_labels eq first inl arr_label.data :=
    zipWith_getD_written _ _ (by rw [array_empty_data, converted_labels_length]; simp)
  rw [hunfold]
  rcases hcases with ⟨hst, hall⟩ | ⟨k, s, hk1, hk2, hk3, hk4, hk5, hst⟩
  · left
    refine ⟨hall, ?_⟩
    have hsec : st1.value_second_class_label = second := by rw [hst]
    by_cases he : eq first second = true
    · left
      refine ⟨he, ?_⟩
      rw [if_pos (by rw [hsec]; exact he), hst]
    · right
      refine ⟨Bool.eq_false_iff.mpr he, ?_⟩
      rw [if_neg (by rw [hsec]; exact he), hst]
      obtain ⟨hok, -⟩ := second_loop_spec eq arr_label.data inl first second fuel
        arr_label.data.length arr_label.data.length (by omega) (le_refl _) (le_refl _)
        (by omega) (le_refl _) (by omega)
      rw [hok (fun j a hj hja => by
        have := lt_length_of_getElem? arr_label.data j a hja; omega)]
      simp only [written_upto_full]
      rw [hzip]
  · right
    refine ⟨k, s, hk1, hk2, hk3, hk4, hk5, ?_⟩
    have hsec : st1.value_second_class_label = s := by rw [hst]
    by_cases he : eq first s = true
    · left
      refine ⟨he, ?_⟩
      rw [if_pos (by rw [hsec]; exact he), hst]
    · right
      rw [if_neg (by rw [hsec]; exact he), hst]
      obtain ⟨hok, hbad⟩ := second_loop_spec eq arr_label.data inl first s fuel k (k + 1)
        (by omega) (by omega) (by omega) (le_refl _) (by omega) (by omega)
      by_cases hall : ∀ j a, k ≤ j → arr_label.data[j]? = some a →
          eq a first = true ∨ eq a s = true
      · left
        refine ⟨Bool.eq_false_iff.mpr he, hall, ?_⟩
        rw [hok hall]
        simp only [written_upto_full]
        rw [hzip]
      · right
        refine ⟨Bool.eq_false_iff.mpr he, hall, ?_⟩
        rw [hbad hall]

/-- What a call of `convert_labels` does when `==` holds between equal values
only: with `first` the label at index 0, either all labels after it compare
equal to `first` and the call throws the only-one-unique-value error, or
there is a least index `k >= 1` with a label `s` that does not compare equal
to `first`; then, if every label after the first compares equal to `first`
or to `s`, the call returns the converted labels and reports `(first, s)`,
and else it throws the wrong-unique-values-count error. -/
theorem convert_labels_cases_exact {V : Type} (eq : V → V → Bool) (fuel : Nat)
    (al : allocator) (uninit : Nat → V) (arr_label : array V) (inl outl : binary_label_t V)
    (first : V) (hexact : ∀ a b, eq a b = true → a = b)
    (hn : 2 ≤ arr_label.data.length) (hfuel : arr_label.data.length ≤ fuel)
    (h0 : arr_label.data[0]? = some first) :
    ((∀ j a, 1 ≤ j → arr_label.data[j]? = some a → eq a first = true) ∧
      convert_labels eq fuel al uninit arr_label inl outl
        = { result := .thrown (.invalid_argument
              .input_labels_contain_only_one_unique_value_expect_two)
            arr_label := arr_label
            out_binary_labels := outl
            new_label_data := written_upto eq arr_label.data first inl arr_label.data.length
            al := (array.empty al ((List.range arr_label.data.length).map uninit)).2 }) ∨
    ∃ k s, 1 ≤ k ∧ k < arr_label.data.length ∧ arr_label.data[k]? = some s ∧
      eq s first = false ∧
      (∀ j a, 1 ≤ j → j < k → arr_label.data[j]? = some a → eq a first = true) ∧
      (((∀ j a, 1 ≤ j → arr_label.data[j]? = some a → eq a first = true ∨ eq a s = true) ∧
          convert_labels eq fuel al uninit arr_label inl outl
            = { result := .returned
                  { (array.empty al ((List.range arr_label.data.length).map uninit)).1 with
                    data := converted_labels eq first inl arr_label.data }
                arr_label := arr_label
                out_binary_labels := { first := first, second := s }
                new_label_data :=
                  written_upto eq arr_label.data first inl arr_label.data.length
                al := (array.empty al ((List.range arr_label.data.length).map uninit)).2 }) ∨
        (¬ (∀ j a, 1 ≤ j → arr_label.data[j]? = some a →
            eq a first = true ∨ eq a s = true) ∧
          convert_labels eq fuel al uninit arr_label inl outl
            = { result := .thrown (.invalid_argument
                  .input_labels_contain_wrong_unique_values_count_expect_two)
                arr_label := arr_label
                out_binary_labels := outl
                new_label_data := written_upto eq arr_label.data first inl (k + 1)
                al := (array.empty al ((List.range arr_label.data.length).map uninit)).2 })) := by
  have h1 : arr_label.data[1]? = some arr_label.data[1] := List.getElem?_eq_getElem (by omega)
  rcases convert_labels_cases eq fuel al uninit arr_label inl outl first _ hn hfuel h0 h1 with
    ⟨hall, ⟨_, hrun⟩ | ⟨he, _⟩⟩ |
    ⟨k, s, hk1, hk2, hk3, hk4, hk5, ⟨he, _⟩ | ⟨_, hc, hrun⟩ | ⟨_, hc, hrun⟩⟩
  · exact Or.inl ⟨hall, hrun⟩
  · exfalso
    have h := hall 1 _ (le_refl 1) h1
    have e := hexact _ _ h
    rw [e] at h he
    rw [h] at he
    cases he
  · exfalso
    have e := hexact _ _ he
    rw [e] at he hk4
    rw [he] at hk4
    cases hk4
  · have hiff : (∀ j a, 1 ≤ j → arr_label.data[j]? = some a →
        eq a first = true ∨ eq a s = true) := by
      intro j a hj hja
      by_cases hjk : j < k
      · exact Or.inl (hk5 j a hj hjk hja)
      · exact hc j a (by omega) hja
    exact Or.inr ⟨k, s, hk1, hk2, hk3, hk4, hk5, Or.inl ⟨hiff, hrun⟩⟩
  · refine Or.inr ⟨k, s, hk1, hk2, hk3, hk4, hk5, Or.inr ⟨?_, hrun⟩⟩
    intro h
    exact hc (fun j a hj hja => h j a (by omega) hja)

/-- A call of `convert_labels` that returns `r`, when `==` holds between equal
values only: there is a least index `k >= 1` holding a label `s` that does
not compare equal to the first one, all labels after the first compare equal
to the first one or to `s`, `r` holds the converted labels and `(first, s)` is
reported. -/
theorem convert_labels_returned {V : Type} (eq : V → V → Bool) (fuel : Nat) (al : allocator)
    (uninit : Nat → V) (arr_label : array V) (inl outl : binary_label_t V) (first : V)
    (r : array V) (hexact : ∀ a b, eq a b = true → a = b)
    (hn : 2 ≤ arr_label.data.length) (hfuel : arr_label.data.length ≤ fuel)
    (h0 : arr_label.data[0]? = some first)
    (hret : (convert_labels eq fuel al uninit arr_label inl outl).result = .returned r) :
    ∃ k s, 1 ≤ k ∧ k < arr_label.data.length ∧ arr_label.data[k]? = some s ∧
      eq s first = false ∧
      (∀ j a, 1 ≤ j → j < k → arr_label.data[j]? = some a → eq a first = true) ∧
      (∀ j a, 1 ≤ j → arr_label.data[j]? = some a → eq a first = true ∨ eq a s = true) ∧
      r.data = converted_labels eq first inl arr_label.data ∧
      (convert_labels eq fuel al uninit arr_label inl outl).out_binary_labels
        = { first := first, second := s } ∧
      (convert_labels eq fuel al uninit arr_label inl outl).new_label_data
        = written_upto eq arr_label.data first inl arr_label.data.length := by
  rcases convert_labels_cases_exact eq fuel al uninit arr_label inl outl first hexact hn hfuel
      h0 with
    ⟨_, hrun⟩ | ⟨k, s, hk1, hk2, hk3, hk4, hk5, ⟨hall, hrun⟩ | ⟨_, hrun⟩⟩
  · rw [hrun] at hret; cases hret
  · refine ⟨k, s, hk1, hk2, hk3, hk4, hk5, hall, ?_, ?_, ?_⟩
    · rw [hrun] at hret
      have hr := outcome.returned.inj hret
      rw [← hr]
    · rw [hrun]
    · rw [hrun]
  · rw [hrun] at hret; cases hret

/-- With at least two labels and enough fuel, a call of `convert_labels`
throws, or it returns with every position of the fresh array written,
whatever the comparison `eq` is. -/
theorem convert_labels_ends {V : Type} (eq : V → V → Bool) (fuel : Nat) (al : allocator)
    (uninit : Nat → V) (arr_label : array V) (inl outl : binary_label_t V) (first : V)
    (hn : 2 ≤ arr_label.data.length) (hfuel : arr_label.data.length ≤ fuel)
    (h0 : arr_label.data[0]? = some first) :
    (∃ err, (convert_labels eq fuel al uninit arr_label inl outl).result = .thrown err) ∨
    ((∃ r, (convert_labels eq fuel al uninit arr_label inl outl).result = .returned r) ∧
      (convert_labels eq fuel al uninit arr_label inl outl).new_label_data
        = written_upto eq arr_label.data first inl arr_label.data.length) := by
  have h1 : arr_label.data[1]? = some arr_label.data[1] := List.getElem?_eq_getElem (by omega)
  rcases convert_labels_cases eq fuel al uninit arr_label inl outl first _ hn hfuel h0 h1 with
    ⟨_, ⟨_, hrun⟩ | ⟨_, hrun⟩⟩ |
    ⟨k, s, _, _, _, _, _, ⟨_, hrun⟩ | ⟨_, _, hrun⟩ | ⟨_, _, hrun⟩⟩
  · left; rw [hrun]; exact ⟨_, rfl⟩
  · right; rw [hrun]; exact ⟨⟨_, rfl⟩, rfl⟩
  · left; rw [hrun]; exact ⟨_, rfl⟩
  · right; rw [hrun]; exact ⟨⟨_, rfl⟩, rfl⟩
  · left; rw [hrun]; exact ⟨_, rfl⟩

/-- A non-empty list that holds `first` everywhere has one distinct value. -/
theorem toFinset_of_all_first {V : Type} [DecidableEq V] (l : List V) (first : V)
    (hn : 0 < l.length) (hall : ∀ j, j < l.length → l[j]? = some first) :
    l.toFinset = {first} := by
  ext x
  rw [List.mem_toFinset, Finset.mem_singleton, List.mem_iff_getElem?]
  constructor
  · rintro ⟨j, hj⟩
    rw [hall j (lt_length_of_getElem? l j x hj)] at hj
    exact (Option.some.inj hj).symm
  · intro hx
    exact ⟨0, by rw [hx]; exact hall 0 hn⟩

/-- A list over `first` and `s` that holds both has these two values. -/
theorem toFinset_of_two {V : Type} [DecidableEq V] (l : List V) (first s : V) (k : Nat)
    (h0 : l[0]? = some first) (hk : l[k]? = some s)
    (hall : ∀ j, j < l.length → l[j]? = some first ∨ l[j]? = some s) :
    l.toFinset = {first, s} := by
  ext x
  rw [List.mem_toFinset, Finset.mem_insert, Finset.mem_singleton, List.mem_iff_getElem?]
  constructor
  · rintro ⟨j, hj⟩
    rcases hall j (lt_length_of_getElem? l j x hj) with h | h
    · rw [h] at hj; exact Or.inl (Option.some.inj hj).symm
    · rw [h] at hj; exact Or.inr (Option.some.inj hj).symm
  · rintro (hx | hx)
    · exact ⟨0, by rw [hx]; exact h0⟩
    · exact ⟨k, by rw [hx]; exact hk⟩

/-- A list that holds three different values has at least three distinct
values. -/
theorem three_le_card_toFinset {V : Type} [DecidableEq V] (l : List V) (first s t : V)
    (k j : Nat) (h0 : l[0]? = some first) (hk : l[k]? = some s) (hj : l[j]? = some t)
    (hs : s ≠ first) (ht1 : t ≠ first) (ht2 : t ≠ s) :
    3 ≤ l.toFinset.card := by
  have h3 : ({first, s, t} : Finset V).card = 3 := by
    rw [Finset.card_eq_three]
    exact ⟨first, s, t, fun h => hs h.symm, fun h => ht1 h.symm, fun h => ht2 h.symm, rfl⟩
  rw [← h3]
  apply Finset.card_le_card
  intro x hx
  rw [Finset.mem_insert, Finset.mem_insert, Finset.mem_singleton] at hx
  rw [List.mem_toFinset, List.mem_iff_getElem?]
  rcases hx with hx | hx | hx
  · exact ⟨0, by rw [hx]; exact h0⟩
  · exact ⟨k, by rw [hx]; exact hk⟩
  · exact ⟨j, by rw [hx]; exact hj⟩

/-- The comparison of integer labels holds between equal values only. -/
theorem int_eq_exact : ∀ a b : Int, int_eq a b = true → a = b := by
  intro a b h
  exact of_decide_eq_true h

/-- The comparison of the floating-point values of the examples holds between
equal values only. -/
theorem sample_float_eq_exact : ∀ a b : sample_float, sample_float.eq a b = true → a = b := by
  intro a b h
  cases a <;> cases b <;> simp [sample_float.eq] at h
  rw [h]

/-! ### Claim C23 -/

/-- The labels `[1, NaN]` hold exactly two distinct values, and the call
throws the wrong-unique-values-count error: the NaN does not compare equal to
the second class label, which it is itself. -/
theorem convert_labels_throws_with_two_distinct_values_one_nan :
    float_labels_one_nan.data.toFinset.card = 2 ∧
    float_labels_one_nan.data.length = 2 ∧
    (convert_labels sample_float.eq 2 sample_allocator float_uninit float_labels_one_nan
        float_in_labels float_out_labels).result
      = .thrown (.invalid_argument
          .input_labels_contain_wrong_unique_values_count_expect_two) := by
  decide

/-- C23 (amended): for a label array of at least two labels in which no label
after the first is a NaN (`==` holding between equal values only),
`convert_labels` throws `invalid_argument` if and only if the number of
distinct labels is not two: the only-one-unique-value error exactly when there
is one distinct label, the wrong-unique-values-count error exactly when there
are three or more; with two distinct labels it returns, wherever the second
one first appears. -/
theorem convert_labels_throws_iff_not_two_distinct_values {V : Type} [DecidableEq V]
    (eq : V → V → Bool) (fuel : Nat) (al : allocator) (uninit : Nat → V)
    (arr_label : array V) (inl outl : binary_label_t V)
    (hn : 2 ≤ arr_label.data.length) (hfuel : arr_label.data.length ≤ fuel)
    (hexact : ∀ a b, eq a b = true → a = b)
    (hnan : ∀ j a, 1 ≤ j → arr_label.data[j]? = some a → eq a a = true) :
    ((∃ msg, (convert_labels eq fuel al uninit arr_label inl outl).result
        = .thrown (.invalid_argument msg)) ↔ arr_label.data.toFinset.card ≠ 2) ∧
    ((convert_labels eq fuel al uninit arr_label inl outl).result
        = .thrown (.invalid_argument .input_labels_contain_only_one_unique_value_expect_two)
      ↔ arr_label.data.toFinset.card = 1) ∧
    ((convert_labels eq fuel al uninit arr_label inl outl).result
        = .thrown (.invalid_argument
            .input_labels_contain_wrong_unique_values_count_expect_two)
      ↔ 3 ≤ arr_label.data.toFinset.card) ∧
    (arr_label.data.toFinset.card = 2 →
      ∃ r, (convert_labels eq fuel al uninit arr_label inl outl).result = .returned r) := by
  have h0 : arr_label.data[0]? = some arr_label.data[0] := List.getElem?_eq_getElem (by omega)
  have hne : ∀ j a b, 1 ≤ j → arr_label.data[j]? = some a → eq a b = false → a ≠ b := by
    intro j a b hj hja hab e
    have h := hnan j a hj hja
    rw [← e, h] at hab
    cases hab
  rcases convert_labels_cases_exact eq fuel al uninit arr_label inl outl _ hexact hn hfuel
      h0 with
    ⟨hall, hrun⟩ | ⟨k, s, hk1, hk2, hk3, hk4, hk5, ⟨hall, hrun⟩ | ⟨hall, hrun⟩⟩
  · have hall1 : ∀ j, j < arr_label.data.length →
        arr_label.data[j]? = some arr_label.data[0] := by
      intro j hj
      by_cases hj0 : j = 0
      · rw [hj0]; exact h0
      · have hja : arr_label.data[j]? = some arr_label.data[j] := List.getElem?_eq_getElem hj
        rw [hja, hexact _ _ (hall j _ (by omega) hja)]
    have hcard : arr_label.data.toFinset.card = 1 := by
      rw [toFinset_of_all_first arr_label.data _ (by omega) hall1]
      exact Finset.card_singleton _
    rw [hrun, hcard]
    simp
  · have hall1 : ∀ j, j < arr_label.data.length →
        arr_label.data[j]? = some arr_label.data[0] ∨ arr_label.data[j]? = some s := by
      intro j hj
      by_cases hj0 : j = 0
      · rw [hj0]; exact Or.inl h0
      · have hja : arr_label.data[j]? = some arr_label.data[j] := List.getElem?_eq_getElem hj
        rcases hall j _ (by omega) hja with h | h
        · left; rw [hja, hexact _ _ h]
        · right; rw [hja, hexact _ _ h]
    have hcard : arr_label.data.toFinset.card = 2 := by
      rw [toFinset_of_two arr_label.data _ s k h0 hk3 hall1]
      exact Finset.card_pair (fun h => hne k s _ hk1 hk3 hk4 h.symm)
    rw [hrun, hcard]
    simp
  · have hcard : 3 ≤ arr_label.data.toFinset.card := by
      push_neg at hall
      obtain ⟨j, a, hj, hja, ha1, ha2⟩ := hall
      exact three_le_card_toFinset arr_label.data _ s a k j h0 hk3 hja
        (hne k s _ hk1 hk3 hk4)
        (hne j a _ hj hja (Bool.eq_false_iff.mpr ha1))
        (hne j a _ hj hja (Bool.eq_false_iff.mpr ha2))
    rw [hrun]
    simp
    omega

/-- The labels `[5, 5, 7, 5, 7]` hold two values, the second first at index 2:
the call returns; `[5, 5, 5]` and `[5, 6, 5, 8]` end in the two errors; the
labels `[NaN, 1, 1]`, with a NaN at index 0 only, return. -/
theorem convert_labels_throws_iff_not_two_distinct_values_witness :
    (((∃ msg, (convert_labels int_eq 5 sample_allocator sample_uninit sample_labels
          sample_in_labels sample_out_labels).result = .thrown (.invalid_argument msg))
        ↔ sample_labels.data.toFinset.card ≠ 2) ∧
      ((convert_labels int_eq 5 sample_allocator sample_uninit sample_labels sample_in_labels
          sample_out_labels).result
          = .thrown (.invalid_argument .input_labels_contain_only_one_unique_value_expect_two)
        ↔ sample_labels.data.toFinset.card = 1) ∧
      ((convert_labels int_eq 5 sample_allocator sample_uninit sample_labels sample_in_labels
          sample_out_labels).result
          = .thrown (.invalid_argument
              .input_labels_contain_wrong_unique_values_count_expect_two)
        ↔ 3 ≤ sample_labels.data.toFinset.card) ∧
      (sample_labels.data.toFinset.card = 2 →
        ∃ r, (convert_labels int_eq 5 sample_allocator sample_uninit sample_labels
          sample_in_labels sample_out_labels).result = .returned r)) ∧
    sample_labels.data.toFinset.card = 2 ∧
    (convert_labels int_eq 5 sample_allocator sample_uninit sample_labels sample_in_labels
        sample_out_labels).result
      = .returned { data_ptr := 100, data := [-1, -1, 1, -1, 1], is_mutable := true } ∧
    (convert_labels int_eq 3 sample_allocator sample_uninit sample_one_label sample_in_labels
        sample_out_labels).result
      = .thrown (.invalid_argument .input_labels_contain_only_one_unique_value_expect_two) ∧
    (convert_labels int_eq 4 sample_allocator sample_uninit sample_three_labels
        sample_in_labels sample_out_labels).result
      = .thrown (.invalid_argument
          .input_labels_contain_wrong_unique_values_count_expect_two) ∧
    (convert_labels sample_float.eq 3 sample_allocator float_uninit float_labels_nan_first
        float_in_labels float_out_labels).result
      = .returned { data_ptr := 100, data := [.number (-1), .number 1, .number 1],
                    is_mutable := true } :=
  ⟨convert_labels_throws_iff_not_two_distinct_values int_eq 5 sample_allocator sample_uninit
      sample_labels sample_in_labels sample_out_labels (by decide) (by decide) int_eq_exact
      (fun _ a _ _ => decide_eq_true rfl),
    by decide, by decide, by decide, by decide, by decide⟩

/-! ### Claim C24 -/

/-- A converted label is one of the two labels of `in`. -/
theorem converted_label_cases {V : Type} (eq : V → V → Bool) (first : V)
    (inl : binary_label_t V) (j : Nat) (a : V) :
    converted_label eq first inl j a = inl.first ∨
      converted_label eq first inl j a = inl.second := by
  unfold converted_label
  by_cases h : j = 0 ∨ eq a first = true
  · rw [if_pos h]; exact Or.inl rfl
  · rw [if_neg h]; exact Or.inr rfl

/-! ### Claim C25 -/

/-- C26: on a label array of `n >= 2` labels every `arr_label[i]` read and
every `new_label_data[i]` written by `convert_labels` has `i < n` (the run
never leaves the arrays), both loops terminate (with fuel `n` the run does not
run out of fuel: it returns or throws), and when the call returns each of the
`n` positions of the fresh array has been written; this holds whatever the
comparison `==` answers. -/
theorem convert_labels_stays_in_bounds_and_terminates {V : Type} (eq : V → V → Bool)
    (fuel : Nat)
    (al : allocator) (uninit : Nat → V) (arr_label : array V) (inl outl : binary_label_t V)
    (hn : 2 ≤ arr_label.data.length) (hfuel : arr_label.data.length ≤ fuel) :
    (convert_labels eq fuel al uninit arr_label inl outl).result ≠ .out_of_bounds ∧
    (convert_labels eq fuel al uninit arr_label inl outl).result ≠ .out_of_fuel ∧
    ((∃ r, (convert_labels eq fuel al uninit arr_label inl outl).result = .returned r) ∨
      (∃ err, (convert_labels eq fuel al uninit arr_label inl outl).result = .thrown err)) ∧
    (∀ r, (convert_labels eq fuel al uninit arr_label inl outl).result = .returned r →
      (convert_labels eq fuel al uninit arr_label inl outl).new_label_data.length
        = arr_label.data.length ∧
      ∀ i, i < arr_label.data.length →
        ∃ v, (convert_labels eq fuel al uninit arr_label inl outl).new_label_data[i]?
          = some (some v)) := by
  have h0 : arr_label.data[0]? = some arr_label.data[0] := List.getElem?_eq_getElem (by omega)
  rcases convert_labels_ends eq fuel al uninit arr_label inl outl _ hn hfuel h0 with
    ⟨err, herr⟩ | ⟨⟨r, hr⟩, hlog⟩
  · refine ⟨?_, ?_, Or.inr ⟨err, herr⟩, ?_⟩
    · rw [herr]; intro h; cases h
    · rw [herr]; intro h; cases h
    · intro r hr; rw [herr] at hr; cases hr
  · refine ⟨?_, ?_, Or.inl ⟨r, hr⟩, ?_⟩
    · rw [hr]; intro h; cases h
    · rw [hr]; intro h; cases h
    · intro _ _
      rw [hlog]
      refine ⟨written_upto_length _ _ _ _ _, ?_⟩
      intro i hi
      rw [written_upto_getElem?, if_pos hi, if_pos hi, List.getElem?_eq_getElem hi]
      exact ⟨_, rfl⟩

/-- The labels `[5, 5, 7, 5, 7]`: the call returns, and all five positions of
the fresh array have been written. -/
theorem convert_labels_stays_in_bounds_and_terminates_witness :
    ((convert_labels int_eq 5 sample_allocator sample_uninit sample_labels sample_in_labels
        sample_out_labels).result ≠ .out_of_bounds ∧
      (convert_labels int_eq 5 sample_allocator sample_uninit sample_labels sample_in_labels
        sample_out_labels).result ≠ .out_of_fuel ∧
      ((∃ r, (convert_labels int_eq 5 sample_allocator sample_uninit sample_labels
          sample_in_labels sample_out_labels).result = .returned r) ∨
        (∃ err, (convert_labels int_eq 5 sample_allocator sample_uninit sample_labels
          sample_in_labels sample_out_labels).result = .thrown err)) ∧
      (∀ r, (convert_labels int_eq 5 sample_allocator sample_uninit sample_labels
          sample_in_labels sample_out_labels).result = .returned r →
        (convert_labels int_eq 5 sample_allocator sample_uninit sample_labels
          sample_in_labels sample_out_labels).new_label_data.length
          = sample_labels.data.length ∧
        ∀ i, i < sample_labels.data.length →
          ∃ v, (convert_labels int_eq 5 sample_allocator sample_uninit sample_labels
            sample_in_labels sample_out_labels).new_label_data[i]? = some (some v))) ∧
    (convert_labels int_eq 5 sample_allocator sample_uninit sample_labels sample_in_labels
        sample_out_labels).new_label_data
      = [some (-1), some (-1), some 1, some (-1), some 1] :=
  ⟨convert_labels_stays_in_bounds_and_terminates int_eq 5 sample_allocator sample_uninit
      sample_labels sample_in_labels sample_out_labels (by decide) (by decide),
    by decide⟩

/-! ### Claim C27 -/

/-- C27: whenever `convert_labels` throws (one unique label, or a third
label), the caller's `out_binary_labels` is what it was before the call; and
the input array is the same after the call, however the call ends and whatever
the comparison `==` answers. -/
theorem convert_labels_error_leaves_out_labels_and_input {V : Type} (eq : V → V → Bool)
    (fuel : Nat) (al : allocator) (uninit : Nat → V) (arr_label : array V)
    (inl outl : binary_label_t V) :
    (∀ err, (convert_labels eq fuel al uninit arr_label inl outl).result = .thrown err →
      (convert_labels eq fuel al uninit arr_label inl outl).out_binary_labels = outl) ∧
    (convert_labels eq fuel al uninit arr_label inl outl).arr_label = arr_label := by
  constructor
  · intro err
    unfold convert_labels
    dsimp only
    repeat' split
    all_goals first | (intro _; rfl) | (intro h; cases h)
  · unfold convert_labels
    dsimp only
    repeat' split
    all_goals rfl

/-- The labels `[5, 6, 5, 8]` end in the wrong-unique-values-count error and
`[5, 5, 5]` in the only-one-unique-value error: `out_binary_labels` is still
`(0, 0)` and the input arrays are as before. -/
theorem convert_labels_error_leaves_out_labels_and_input_witness :
    ((∀ err, (convert_labels int_eq 4 sample_allocator sample_uninit sample_three_labels
          sample_in_labels sample_out_labels).result = .thrown err →
        (convert_labels int_eq 4 sample_allocator sample_uninit sample_three_labels
          sample_in_labels sample_out_labels).out_binary_labels = sample_out_labels) ∧
      (convert_labels int_eq 4 sample_allocator sample_uninit sample_three_labels
        sample_in_labels sample_out_labels).arr_label = sample_three_labels) ∧
    (convert_labels int_eq 4 sample_allocator sample_uninit sample_three_labels
        sample_in_labels sample_out_labels).result
      = .thrown (.invalid_argument
          .input_labels_contain_wrong_unique_values_count_expect_two) ∧
    (convert_labels int_eq 4 sample_allocator sample_uninit sample_three_labels
        sample_in_labels sample_out_labels).out_binary_labels = sample_out_labels ∧
    (convert_labels int_eq 3 sample_allocator sample_uninit sample_one_label sample_in_labels
        sample_out_labels).result
      = .thrown (.invalid_argument .input_labels_contain_only_one_unique_value_expect_two) ∧
    (convert_labels int_eq 3 sample_allocator sample_uninit sample_one_label sample_in_labels
        sample_out_labels).out_binary_labels = sample_out_labels :=
  ⟨convert_labels_error_leaves_out_labels_and_input int_eq 4 sample_allocator sample_uninit
      sample_three_labels sample_in_labels sample_out_labels,
    by decide, by decide, by decide, by decide⟩

end oneapi.dal.svm.backend
